import Mathlib

/-!
# Brainloller interpreter (src/main.cpp): embedding and verified properties

The development follows `src/main.cpp`:

* `Operation`, `OutputType`, the exception classes (lines 357-476);
* the printers (lines 590-729);
* `GraphicIteratorMachine`, the instruction stream over the image (lines 734-895);
* `GraphicMachine`, the engine (lines 902-1071).

Conventions of the embedding.

* `boost::uint32_t` values are natural numbers reduced with `u32` after every arithmetic
  operation of the source; `cell_t` (`boost::uint8_t`) values are reduced modulo 256;
  `index_t` (`std::vector::size_type`) values are reduced modulo `2^64`.
* `cv::Mat` is a row-major buffer of `Vec3b` pixels.  `Mat.at i j` takes two `int`
  arguments, as `cv::Mat::at(int, int)` does, and reads the buffer at `i * cols + j`,
  exactly the address computed by `cv::Mat::at` (a negative column reaches back into the
  row before); a `boost::uint32_t` passed as a column is converted with `i32`.  A read
  outside the buffer (undefined in the source) yields the black pixel in the model.
* `std::vector::operator[]` outside the vector (undefined in the source) reads `0` and
  writes nothing in the model.
* `std::cin` is the list of the bytes still to be read, `std::cout` the list of the
  characters written so far.
* A `throw` is the outcome `Outcome.thrown e s`, where `s` is the state at the `throw`.
-/

namespace Brainloller

/-! ## Common types (lines 357-379) -/

/-- The `Operation` enumeration, in the order of the source (`OP_UNKNOWN = 0`). -/
inductive Operation where
  | OP_UNKNOWN
  | OP_INC_CELL
  | OP_DEC_CELL
  | OP_NEXT_CELL
  | OP_PREV_CELL
  | OP_READ
  | OP_WRITE
  | OP_BEGIN_LOOP
  | OP_END_LOOP
  | OP_ROTATE_CLOCKWISE
  | OP_ROTATE_COUNTER_CLOCKWISE
  deriving DecidableEq, Repr

/-- The `OutputType` enumeration. -/
inductive OutputType where
  | OT_NULL
  | OT_CHAR
  | OT_HEX
  | OT_BOTH
  deriving DecidableEq, Repr

/-- The concrete exception classes derived from `IMachineException` (lines 404-476). -/
inductive IMachineException where
  | ShitHappendGraphicMachineException
  | UnsupportOperationGraphicMachineException
  | UnknownOperationGraphicMachineException
  | UnexpectedOperationGraphicMachineException
  | UnexpectedEndOfProgrammGraphicMachineException
  deriving DecidableEq, Repr

open Operation OutputType IMachineException

/-- Numeric value of an `Operation` (`static_cast<boost::int32_t>(op)`). -/
def Operation.toNat : Operation → Nat
  | OP_UNKNOWN => 0
  | OP_INC_CELL => 1
  | OP_DEC_CELL => 2
  | OP_NEXT_CELL => 3
  | OP_PREV_CELL => 4
  | OP_READ => 5
  | OP_WRITE => 6
  | OP_BEGIN_LOOP => 7
  | OP_END_LOOP => 8
  | OP_ROTATE_CLOCKWISE => 9
  | OP_ROTATE_COUNTER_CLOCKWISE => 10

/-! ## Machine integers -/

/-- Reduction to `boost::uint32_t`. -/
def u32 (x : Nat) : Nat := x % 4294967296

/-- Conversion of a `boost::uint32_t` to `int` (32 bits, two's complement), as at the call
`gp.at<cv::Vec3b>(1, delta)`. -/
def i32 (x : Nat) : Int :=
  if x % 4294967296 < 2147483648 then ((x % 4294967296 : Nat) : Int)
  else ((x % 4294967296 : Nat) : Int) - 4294967296

/-- Reduction to `cell_t` (`boost::uint8_t`). -/
def u8 (x : Nat) : Nat := x % 256

/-- Reduction to `index_t` (`std::vector<cell_t>::size_type`, 64 bits). -/
def usize (x : Nat) : Nat := x % 18446744073709551616

/-- The operator `x--` on a `cell_t`: the integer `x - 1` converted back to 8 bits. -/
def u8_dec (x : Nat) : Nat := (((x : Int) - 1) % 256).toNat

/-- The operator `x--` on an `index_t`: the integer `x - 1` converted back to 64 bits. -/
def usize_dec (x : Nat) : Nat := (((x : Int) - 1) % 18446744073709551616).toNat

/-! ## Printers (lines 590-729) -/

/-- The four concrete `IPrinter` classes. -/
inductive IPrinter where
  | NullPrinter
  | SimplePrinter
  | SimpleSpacePrinter
  | ClassicalBrainfuckPrinter
  deriving DecidableEq, Repr

/-- The `command` map filled by the constructor of `ClassicalBrainfuckPrinter`
(lines 679-689, strings of lines 719-729). -/
def ClassicalBrainfuckPrinter.command : List (Operation × List Char) :=
  [ (OP_UNKNOWN, []),
    (OP_INC_CELL, ['+']),
    (OP_DEC_CELL, ['-']),
    (OP_NEXT_CELL, ['>']),
    (OP_PREV_CELL, ['<']),
    (OP_READ, [',']),
    (OP_WRITE, ['.']),
    (OP_BEGIN_LOOP, ['[']),
    (OP_END_LOOP, [']']),
    (OP_ROTATE_CLOCKWISE, []),
    (OP_ROTATE_COUNTER_CLOCKWISE, []) ]

/-- The method `print` of each printer; `none` is the `std::out_of_range` of
`std::map::at` (line 701). -/
def IPrinter.print : IPrinter → Operation → Option (List Char)
  | IPrinter.NullPrinter, _ => some []
  | IPrinter.SimplePrinter, op => some (Nat.repr op.toNat).toList
  | IPrinter.SimpleSpacePrinter, op => some ((Nat.repr op.toNat).toList ++ [' '])
  | IPrinter.ClassicalBrainfuckPrinter, op =>
      (ClassicalBrainfuckPrinter.command.find? (fun x => x.1 == op)).map (fun x => x.2)

/-! ## The image -/

/-- A pixel `cv::Vec3b`: three 8-bit channels, indexed 0, 1, 2. -/
structure Vec3b where
  c0 : Nat
  c1 : Nat
  c2 : Nat
  deriving DecidableEq, Repr

/-- The operator `value[i]` of `cv::Vec3b`. -/
def Vec3b.get (v : Vec3b) (i : Nat) : Nat :=
  match i with
  | 0 => v.c0
  | 1 => v.c1
  | _ => v.c2

/-- A continuous 3-channel `cv::Mat`, as returned by `cv::imread(filename, 1)`. -/
structure Mat where
  rows : Nat
  cols : Nat
  data : List Vec3b
  deriving DecidableEq, Repr

/-- The accessor `gp.at<cv::Vec3b>(i, j)` with its two `int` arguments: element
`i * cols + j` of the buffer (`((Vec3b*)(data + step * i))[j]`, no range check). -/
def Mat.at (m : Mat) (i j : Int) : Vec3b :=
  match i * (m.cols : Int) + j with
  | Int.ofNat k => m.data.getD k ⟨0, 0, 0⟩
  | Int.negSucc _ => ⟨0, 0, 0⟩

/-! ## GraphicIteratorMachine (lines 734-895) -/

def CH_NUM_RED : Nat := 2
def CH_NUM_GREEN : Nat := 1
def CH_NUM_BLUE : Nat := 0

def CODE_INC_CELL : Nat := 0x00FF00
def CODE_DEC_CELL : Nat := 0x008000
def CODE_NEXT_CELL : Nat := 0xFF0000
def CODE_PREV_CELL : Nat := 0x800000
def CODE_READ : Nat := 0x000080
def CODE_WRITE : Nat := 0x0000FF
def CODE_BEGIN_LOOP : Nat := 0xFFFF00
def CODE_END_LOOP : Nat := 0x808000
def CODE_ROTATE_CLOCKWISE : Nat := 0x008080
def CODE_ROTATE_COUNTER_CLOCKWISE : Nat := 0x00FFFF

/-- Insertion into a `std::map` kept in increasing key order (`operator[]` followed by an
assignment). -/
def map_insert (k : Nat) (v : Operation) : List (Nat × Operation) → List (Nat × Operation)
  | [] => [(k, v)]
  | (k', v') :: rest =>
      if k < k' then (k, v) :: (k', v') :: rest
      else if k = k' then (k, v) :: rest
      else (k', v') :: map_insert k v rest

/-- The `trans` map built by the constructor (lines 752-761). -/
def trans : List (Nat × Operation) :=
  map_insert CODE_ROTATE_COUNTER_CLOCKWISE OP_ROTATE_COUNTER_CLOCKWISE <|
  map_insert CODE_ROTATE_CLOCKWISE OP_ROTATE_CLOCKWISE <|
  map_insert CODE_END_LOOP OP_END_LOOP <|
  map_insert CODE_BEGIN_LOOP OP_BEGIN_LOOP <|
  map_insert CODE_WRITE OP_WRITE <|
  map_insert CODE_READ OP_READ <|
  map_insert CODE_PREV_CELL OP_PREV_CELL <|
  map_insert CODE_NEXT_CELL OP_NEXT_CELL <|
  map_insert CODE_DEC_CELL OP_DEC_CELL <|
  map_insert CODE_INC_CELL OP_INC_CELL []

/-- The method `code_to_op` (lines 823-838): `std::find_if` over `trans`, `OP_UNKNOWN`
when no key matches. -/
def code_to_op (code : Nat) : Operation :=
  match trans.find? (fun x => x.1 == code) with
  | some x => x.2
  | none => OP_UNKNOWN

/-- The method `pack` (lines 840-848). -/
def pack (value : Vec3b) : Nat :=
  let res := u32 (value.get CH_NUM_RED <<< 0)
  let res := u32 (res + (value.get CH_NUM_GREEN <<< 8))
  let res := u32 (res + (value.get CH_NUM_BLUE <<< 16))
  res

/-- The data members of `GraphicIteratorMachine` (`gp_size.width` is `gp.cols`). -/
structure GraphicIteratorMachine where
  graphic_cell_size : Nat
  cur_pos : Nat
  n : Nat
  gp : Mat
  deriving DecidableEq, Repr

namespace GraphicIteratorMachine

/-- The constructor (lines 742-750) applied to the image read from the file.  The source
divides by `raw_cell_size` without a check; the model is meaningful for a positive cell
size. -/
def create (gp : Mat) (raw_cell_size : Nat) : GraphicIteratorMachine :=
  { graphic_cell_size := raw_cell_size
    cur_pos := 0
    n := u32 (gp.cols / raw_cell_size)
    gp := gp }

/-- The method `init` (line 778). -/
def init (im : GraphicIteratorMachine) : GraphicIteratorMachine :=
  { im with cur_pos := 0 }

/-- The method `get_size` (line 785). -/
def get_size (im : GraphicIteratorMachine) : Nat := im.n

/-- The method `get_cur_pos` (line 792). -/
def get_cur_pos (im : GraphicIteratorMachine) : Nat := im.cur_pos

/-- The method `set_cur_pos` (line 799). -/
def set_cur_pos (im : GraphicIteratorMachine) (pos : Nat) : GraphicIteratorMachine :=
  { im with cur_pos := pos }

/-- The method `get_next` (lines 805-814): the decoded operation and the advanced stream. -/
def get_next (im : GraphicIteratorMachine) : Operation × GraphicIteratorMachine :=
  let delta := u32 (im.cur_pos * im.graphic_cell_size)
  let code := im.gp.at 1 (i32 delta)
  let op := code_to_op (pack code)
  (op, { im with cur_pos := u32 (im.cur_pos + 1) })

/-- The method `is_done` (line 820). -/
def is_done (im : GraphicIteratorMachine) : Bool := decide (im.cur_pos ≥ im.n)

/-- The operation `get_next` decodes when the stream stands at position `p`. -/
def opAt (im : GraphicIteratorMachine) (p : Nat) : Operation :=
  (get_next { im with cur_pos := p }).1

/-- The program of the stream: the operations at the positions `0 .. n - 1`. -/
def program (im : GraphicIteratorMachine) : List Operation :=
  (List.range im.n).map im.opAt

/-- The range of the `boost::uint32_t` data members. -/
def WellTyped (im : GraphicIteratorMachine) : Prop :=
  im.graphic_cell_size < 4294967296 ∧ im.cur_pos < 4294967296 ∧ im.n < 4294967296

instance (im : GraphicIteratorMachine) : Decidable im.WellTyped := by
  unfold WellTyped; infer_instance

end GraphicIteratorMachine

/-! ## GraphicMachine (lines 902-1071) -/

/-- The data members of `GraphicMachine`, with the two standard streams it uses. -/
structure GraphicMachine where
  printer : IPrinter
  im : GraphicIteratorMachine
  ot : OutputType
  cin : List Nat
  cout : List Char
  deriving DecidableEq, Repr

/-- The engine inside `interpretator`: the object and the three reference arguments
`num`, `cells`, `st` (the head of `st` is the top of the `std::stack`). -/
structure State where
  m : GraphicMachine
  num : Nat
  cells : List Nat
  st : List Nat
  deriving DecidableEq, Repr

/-- How a piece of engine code ends: it completes in a state, or it throws in a state. -/
inductive Outcome where
  | normal (s : State)
  | thrown (e : IMachineException) (s : State)
  deriving DecidableEq, Repr

/-- Text of an unsigned value under `std::uppercase << std::hex`. -/
def hex_upper (v : Nat) : List Char := (Nat.toDigits 16 v).map Char.toUpper

/-- Padding of a field to width `w` with the fill character (`std::setfill`, `std::setw`). -/
def setw_fill (w : Nat) (fill : Char) (text : List Char) : List Char :=
  List.replicate (w - text.length) fill ++ text

/-- The method `output` (lines 1034-1066): the characters appended to `std::cout`. -/
def output (ot : OutputType) (value : Nat) : List Char :=
  match ot with
  | OT_CHAR => [Char.ofNat value]
  | OT_HEX => setw_fill 2 '0' (hex_upper (u32 value))
  | OT_BOTH => [Char.ofNat value] ++ ['['] ++ setw_fill 2 '0' (hex_upper (u32 value)) ++ [']']
  | OT_NULL => []

/-- The prompt written by `OP_READ` (line 988). -/
def READ_PROMPT : List Char := "Enter one symbol and press <ENTER>: ".toList

/-- The white space skipped by formatted input (`std::isspace` in the classic locale). -/
def is_space (c : Nat) : Bool :=
  c == 32 || c == 9 || c == 10 || c == 11 || c == 12 || c == 13

/-- The extraction `std::cin >> c` for an `unsigned char`: leading white space is skipped and
one byte is taken; at the end of the input nothing is stored. -/
def cin_extract (cin : List Nat) : Option Nat × List Nat :=
  match cin.dropWhile is_space with
  | [] => (none, [])
  | c :: rest => (some c, rest)

/-- The `do ... while` of lines 997-1000 run for at most `fuel + 1` calls of `get_next`. -/
def scan_loop : Nat → GraphicIteratorMachine → Operation × GraphicIteratorMachine
  | 0, im => im.get_next
  | fuel + 1, im =>
      let r := im.get_next
      if r.1 ≠ OP_END_LOOP ∧ ¬ r.2.is_done then scan_loop fuel r.2 else r

/-- The `do ... while` of lines 997-1000: `get_next` is called, and called again as long as
the operation is not `OP_END_LOOP` and the stream is not done.  The number of iterations is
bounded by the distance to the end of the stream (see `scan_unfold`). -/
def scan (im : GraphicIteratorMachine) : Operation × GraphicIteratorMachine :=
  scan_loop (im.n - im.cur_pos) im

/-- One iteration of the `while` of `interpretator` (lines 972-1030), entered when the
stream is not done: `get_next`, then the `switch`. -/
def dispatch (s : State) : Outcome :=
  let r := s.m.im.get_next
  let op := r.1
  let s := { s with m := { s.m with im := r.2 } }
  match op with
  | OP_INC_CELL =>
      .normal { s with cells := s.cells.set s.num (u8 (s.cells.getD s.num 0 + 1)) }
  | OP_DEC_CELL =>
      .normal { s with cells := s.cells.set s.num (u8_dec (s.cells.getD s.num 0)) }
  | OP_NEXT_CELL =>
      .normal { s with num := usize (s.num + 1) }
  | OP_PREV_CELL =>
      .normal { s with num := usize_dec s.num }
  | OP_READ =>
      let cout := s.m.cout ++ READ_PROMPT
      match cin_extract s.m.cin with
      | (some c, rest) =>
          .normal { s with m := { s.m with cin := rest, cout := cout },
                           cells := s.cells.set s.num (u8 c) }
      | (none, rest) =>
          .normal { s with m := { s.m with cin := rest, cout := cout } }
  | OP_WRITE =>
      .normal { s with m := { s.m with cout := s.m.cout ++ output s.m.ot (s.cells.getD s.num 0) } }
  | OP_BEGIN_LOOP =>
      if s.cells.getD s.num 0 = 0 then
        let r := scan s.m.im
        let s := { s with m := { s.m with im := r.2 } }
        if r.1 ≠ OP_END_LOOP ∧ s.m.im.is_done then
          .thrown UnexpectedEndOfProgrammGraphicMachineException s
        else
          .normal s
      else
        if s.m.im.get_cur_pos ≠ 0 then
          .normal { s with st := (s.m.im.get_cur_pos - 1) :: s.st }
        else
          .thrown ShitHappendGraphicMachineException s
  | OP_END_LOOP =>
      match s.st with
      | [] => .thrown UnexpectedOperationGraphicMachineException s
      | top :: rest =>
          .normal { s with m := { s.m with im := s.m.im.set_cur_pos top }, st := rest }
  | OP_UNKNOWN =>
      .thrown UnknownOperationGraphicMachineException s
  | OP_ROTATE_CLOCKWISE =>
      .thrown UnsupportOperationGraphicMachineException s
  | OP_ROTATE_COUNTER_CLOCKWISE =>
      .thrown UnsupportOperationGraphicMachineException s

/-- The method `interpretator` (lines 970-1032) run for at most `fuel` iterations of its
`while`; `none` when the iterations are used up before the loop ends. -/
def interpretator : Nat → State → Option Outcome
  | 0, s => if s.m.im.is_done then some (.normal s) else none
  | fuel + 1, s =>
      if s.m.im.is_done then some (.normal s)
      else
        match dispatch s with
        | .normal s' => interpretator fuel s'
        | .thrown e s' => some (.thrown e s')

/-- The method `init` of the engine (lines 938-940). -/
def GraphicMachine.init (m : GraphicMachine) : GraphicMachine :=
  { m with im := m.im.init }

/-- The state in which `run` calls `interpretator` (lines 946-950). -/
def GraphicMachine.start (m : GraphicMachine) : State :=
  { m := m, num := 0, cells := List.replicate 30000 0, st := [] }

/-- The method `run` (lines 945-955): fresh locals, `interpretator`, then `std::endl`;
an exception of `interpretator` propagates. -/
def GraphicMachine.run (fuel : Nat) (m : GraphicMachine) : Option Outcome :=
  match interpretator fuel m.start with
  | some (.normal s) => some (.normal { s with m := { s.m with cout := s.m.cout ++ ['\n'] } })
  | some (.thrown e s) => some (.thrown e s)
  | none => none

/-- The method `interpretator` with a log of its dispatches: for every iteration of the
`while`, in order, the stream position at which the operation was decoded and the operation
handed to the `switch` (the operations consumed by the inner `do ... while` are not
dispatched and not logged).  The outcome is that of `interpretator`
(see `interpretator_log_fst`). -/
def interpretator_log : Nat → State → Option (Outcome × List (Nat × Operation))
  | 0, s => if s.m.im.is_done then some (.normal s, []) else none
  | fuel + 1, s =>
      if s.m.im.is_done then some (.normal s, [])
      else
        match dispatch s with
        | .normal s' =>
            (interpretator_log fuel s').map
              (fun r => (r.1, (s.m.im.cur_pos, s.m.im.get_next.1) :: r.2))
        | .thrown e s' => some (.thrown e s', [(s.m.im.cur_pos, s.m.im.get_next.1)])

/-- The first line written by `print` (line 961), with its `std::endl`. -/
def BEGIN_BANNER : List Char := "BEGIN PROGRAM >>>>>>>>>>".toList ++ ['\n']

/-- The last line written by `print` (line 967), with its `std::endl`. -/
def END_BANNER : List Char := "<<<<<<<<<< END PROGRAM".toList ++ ['\n']

/-- The `while` of `print` (lines 962-965) run for at most `fuel` iterations; `none` is the
`std::out_of_range` a printer may throw. -/
def print_loop : Nat → GraphicMachine → Option GraphicMachine
  | 0, m => some m
  | fuel + 1, m =>
      if m.im.is_done then some m
      else
        let r := m.im.get_next
        match m.printer.print r.1 with
        | none => none
        | some text => print_loop fuel { m with im := r.2, cout := m.cout ++ text }

/-- The method `print` (lines 960-968): the banner, the rendering of every operation from
the current stream position to the end of the stream, `std::endl`, the closing banner.  The
number of iterations of the `while` is the distance to the end of the stream
(see `print_loop_unfold`). -/
def GraphicMachine.print (m : GraphicMachine) : Option GraphicMachine :=
  match print_loop (m.im.n - m.im.cur_pos) { m with cout := m.cout ++ BEGIN_BANNER } with
  | none => none
  | some m' => some { m' with cout := m'.cout ++ ['\n'] ++ END_BANNER }

/-! ## Observations used in the statements -/

/-- The upper-case hexadecimal digit of a value below 16. -/
def hex_digit (d : Nat) : Char := "0123456789ABCDEF".toList.getD d '0'

/-- The text a printer produces for an operation, empty where the printer has none. -/
def IPrinter.render (p : IPrinter) (op : Operation) : List Char := (p.print op).getD []

/-- The state with `pre` put in front of what has been written to `std::cout`. -/
def State.push_cout (pre : List Char) (s : State) : State :=
  { s with m := { s.m with cout := pre ++ s.m.cout } }

/-- The outcome with `pre` put in front of what has been written to `std::cout`. -/
def Outcome.push_cout (pre : List Char) : Outcome → Outcome
  | .normal s => .normal (s.push_cout pre)
  | .thrown e s => .thrown e (s.push_cout pre)

/-- The outcome with the first `k` characters of `std::cout` removed: what was written
after the first `k` characters, and everything else of the state. -/
def Outcome.drop_cout (k : Nat) : Outcome → Outcome
  | .normal s => .normal { s with m := { s.m with cout := s.m.cout.drop k } }
  | .thrown e s => .thrown e { s with m := { s.m with cout := s.m.cout.drop k } }

/-- The engine goes from `s` to `t` by dispatching exactly the logged operations `tr`:
whatever the remaining iterations `fuel`, the log of `interpretator` from `s` is `tr`
followed by its log from `t`. -/
def Steps (s : State) (tr : List (Nat × Operation)) (t : State) : Prop :=
  ∀ fuel : Nat, interpretator_log (fuel + tr.length) s =
    (interpretator_log fuel t).map (fun r => (r.1, tr ++ r.2))

/-- The state of `interpretator` for the engine `m` with the stream at `pos`, the data
pointer at 0, the given tape and return stack. -/
def GraphicMachine.state_at (m : GraphicMachine) (pos : Nat) (cells st : List Nat) : State :=
  { m := { m with im := { m.im with cur_pos := pos } }
    num := 0
    cells := cells
    st := st }

/-- The state of the engine after exactly `k` iterations of the `while` of `interpretator`
from `s`; `none` when the loop has ended or thrown before. -/
def iterate_dispatch : Nat → State → Option State
  | 0, s => some s
  | k + 1, s =>
      if s.m.im.is_done then none
      else
        match dispatch s with
        | .normal s' => iterate_dispatch k s'
        | .thrown _ _ => none

/-- A call of a state-changing method of the instruction stream. -/
inductive StreamCall where
  | init
  | set_cur_pos (pos : Nat)
  | get_next
  deriving DecidableEq, Repr

/-- The stream after a history of calls. -/
def perform_calls : List StreamCall → GraphicIteratorMachine → GraphicIteratorMachine
  | [], im => im
  | StreamCall.init :: rest, im => perform_calls rest im.init
  | StreamCall.set_cur_pos pos :: rest, im => perform_calls rest (im.set_cur_pos pos)
  | StreamCall.get_next :: rest, im => perform_calls rest im.get_next.2

/-! ## Reference semantics with structurally matched brackets

The comparison semantics of the loop claims: the usual tape machine over the decoded
program, in which a loop header with a zero cell continues after its structurally matching
`OP_END_LOOP` (found by counting nested brackets) and an `OP_END_LOOP` returns to its
structurally matching header, which is tested again.  Cells are 8-bit, the tape is the
tape of the engine, `OP_WRITE` uses the output renderer of the engine. -/

/-- State of the reference machine: program counter, data pointer, tape, output. -/
structure RefState where
  pc : Nat
  ptr : Nat
  tape : List Nat
  out : List Char
  deriving DecidableEq, Repr

/-- How a reference run ends: it halts at the end of the program, it is stuck (data pointer
leaving the tape, bracket without a match, operation outside the language), or the step
budget is used up. -/
inductive RefOutcome where
  | halted (r : RefState)
  | stuck (r : RefState)
  | out_of_budget
  deriving DecidableEq, Repr

/-- The `OP_END_LOOP` matching a header: scan of at most `k` positions upwards from `i`,
`depth` counting the headers opened on the way. -/
def find_close (prog : List Operation) : Nat → Nat → Nat → Option Nat
  | 0, _, _ => none
  | k + 1, i, depth =>
      match prog[i]? with
      | none => none
      | some OP_END_LOOP =>
          if depth = 0 then some i else find_close prog k (i + 1) (depth - 1)
      | some OP_BEGIN_LOOP => find_close prog k (i + 1) (depth + 1)
      | some _ => find_close prog k (i + 1) depth

/-- The header matching an `OP_END_LOOP`: scan of the positions below `i` downwards,
`depth` counting the `OP_END_LOOP` met on the way. -/
def find_open (prog : List Operation) : Nat → Nat → Option Nat
  | 0, _ => none
  | i + 1, depth =>
      match prog[i]? with
      | some OP_BEGIN_LOOP =>
          if depth = 0 then some i else find_open prog i (depth - 1)
      | some OP_END_LOOP => find_open prog i (depth + 1)
      | _ => find_open prog i depth

/-- The position of the `OP_END_LOOP` structurally matching the header at `h`. -/
def matching_close (prog : List Operation) (h : Nat) : Option Nat :=
  find_close prog (prog.length - (h + 1)) (h + 1) 0

/-- The position of the header structurally matching the `OP_END_LOOP` at `e`. -/
def matching_open (prog : List Operation) (e : Nat) : Option Nat :=
  find_open prog e 0

/-- One step of the reference machine at a program counter inside the program; `none` when
the machine is stuck. -/
def ref_step (ot : OutputType) (prog : List Operation) (r : RefState) : Option RefState :=
  match prog[r.pc]? with
  | some OP_INC_CELL =>
      some { r with pc := r.pc + 1, tape := r.tape.set r.ptr ((r.tape.getD r.ptr 0 + 1) % 256) }
  | some OP_DEC_CELL =>
      some { r with pc := r.pc + 1,
                    tape := r.tape.set r.ptr ((r.tape.getD r.ptr 0 + 255) % 256) }
  | some OP_NEXT_CELL =>
      if r.ptr + 1 < r.tape.length then some { r with pc := r.pc + 1, ptr := r.ptr + 1 }
      else none
  | some OP_PREV_CELL =>
      if 0 < r.ptr then some { r with pc := r.pc + 1, ptr := r.ptr - 1 } else none
  | some OP_WRITE =>
      some { r with pc := r.pc + 1, out := r.out ++ output ot (r.tape.getD r.ptr 0) }
  | some OP_BEGIN_LOOP =>
      if r.tape.getD r.ptr 0 = 0 then
        match matching_close prog r.pc with
        | some e => some { r with pc := e + 1 }
        | none => none
      else some { r with pc := r.pc + 1 }
  | some OP_END_LOOP =>
      match matching_open prog r.pc with
      | some h => some { r with pc := h }
      | none => none
  | _ => none

/-- The reference machine run for at most `budget` steps. -/
def ref_run (ot : OutputType) (prog : List Operation) : Nat → RefState → RefOutcome
  | 0, r => if prog.length ≤ r.pc then .halted r else .out_of_budget
  | budget + 1, r =>
      if prog.length ≤ r.pc then .halted r
      else
        match ref_step ot prog r with
        | some r' => ref_run ot prog budget r'
        | none => .stuck r

/-- The initial state of the reference machine: the zero tape of 30000 cells, with `out`
already written. -/
def ref_init (out : List Char) : RefState :=
  { pc := 0, ptr := 0, tape := List.replicate 30000 0, out := out }

/-- The state of the engine that corresponds to a state of the reference machine. -/
def RefState.toState (m : GraphicMachine) (r : RefState) (st : List Nat) : State :=
  { m := { m with im := { m.im with cur_pos := r.pc }, cout := r.out }
    num := r.ptr
    cells := r.tape
    st := st }

/-- A program over `OP_INC_CELL`, `OP_DEC_CELL`, `OP_NEXT_CELL`, `OP_PREV_CELL`, `OP_WRITE`
and the two brackets whose brackets are balanced and never nested: every header is followed
by an `OP_END_LOOP` with no header in between, and every `OP_END_LOOP` is preceded by a
header with no `OP_END_LOOP` in between. -/
def FlatLoops (prog : List Operation) : Prop :=
  (∀ op ∈ prog, op ∈ [OP_INC_CELL, OP_DEC_CELL, OP_NEXT_CELL, OP_PREV_CELL, OP_WRITE,
    OP_BEGIN_LOOP, OP_END_LOOP]) ∧
  (∀ h < prog.length, prog[h]? = some OP_BEGIN_LOOP →
    ∃ e < prog.length, h < e ∧ prog[e]? = some OP_END_LOOP ∧
      ∀ q < e, h < q → prog[q]? ≠ some OP_BEGIN_LOOP) ∧
  (∀ e < prog.length, prog[e]? = some OP_END_LOOP →
    ∃ h < e, prog[h]? = some OP_BEGIN_LOOP ∧
      ∀ q < e, h < q → prog[q]? ≠ some OP_END_LOOP)

/-- Position `pc` is outside every loop: each header below `pc` has an `OP_END_LOOP`
between itself and `pc`. -/
def Outside (prog : List Operation) (pc : Nat) : Prop :=
  ∀ h, h < pc → prog[h]? = some OP_BEGIN_LOOP →
    ∃ e, h < e ∧ e < pc ∧ prog[e]? = some OP_END_LOOP

/-- Position `pc` is inside the loop whose header stands at `h`: no bracket stands strictly
between `h` and `pc`. -/
def Inside (prog : List Operation) (h pc : Nat) : Prop :=
  prog[h]? = some OP_BEGIN_LOOP ∧ h < pc ∧
    ∀ q, h < q → q < pc → prog[q]? ≠ some OP_BEGIN_LOOP ∧ prog[q]? ≠ some OP_END_LOOP

/-- The return stack of the engine at position `pc` of a flat program: empty outside the
loops, the position of the header inside a loop. -/
def StackInv (prog : List Operation) (st : List Nat) (pc : Nat) : Prop :=
  (st = [] ∧ Outside prog pc) ∨ (∃ h, st = [h] ∧ Inside prog h pc)

instance (prog : List Operation) : Decidable (FlatLoops prog) := by
  unfold FlatLoops
  exact @instDecidableAnd _ _ (by infer_instance)
    (@instDecidableAnd _ _ (by infer_instance) (by infer_instance))

/-- A program of `OP_INC_CELL`, `OP_DEC_CELL`, `OP_NEXT_CELL`, `OP_PREV_CELL` and
`OP_WRITE` only. -/
def StraightLine (prog : List Operation) : Prop :=
  ∀ op ∈ prog, op ∈ [OP_INC_CELL, OP_DEC_CELL, OP_NEXT_CELL, OP_PREV_CELL, OP_WRITE]

instance (prog : List Operation) : Decidable (StraightLine prog) := by
  unfold StraightLine; infer_instance

/-! ## Concrete inputs -/

/-- The colour (blue, green, red) that `code_to_op` decodes to the operation; black for
`OP_UNKNOWN`. -/
def op_color : Operation → Vec3b
  | OP_UNKNOWN => ⟨0x00, 0x00, 0x00⟩
  | OP_INC_CELL => ⟨0x00, 0xFF, 0x00⟩
  | OP_DEC_CELL => ⟨0x00, 0x80, 0x00⟩
  | OP_NEXT_CELL => ⟨0xFF, 0x00, 0x00⟩
  | OP_PREV_CELL => ⟨0x80, 0x00, 0x00⟩
  | OP_READ => ⟨0x00, 0x00, 0x80⟩
  | OP_WRITE => ⟨0x00, 0x00, 0xFF⟩
  | OP_BEGIN_LOOP => ⟨0xFF, 0xFF, 0x00⟩
  | OP_END_LOOP => ⟨0x80, 0x80, 0x00⟩
  | OP_ROTATE_CLOCKWISE => ⟨0x00, 0x80, 0x80⟩
  | OP_ROTATE_COUNTER_CLOCKWISE => ⟨0x00, 0xFF, 0xFF⟩

/-- A two-row image with one pixel per operation: row 0 is black, row 1 holds the colours
of the operations. -/
def strip_image (ops : List Operation) : Mat :=
  { rows := 2
    cols := ops.length
    data := List.replicate ops.length ⟨0, 0, 0⟩ ++ ops.map op_color }

/-- An engine over `strip_image ops` read with cell size 1, with the given output type,
the null printer, the given input and nothing written yet. -/
def strip_machine (ops : List Operation) (ot : OutputType) (cin : List Nat) : GraphicMachine :=
  { printer := IPrinter.NullPrinter
    im := GraphicIteratorMachine.create (strip_image ops) 1
    ot := ot
    cin := cin
    cout := [] }

/-- A state of `interpretator` over `strip_machine ops` with the stream at `pos`. -/
def strip_state (ops : List Operation) (pos num : Nat) (cells st : List Nat) : State :=
  { m := { strip_machine ops OT_HEX [] with
           im := (GraphicIteratorMachine.create (strip_image ops) 1).set_cur_pos pos }
    num := num
    cells := cells
    st := st }

/-- A 39 x 2 image read with the default cell size 20, so that its program has the single
position 0: row 1 holds the colour of `OP_BEGIN_LOOP` at column 0 and the colour of
`OP_END_LOOP` at column 20, inside the image but beyond the last program cell. -/
def overrun_image : Mat :=
  { rows := 2
    cols := 39
    data := List.replicate 39 ⟨0, 0, 0⟩ ++ [op_color OP_BEGIN_LOOP] ++
      List.replicate 19 ⟨0, 0, 0⟩ ++ [op_color OP_END_LOOP] ++ List.replicate 18 ⟨0, 0, 0⟩ }

/-- A 3 x 2 image whose row 0 holds the colour of `OP_NEXT_CELL` at column 1 and whose
row 1 holds the colours of `OP_INC_CELL`, `OP_DEC_CELL`, `OP_WRITE`. -/
def wrap_image : Mat :=
  { rows := 2
    cols := 3
    data := [⟨0, 0, 0⟩, op_color OP_NEXT_CELL, ⟨0, 0, 0⟩,
      op_color OP_INC_CELL, op_color OP_DEC_CELL, op_color OP_WRITE] }

/-- The engine built by `main` for `overrun_image`: cell size 20 (line 767). -/
def overrun_machine : GraphicMachine :=
  { printer := IPrinter.ClassicalBrainfuckPrinter
    im := GraphicIteratorMachine.create overrun_image 20
    ot := OT_HEX
    cin := []
    cout := [] }

/-! ## Auxiliary facts -/

theorem trans_eq : trans =
    [ (0x000080, OP_READ), (0x0000FF, OP_WRITE), (0x008000, OP_DEC_CELL),
      (0x008080, OP_ROTATE_CLOCKWISE), (0x00FF00, OP_INC_CELL),
      (0x00FFFF, OP_ROTATE_COUNTER_CLOCKWISE), (0x800000, OP_PREV_CELL),
      (0x808000, OP_END_LOOP), (0xFF0000, OP_NEXT_CELL), (0xFFFF00, OP_BEGIN_LOOP) ] := by
  decide

theorem pack_eq (b g r : Nat) (hb : b < 256) (hg : g < 256) (hr : r < 256) :
    pack ⟨b, g, r⟩ = r + 256 * g + 65536 * b := by
  simp only [pack, Vec3b.get, CH_NUM_RED, CH_NUM_GREEN, CH_NUM_BLUE, u32, Nat.shiftLeft_eq]
  omega

theorem code_to_op_table (code : Nat) :
    code_to_op code =
      if code = 0x00FF00 then OP_INC_CELL
      else if code = 0x008000 then OP_DEC_CELL
      else if code = 0xFF0000 then OP_NEXT_CELL
      else if code = 0x800000 then OP_PREV_CELL
      else if code = 0x000080 then OP_READ
      else if code = 0x0000FF then OP_WRITE
      else if code = 0xFFFF00 then OP_BEGIN_LOOP
      else if code = 0x808000 then OP_END_LOOP
      else if code = 0x008080 then OP_ROTATE_CLOCKWISE
      else if code = 0x00FFFF then OP_ROTATE_COUNTER_CLOCKWISE
      else OP_UNKNOWN := by
  unfold code_to_op
  rw [trans_eq]
  split_ifs with h1 h2 h3 h4 h5 h6 h7 h8 h9 h10
  all_goals first
    | (subst code; rfl)
    | simp [List.find?_cons, beq_eq_false_iff_ne.2 (Ne.symm h1),
        beq_eq_false_iff_ne.2 (Ne.symm h2), beq_eq_false_iff_ne.2 (Ne.symm h3),
        beq_eq_false_iff_ne.2 (Ne.symm h4), beq_eq_false_iff_ne.2 (Ne.symm h5),
        beq_eq_false_iff_ne.2 (Ne.symm h6), beq_eq_false_iff_ne.2 (Ne.symm h7),
        beq_eq_false_iff_ne.2 (Ne.symm h8), beq_eq_false_iff_ne.2 (Ne.symm h9),
        beq_eq_false_iff_ne.2 (Ne.symm h10)]

namespace GraphicIteratorMachine

theorem get_next_fst (im : GraphicIteratorMachine) : im.get_next.1 = im.opAt im.cur_pos := rfl

theorem get_next_snd (im : GraphicIteratorMachine) :
    im.get_next.2 = { im with cur_pos := u32 (im.cur_pos + 1) } := rfl

theorem get_next_eq (im : GraphicIteratorMachine) :
    im.get_next = (im.opAt im.cur_pos, { im with cur_pos := u32 (im.cur_pos + 1) }) := by
  rw [← get_next_fst, ← get_next_snd]

theorem opAt_cur_pos (im : GraphicIteratorMachine) (c p : Nat) :
    opAt { im with cur_pos := c } p = im.opAt p := rfl

theorem is_done_eq_false (im : GraphicIteratorMachine) :
    im.is_done = false ↔ im.cur_pos < im.n := by
  simp [is_done]

theorem is_done_eq_true (im : GraphicIteratorMachine) :
    im.is_done = true ↔ im.n ≤ im.cur_pos := by
  simp [is_done]

end GraphicIteratorMachine

theorem u32_of_lt {x : Nat} (h : x < 4294967296) : u32 x = x := Nat.mod_eq_of_lt h

theorem i32_of_lt {x : Nat} (h : x < 2147483648) : i32 x = (x : Int) := by
  unfold i32
  rw [Nat.mod_eq_of_lt (by omega), if_pos h]

theorem i32_u32 (x : Nat) : i32 (u32 x) = i32 x := by
  unfold i32 u32
  rw [Nat.mod_mod]

/-- The defining equation of the `do ... while` of lines 997-1000 holds for `scan` whenever
the increment of `cur_pos` does not leave the range of `boost::uint32_t`. -/
theorem scan_unfold (im : GraphicIteratorMachine) (h : im.cur_pos + 1 < 4294967296) :
    scan im =
      if im.get_next.1 ≠ OP_END_LOOP ∧ ¬ im.get_next.2.is_done then scan im.get_next.2
      else im.get_next := by
  have hpos : im.get_next.2.cur_pos = im.cur_pos + 1 := by
    rw [GraphicIteratorMachine.get_next_snd]; exact u32_of_lt h
  have hn : im.get_next.2.n = im.n := rfl
  unfold scan
  cases hf : im.n - im.cur_pos with
  | zero =>
      have hdone : im.get_next.2.is_done = true := by
        rw [GraphicIteratorMachine.is_done_eq_true, hpos, hn]; omega
      simp [scan_loop, hdone]
  | succ k =>
      have hk : im.get_next.2.n - im.get_next.2.cur_pos = k := by
        rw [hpos, hn]; omega
      simp only [scan_loop, hk]

/-- The scan started at or before the first `OP_END_LOOP` at position `e` stops just
after it. -/
theorem scan_loop_finds (fuel : Nat) (im : GraphicIteratorMachine) (e : Nat)
    (hle : im.cur_pos ≤ e) (hen : e < im.n) (hn : im.n < 4294967296)
    (hfuel : e - im.cur_pos ≤ fuel)
    (hend : im.opAt e = OP_END_LOOP)
    (hmin : ∀ p, im.cur_pos ≤ p → p < e → im.opAt p ≠ OP_END_LOOP) :
    scan_loop fuel im = (OP_END_LOOP, { im with cur_pos := e + 1 }) := by
  induction fuel generalizing im with
  | zero =>
      have hc : im.cur_pos = e := by omega
      have h1 : im.get_next.1 = OP_END_LOOP := by
        rw [GraphicIteratorMachine.get_next_fst, hc]; exact hend
      have h2 : im.get_next.2 = { im with cur_pos := e + 1 } := by
        rw [GraphicIteratorMachine.get_next_snd, hc, u32_of_lt (by omega)]
      simp only [scan_loop]
      exact Prod.ext h1 h2
  | succ k ih =>
      by_cases hc : im.cur_pos = e
      · have h1 : im.get_next.1 = OP_END_LOOP := by
          rw [GraphicIteratorMachine.get_next_fst, hc]; exact hend
        have h2 : im.get_next.2 = { im with cur_pos := e + 1 } := by
          rw [GraphicIteratorMachine.get_next_snd, hc, u32_of_lt (by omega)]
        simp only [scan_loop, h1, ne_eq, not_true_eq_false, false_and, if_false]
        exact Prod.ext h1 h2
      · have hlt : im.cur_pos < e := by omega
        have h1 : im.get_next.1 ≠ OP_END_LOOP := by
          rw [GraphicIteratorMachine.get_next_fst]; exact hmin _ (le_refl _) hlt
        have h2 : im.get_next.2 = { im with cur_pos := im.cur_pos + 1 } := by
          rw [GraphicIteratorMachine.get_next_snd, u32_of_lt (by omega)]
        have h3 : im.get_next.2.is_done = false := by
          rw [GraphicIteratorMachine.is_done_eq_false, h2]
          show im.cur_pos + 1 < im.n
          omega
        simp only [scan_loop, h1, h3, ne_eq, not_false_eq_true, Bool.not_eq_true, and_self,
          if_true]
        rw [h2]
        have := ih { im with cur_pos := im.cur_pos + 1 } (by show im.cur_pos + 1 ≤ e; omega)
          hen hn (by show e - (im.cur_pos + 1) ≤ k; omega) hend
          (fun p hp hpe => hmin p (by have : im.cur_pos + 1 ≤ p := hp; omega) hpe)
        rw [this]

/-- The scan started inside a program that holds no `OP_END_LOOP` from the current position
on stops at the end of the stream with the last operation of the program. -/
theorem scan_loop_exhausts (fuel : Nat) (im : GraphicIteratorMachine)
    (hlt : im.cur_pos < im.n) (hn : im.n < 4294967296)
    (hfuel : im.n - im.cur_pos ≤ fuel + 1)
    (hno : ∀ p, im.cur_pos ≤ p → p < im.n → im.opAt p ≠ OP_END_LOOP) :
    scan_loop fuel im = (im.opAt (im.n - 1), { im with cur_pos := im.n }) := by
  have hu : u32 (im.cur_pos + 1) = im.cur_pos + 1 := u32_of_lt (by omega)
  induction fuel generalizing im with
  | zero =>
      have hc : im.cur_pos + 1 = im.n := by omega
      have hc' : im.n - 1 = im.cur_pos := by omega
      simp only [scan_loop]
      rw [GraphicIteratorMachine.get_next_eq, hu, hc', hc]
  | succ k ih =>
      have h1 : im.get_next.1 ≠ OP_END_LOOP := by
        rw [GraphicIteratorMachine.get_next_fst]; exact hno _ (le_refl _) hlt
      have h2 : im.get_next.2 = { im with cur_pos := im.cur_pos + 1 } := by
        rw [GraphicIteratorMachine.get_next_snd, hu]
      by_cases hc : im.cur_pos + 1 < im.n
      · have h3 : im.get_next.2.is_done = false := by
          rw [GraphicIteratorMachine.is_done_eq_false, h2]
          exact hc
        simp only [scan_loop, h1, h3, ne_eq, not_false_eq_true, Bool.not_eq_true, and_self,
          if_true]
        rw [h2]
        exact ih { im with cur_pos := im.cur_pos + 1 } hc hn
          (by show im.n - (im.cur_pos + 1) ≤ k + 1; omega)
          (fun p hp hpn => hno p (by have : im.cur_pos + 1 ≤ p := hp; omega) hpn)
          (u32_of_lt (by show im.cur_pos + 1 + 1 < 4294967296; omega))
      · have h3 : im.get_next.2.is_done = true := by
          rw [GraphicIteratorMachine.is_done_eq_true, h2]
          show im.n ≤ im.cur_pos + 1
          omega
        have hc1 : im.cur_pos + 1 = im.n := by omega
        have hc' : im.n - 1 = im.cur_pos := by omega
        simp only [scan_loop, h3, not_true_eq_false, and_false, if_false]
        rw [GraphicIteratorMachine.get_next_eq, hu, hc', hc1]

theorem interpretator_done (fuel : Nat) (s : State) (h : s.m.im.is_done = true) :
    interpretator fuel s = some (.normal s) := by
  cases fuel <;> simp [interpretator, h]

theorem interpretator_normal (fuel : Nat) (s s' : State) (h : s.m.im.is_done = false)
    (hd : dispatch s = .normal s') :
    interpretator (fuel + 1) s = interpretator fuel s' := by
  simp [interpretator, h, hd]

theorem interpretator_thrown (fuel : Nat) (s s' : State) (e : IMachineException)
    (h : s.m.im.is_done = false) (hd : dispatch s = .thrown e s') :
    interpretator (fuel + 1) s = some (.thrown e s') := by
  simp [interpretator, h, hd]

theorem program_length (im : GraphicIteratorMachine) : im.program.length = im.n := by
  simp [GraphicIteratorMachine.program]

theorem program_getElem? (im : GraphicIteratorMachine) (p : Nat) (hp : p < im.n) :
    im.program[p]? = some (im.opAt p) := by
  simp [GraphicIteratorMachine.program, List.getElem?_range hp]

theorem u8_dec_eq (v : Nat) : u8_dec v = (v + 255) % 256 := by
  unfold u8_dec
  omega

theorem usize_dec_eq (x : Nat) (h : x < 18446744073709551616) :
    usize_dec x = if x = 0 then 18446744073709551615 else x - 1 := by
  unfold usize_dec
  split_ifs <;> omega

theorem usize_succ_eq (x : Nat) (h : x < 18446744073709551616) :
    usize (x + 1) = if x = 18446744073709551615 then 0 else x + 1 := by
  unfold usize
  split_ifs <;> omega

/-! ## Opcode decoder -/

/-- C1: for every pixel with 8-bit channels (blue `b`, green `g`, red `r`), `pack` yields
`r + 256 * g + 65536 * b`; `code_to_op` maps the ten codes of the table to their operations
and every other code to `OP_UNKNOWN` (a total function, no failure); and `get_next` on a
stream whose sampled pixel is that pixel returns the table entry of the packed code. -/
theorem decode_pixel_table (b g r : Nat) (hb : b < 256) (hg : g < 256) (hr : r < 256) :
    pack ⟨b, g, r⟩ = r + 256 * g + 65536 * b ∧
    (∀ code : Nat, code_to_op code =
      if code = 0x00FF00 then OP_INC_CELL
      else if code = 0x008000 then OP_DEC_CELL
      else if code = 0xFF0000 then OP_NEXT_CELL
      else if code = 0x800000 then OP_PREV_CELL
      else if code = 0x000080 then OP_READ
      else if code = 0x0000FF then OP_WRITE
      else if code = 0xFFFF00 then OP_BEGIN_LOOP
      else if code = 0x808000 then OP_END_LOOP
      else if code = 0x008080 then OP_ROTATE_CLOCKWISE
      else if code = 0x00FFFF then OP_ROTATE_COUNTER_CLOCKWISE
      else OP_UNKNOWN) ∧
    (∀ im : GraphicIteratorMachine,
      im.gp.at 1 (i32 (u32 (im.cur_pos * im.graphic_cell_size))) = ⟨b, g, r⟩ →
      im.get_next.1 = code_to_op (r + 256 * g + 65536 * b)) := by
  refine ⟨pack_eq b g r hb hg hr, code_to_op_table, ?_⟩
  intro im him
  simp only [GraphicIteratorMachine.get_next, him, pack_eq b g r hb hg hr]

/-- Witness of C1: the pixel blue 0, green 255, red 0. -/
theorem decode_pixel_table_witness :
    ((0 : Nat) < 256 ∧ (255 : Nat) < 256) ∧
    pack ⟨0, 255, 0⟩ = 0 + 256 * 255 + 65536 * 0 ∧
    code_to_op (0 + 256 * 255 + 65536 * 0) = OP_INC_CELL :=
  ⟨by decide, (decode_pixel_table 0 255 0 (by decide) (by decide) (by decide)).1,
    by rw [(decode_pixel_table 0 255 0 (by decide) (by decide) (by decide)).2.1]; rfl⟩

/-! ## Loop control -/

/-- C2: when `OP_BEGIN_LOOP` at position `h = cur_pos` is dispatched with the current cell
equal to 0 and `e` is the smallest position greater than `h` holding `OP_END_LOOP`
(any other operation, `OP_BEGIN_LOOP` included, may stand in between), the dispatch
completes in the state that differs from the initial one only by the stream position,
which is `e + 1`: tape, data pointer and return stack are unchanged. -/
theorem begin_loop_zero_skips (s : State) (e : Nat)
    (hty : s.m.im.WellTyped)
    (hop : s.m.im.opAt s.m.im.cur_pos = OP_BEGIN_LOOP)
    (hzero : s.cells.getD s.num 0 = 0)
    (he : s.m.im.cur_pos < e) (hen : e < s.m.im.n)
    (hend : s.m.im.opAt e = OP_END_LOOP)
    (hmin : ∀ p, s.m.im.cur_pos < p → p < e → s.m.im.opAt p ≠ OP_END_LOOP) :
    dispatch s =
      .normal { s with m := { s.m with im := { s.m.im with cur_pos := e + 1 } } } := by
  obtain ⟨_, _, hn⟩ := hty
  have hscan : scan s.m.im.get_next.2 =
      (OP_END_LOOP, { s.m.im with cur_pos := e + 1 }) := by
    have h2 : s.m.im.get_next.2 = { s.m.im with cur_pos := s.m.im.cur_pos + 1 } := by
      rw [GraphicIteratorMachine.get_next_snd, u32_of_lt (by omega)]
    rw [h2]
    exact scan_loop_finds _ { s.m.im with cur_pos := s.m.im.cur_pos + 1 } e
      (by show s.m.im.cur_pos + 1 ≤ e; omega) hen hn
      (by show e - (s.m.im.cur_pos + 1) ≤ s.m.im.n - (s.m.im.cur_pos + 1); omega) hend
      (fun p hp hpe => hmin p (by have : s.m.im.cur_pos + 1 ≤ p := hp; omega) hpe)
  unfold dispatch
  simp only [GraphicIteratorMachine.get_next_fst, hop, hzero, if_true, hscan]
  simp

/-- Witness of C2: in `[` `[` `]` `+` with cell 0, the header at 0 is left at position 3. -/
theorem begin_loop_zero_skips_witness :
    dispatch (strip_state [OP_BEGIN_LOOP, OP_BEGIN_LOOP, OP_END_LOOP, OP_INC_CELL] 0 0 [0] []) =
      .normal (strip_state [OP_BEGIN_LOOP, OP_BEGIN_LOOP, OP_END_LOOP, OP_INC_CELL] 3 0 [0] []) :=
  begin_loop_zero_skips
    (strip_state [OP_BEGIN_LOOP, OP_BEGIN_LOOP, OP_END_LOOP, OP_INC_CELL] 0 0 [0] []) 2
    (by decide) (by decide) (by decide) (by decide) (by decide) (by decide)
    (by intro p h1 h2
        have h3 : p = 1 := by
          have h1' : 0 < p := h1
          omega
        subst h3
        decide)

/-- C3: when `OP_BEGIN_LOOP` at position `h = cur_pos` is dispatched with a non-zero
current cell, the dispatch completes in the state that differs from the initial one only
by the stream position `h + 1` reached by decoding the header and by the return stack,
which has the one new entry `h` on top: tape and data pointer are unchanged. -/
theorem begin_loop_nonzero_pushes (s : State)
    (hty : s.m.im.WellTyped)
    (hnd : s.m.im.is_done = false)
    (hop : s.m.im.opAt s.m.im.cur_pos = OP_BEGIN_LOOP)
    (hnz : s.cells.getD s.num 0 ≠ 0) :
    dispatch s =
      .normal { s with m := { s.m with im := { s.m.im with cur_pos := s.m.im.cur_pos + 1 } },
                       st := s.m.im.cur_pos :: s.st } := by
  obtain ⟨_, _, hn⟩ := hty
  rw [GraphicIteratorMachine.is_done_eq_false] at hnd
  have h2 : s.m.im.get_next.2 = { s.m.im with cur_pos := s.m.im.cur_pos + 1 } := by
    rw [GraphicIteratorMachine.get_next_snd, u32_of_lt (by omega)]
  unfold dispatch
  simp only [GraphicIteratorMachine.get_next_fst, hop, hnz, if_false, h2,
    GraphicIteratorMachine.get_cur_pos]
  simp

/-- Witness of C3: in `+` `[` `-` `]` with cell 1, the header at 1 pushes 1. -/
theorem begin_loop_nonzero_pushes_witness :
    dispatch (strip_state [OP_INC_CELL, OP_BEGIN_LOOP, OP_DEC_CELL, OP_END_LOOP] 1 0 [1] []) =
      .normal (strip_state [OP_INC_CELL, OP_BEGIN_LOOP, OP_DEC_CELL, OP_END_LOOP] 2 0 [1] [1]) :=
  begin_loop_nonzero_pushes
    (strip_state [OP_INC_CELL, OP_BEGIN_LOOP, OP_DEC_CELL, OP_END_LOOP] 1 0 [1] [])
    (by decide) (by decide) (by decide) (by decide)

/-- C4: when `OP_END_LOOP` is dispatched with a return stack whose top entry is `p`, the
dispatch completes in the state that differs from the initial one only by the stream
position, which is `p`, and by the return stack, which has lost exactly its top entry:
tape and data pointer are unchanged. -/
theorem end_loop_pops (s : State) (p : Nat) (rest : List Nat)
    (hop : s.m.im.opAt s.m.im.cur_pos = OP_END_LOOP)
    (hst : s.st = p :: rest) :
    dispatch s =
      .normal { s with m := { s.m with im := { s.m.im with cur_pos := p } }, st := rest } := by
  unfold dispatch
  simp only [GraphicIteratorMachine.get_next_fst, hop, hst, GraphicIteratorMachine.set_cur_pos,
    GraphicIteratorMachine.get_next_snd]

/-- Witness of C4: in `+` `[` `-` `]` the `]` at 3 with stack `[1, 7]` jumps to 1 and
leaves `[7]`. -/
theorem end_loop_pops_witness :
    dispatch (strip_state [OP_INC_CELL, OP_BEGIN_LOOP, OP_DEC_CELL, OP_END_LOOP] 3 0 [0] [1, 7]) =
      .normal (strip_state [OP_INC_CELL, OP_BEGIN_LOOP, OP_DEC_CELL, OP_END_LOOP] 1 0 [0] [7]) :=
  end_loop_pops
    (strip_state [OP_INC_CELL, OP_BEGIN_LOOP, OP_DEC_CELL, OP_END_LOOP] 3 0 [0] [1, 7]) 1 [7]
    (by decide) rfl

/-- C5: dispatching `OP_END_LOOP` with an empty return stack throws
`UnexpectedOperationGraphicMachineException` in a state whose tape, data pointer and
streams are those before the dispatch (only the stream position has advanced); and `run`
after `init` on an engine whose program is `[OP_END_LOOP]` throws that exception with all
30000 cells equal to 0 and `std::cout` as it was. -/
theorem end_loop_empty_stack (s : State) (m : GraphicMachine) (fuel : Nat)
    (hop : s.m.im.opAt s.m.im.cur_pos = OP_END_LOOP)
    (hst : s.st = [])
    (hprog : m.im.program = [OP_END_LOOP]) :
    dispatch s =
      .thrown UnexpectedOperationGraphicMachineException
        { s with m := { s.m with im := { s.m.im with cur_pos := u32 (s.m.im.cur_pos + 1) } } } ∧
    m.init.run (fuel + 1) =
      some (.thrown UnexpectedOperationGraphicMachineException
        { m := { m with im := { m.im with cur_pos := 1 } }
          num := 0
          cells := List.replicate 30000 0
          st := [] }) := by
  have hgen : ∀ t : State, t.m.im.opAt t.m.im.cur_pos = OP_END_LOOP → t.st = [] →
      dispatch t = .thrown UnexpectedOperationGraphicMachineException
        { t with m := { t.m with im := { t.m.im with cur_pos := u32 (t.m.im.cur_pos + 1) } } } := by
    intro t h1 h2
    unfold dispatch
    simp only [GraphicIteratorMachine.get_next_fst, h1, h2, GraphicIteratorMachine.get_next_snd]
  refine ⟨hgen s hop hst, ?_⟩
  have hn : m.im.n = 1 := by
    have := program_length m.im
    rw [hprog] at this
    simpa using this.symm
  have hop0 : m.im.opAt 0 = OP_END_LOOP := by
    have := program_getElem? m.im 0 (by omega)
    rw [hprog] at this
    simpa using this.symm
  have hnd : m.init.start.m.im.is_done = false := by
    rw [GraphicIteratorMachine.is_done_eq_false]
    show 0 < m.im.n
    omega
  have hd := hgen m.init.start hop0 rfl
  unfold GraphicMachine.run
  rw [interpretator_thrown fuel _ _ _ hnd hd]
  rfl

/-- Witness of C5: the state and the engine of the one-pixel program `]`. -/
theorem end_loop_empty_stack_witness :
    dispatch (strip_state [OP_END_LOOP] 0 0 [0] []) =
      .thrown UnexpectedOperationGraphicMachineException (strip_state [OP_END_LOOP] 1 0 [0] []) ∧
    (strip_machine [OP_END_LOOP] OT_HEX []).init.run 1 =
      some (.thrown UnexpectedOperationGraphicMachineException
        { m := { strip_machine [OP_END_LOOP] OT_HEX [] with
                 im := { (strip_machine [OP_END_LOOP] OT_HEX []).im with cur_pos := 1 } }
          num := 0
          cells := List.replicate 30000 0
          st := [] }) :=
  end_loop_empty_stack (strip_state [OP_END_LOOP] 0 0 [0] []) (strip_machine [OP_END_LOOP] OT_HEX []) 0
    (by decide) rfl (by decide)

/-- The exhausted scan: when `OP_BEGIN_LOOP` at position `cur_pos` is dispatched with the
current cell equal to 0, the header is not the last operation of the program and no
`OP_END_LOOP` stands at any later program position, the dispatch throws
`UnexpectedEndOfProgrammGraphicMachineException` with the stream at its end. -/
theorem begin_loop_zero_exhausts (s : State)
    (hty : s.m.im.WellTyped)
    (hop : s.m.im.opAt s.m.im.cur_pos = OP_BEGIN_LOOP)
    (hzero : s.cells.getD s.num 0 = 0)
    (hlast : s.m.im.cur_pos + 1 < s.m.im.n)
    (hno : ∀ p, s.m.im.cur_pos < p → p < s.m.im.n → s.m.im.opAt p ≠ OP_END_LOOP) :
    dispatch s =
      .thrown UnexpectedEndOfProgrammGraphicMachineException
        { s with m := { s.m with im := { s.m.im with cur_pos := s.m.im.n } } } := by
  obtain ⟨_, _, hn⟩ := hty
  have h2 : s.m.im.get_next.2 = { s.m.im with cur_pos := s.m.im.cur_pos + 1 } := by
    rw [GraphicIteratorMachine.get_next_snd, u32_of_lt (by omega)]
  have hex := scan_loop_exhausts (s.m.im.n - (s.m.im.cur_pos + 1))
    { s.m.im with cur_pos := s.m.im.cur_pos + 1 } hlast hn
    (by show s.m.im.n - (s.m.im.cur_pos + 1) ≤ s.m.im.n - (s.m.im.cur_pos + 1) + 1; omega)
    (fun p hp hpn => hno p (by have : s.m.im.cur_pos + 1 ≤ p := hp; omega) hpn)
  rw [GraphicIteratorMachine.opAt_cur_pos] at hex
  have hscan : scan s.m.im.get_next.2 =
      (s.m.im.opAt (s.m.im.n - 1), { s.m.im with cur_pos := s.m.im.n }) := by
    rw [h2]
    exact hex
  have hlastop : s.m.im.opAt (s.m.im.n - 1) ≠ OP_END_LOOP :=
    hno _ (by omega) (by omega)
  have hdone : GraphicIteratorMachine.is_done { s.m.im with cur_pos := s.m.im.n } = true := by
    rw [GraphicIteratorMachine.is_done_eq_true]
  unfold dispatch
  simp only [GraphicIteratorMachine.get_next_fst, hop, hzero, if_true]
  rw [hscan]
  dsimp only
  exact if_pos ⟨hlastop, hdone⟩

/-- C6 (evaluation at the failing input): the program of `overrun_machine` is the single
operation `OP_BEGIN_LOOP`, with no `OP_END_LOOP` at any program position, and `run` from the
fresh tape nevertheless ends normally: the `do ... while` calls `get_next` at position 1,
where the stream is already done, decodes the `OP_END_LOOP` coloured pixel at column 20 and
does not throw `UnexpectedEndOfProgrammGraphicMachineException`. -/
theorem begin_loop_overrun_returns (fuel : Nat) :
    overrun_machine.im.program = [OP_BEGIN_LOOP] ∧
    overrun_machine.init.start.m.im.is_done = false ∧
    overrun_machine.init.run (fuel + 1) =
      some (.normal
        { m := { overrun_machine with
                 im := { overrun_machine.im with cur_pos := 2 }
                 cout := ['\n'] }
          num := 0
          cells := List.replicate 30000 0
          st := [] }) := by
  refine ⟨by decide, by decide, ?_⟩
  have hd : dispatch overrun_machine.init.start =
      .normal { overrun_machine.init.start with
                m := { overrun_machine with im := { overrun_machine.im with cur_pos := 2 } } } := by
    rfl
  unfold GraphicMachine.run
  rw [interpretator_normal fuel _ _ (by decide) hd, interpretator_done fuel _ (by decide)]
  rfl

/-! ## Fatal operations -/

/-- C7: dispatching `OP_UNKNOWN` throws `UnknownOperationGraphicMachineException` in a state
whose tape, data pointer, return stack and streams are those before the dispatch (only the
stream position has advanced past the operation), and `interpretator` ends with that very
outcome: no later operation is dispatched. -/
theorem unknown_operation_aborts (s : State) (fuel : Nat)
    (hnd : s.m.im.is_done = false)
    (hop : s.m.im.opAt s.m.im.cur_pos = OP_UNKNOWN) :
    dispatch s =
      .thrown UnknownOperationGraphicMachineException
        { s with m := { s.m with im := { s.m.im with cur_pos := u32 (s.m.im.cur_pos + 1) } } } ∧
    interpretator (fuel + 1) s =
      some (.thrown UnknownOperationGraphicMachineException
        { s with m := { s.m with im := { s.m.im with cur_pos := u32 (s.m.im.cur_pos + 1) } } }) := by
  have hd : dispatch s =
      .thrown UnknownOperationGraphicMachineException
        { s with m := { s.m with im := { s.m.im with cur_pos := u32 (s.m.im.cur_pos + 1) } } } := by
    unfold dispatch
    simp only [GraphicIteratorMachine.get_next_fst, hop, GraphicIteratorMachine.get_next_snd]
  exact ⟨hd, interpretator_thrown fuel _ _ _ hnd hd⟩

/-- Witness of C7: an unknown colour followed by `+`, with a non-empty stack. -/
theorem unknown_operation_aborts_witness :
    dispatch (strip_state [OP_UNKNOWN, OP_INC_CELL] 0 0 [5] [3]) =
      .thrown UnknownOperationGraphicMachineException
        (strip_state [OP_UNKNOWN, OP_INC_CELL] 1 0 [5] [3]) ∧
    interpretator 3 (strip_state [OP_UNKNOWN, OP_INC_CELL] 0 0 [5] [3]) =
      some (.thrown UnknownOperationGraphicMachineException
        (strip_state [OP_UNKNOWN, OP_INC_CELL] 1 0 [5] [3])) :=
  unknown_operation_aborts (strip_state [OP_UNKNOWN, OP_INC_CELL] 0 0 [5] [3]) 2
    (by decide) (by decide)

/-- C8: dispatching `OP_ROTATE_CLOCKWISE` or `OP_ROTATE_COUNTER_CLOCKWISE` throws
`UnsupportOperationGraphicMachineException` in a state whose tape (and data pointer, return
stack and streams) are those before the dispatch, and `interpretator` ends with that very
outcome: no later operation is dispatched. -/
theorem rotate_operation_aborts (s : State) (fuel : Nat)
    (hnd : s.m.im.is_done = false)
    (hop : s.m.im.opAt s.m.im.cur_pos = OP_ROTATE_CLOCKWISE ∨
      s.m.im.opAt s.m.im.cur_pos = OP_ROTATE_COUNTER_CLOCKWISE) :
    dispatch s =
      .thrown UnsupportOperationGraphicMachineException
        { s with m := { s.m with im := { s.m.im with cur_pos := u32 (s.m.im.cur_pos + 1) } } } ∧
    interpretator (fuel + 1) s =
      some (.thrown UnsupportOperationGraphicMachineException
        { s with m := { s.m with im := { s.m.im with cur_pos := u32 (s.m.im.cur_pos + 1) } } }) := by
  have hd : dispatch s =
      .thrown UnsupportOperationGraphicMachineException
        { s with m := { s.m with im := { s.m.im with cur_pos := u32 (s.m.im.cur_pos + 1) } } } := by
    unfold dispatch
    rcases hop with hop | hop <;>
      simp only [GraphicIteratorMachine.get_next_fst, hop, GraphicIteratorMachine.get_next_snd]
  exact ⟨hd, interpretator_thrown fuel _ _ _ hnd hd⟩

/-- Witness of C8: a clockwise rotation followed by `+`. -/
theorem rotate_operation_aborts_witness :
    dispatch (strip_state [OP_ROTATE_CLOCKWISE, OP_INC_CELL] 0 0 [5] []) =
      .thrown UnsupportOperationGraphicMachineException
        (strip_state [OP_ROTATE_CLOCKWISE, OP_INC_CELL] 1 0 [5] []) ∧
    interpretator 3 (strip_state [OP_ROTATE_CLOCKWISE, OP_INC_CELL] 0 0 [5] []) =
      some (.thrown UnsupportOperationGraphicMachineException
        (strip_state [OP_ROTATE_CLOCKWISE, OP_INC_CELL] 1 0 [5] [])) :=
  rotate_operation_aborts (strip_state [OP_ROTATE_CLOCKWISE, OP_INC_CELL] 0 0 [5] []) 2
    (by decide) (Or.inl (by decide))

/-! ## Tape arithmetic and pointer moves -/

/-- C9: for every cell value `v` in 0..255 held by the cell at the data pointer,
dispatching `OP_INC_CELL` completes with that cell set to `(v + 1) % 256` and dispatching
`OP_DEC_CELL` completes with it set to `(v + 255) % 256`, nothing else but the stream
position changing; the cell then reads back the stored value; the increment is `v + 1`
except that 255 becomes 0, the decrement is `v - 1` except that 0 becomes 255. -/
theorem inc_dec_cell_wraps (s : State) (v : Nat)
    (hv : v ≤ 255)
    (hnum : s.num < s.cells.length)
    (hcell : s.cells.getD s.num 0 = v) :
    (s.m.im.opAt s.m.im.cur_pos = OP_INC_CELL →
      dispatch s =
        .normal { s with
                  m := { s.m with im := { s.m.im with cur_pos := u32 (s.m.im.cur_pos + 1) } }
                  cells := s.cells.set s.num ((v + 1) % 256) }) ∧
    (s.m.im.opAt s.m.im.cur_pos = OP_DEC_CELL →
      dispatch s =
        .normal { s with
                  m := { s.m with im := { s.m.im with cur_pos := u32 (s.m.im.cur_pos + 1) } }
                  cells := s.cells.set s.num ((v + 255) % 256) }) ∧
    (∀ x : Nat, (s.cells.set s.num x).getD s.num 0 = x) ∧
    ((v + 1) % 256 = if v = 255 then 0 else v + 1) ∧
    ((v + 255) % 256 = if v = 0 then 255 else v - 1) := by
  refine ⟨?_, ?_, ?_, ?_, ?_⟩
  · intro hop
    unfold dispatch
    simp only [GraphicIteratorMachine.get_next_fst, hop, hcell, u8,
      GraphicIteratorMachine.get_next_snd]
  · intro hop
    unfold dispatch
    simp only [GraphicIteratorMachine.get_next_fst, hop, hcell, u8_dec_eq,
      GraphicIteratorMachine.get_next_snd]
  · intro x
    simp [List.getD_eq_getElem?_getD, List.getElem?_set_self, hnum]
  · split_ifs <;> omega
  · split_ifs <;> omega

/-- Witness of C9: the cell 255 under `+` and under `-`. -/
theorem inc_dec_cell_wraps_witness :
    dispatch (strip_state [OP_INC_CELL] 0 1 [7, 255] []) =
      .normal (strip_state [OP_INC_CELL] 1 1 [7, 0] []) ∧
    dispatch (strip_state [OP_DEC_CELL] 0 1 [7, 0] []) =
      .normal (strip_state [OP_DEC_CELL] 1 1 [7, 255] []) :=
  ⟨(inc_dec_cell_wraps (strip_state [OP_INC_CELL] 0 1 [7, 255] []) 255
      (by decide) (by decide) (by decide)).1 (by decide),
   (inc_dec_cell_wraps (strip_state [OP_DEC_CELL] 0 1 [7, 0] []) 0
      (by decide) (by decide) (by decide)).2.1 (by decide)⟩

/-- C10 (counterexample): `OP_PREV_CELL` dispatched with the data pointer at 0 completes,
and leaves the data pointer at `2^64 - 1`, which is not the pointer decreased by one. -/
theorem prev_cell_at_zero_wraps :
    dispatch (strip_state [OP_PREV_CELL] 0 0 [0] []) =
      .normal (strip_state [OP_PREV_CELL] 1 18446744073709551615 [0] []) ∧
    ((strip_state [OP_PREV_CELL] 1 18446744073709551615 [0] []).num : Int) ≠
      ((strip_state [OP_PREV_CELL] 0 0 [0] []).num : Int) - 1 := by
  constructor
  · decide
  · decide

/-- C10 (amended): for every state whose data pointer is an `index_t` value,
`OP_NEXT_CELL` and `OP_PREV_CELL` complete without any check and without throwing, and move
the data pointer by one in the arithmetic of `index_t`: `OP_NEXT_CELL` yields `num + 1`
(0 after `2^64 - 1`), `OP_PREV_CELL` yields `num - 1` when `num` is positive and
`2^64 - 1` at 0; tape, return stack and streams are unchanged and the stream position is
only advanced past the operation. -/
theorem next_prev_cell_moves (s : State)
    (hnum : s.num < 18446744073709551616) :
    (s.m.im.opAt s.m.im.cur_pos = OP_NEXT_CELL →
      dispatch s =
        .normal { s with
                  m := { s.m with im := { s.m.im with cur_pos := u32 (s.m.im.cur_pos + 1) } }
                  num := if s.num = 18446744073709551615 then 0 else s.num + 1 }) ∧
    (s.m.im.opAt s.m.im.cur_pos = OP_PREV_CELL →
      dispatch s =
        .normal { s with
                  m := { s.m with im := { s.m.im with cur_pos := u32 (s.m.im.cur_pos + 1) } }
                  num := if s.num = 0 then 18446744073709551615 else s.num - 1 }) := by
  refine ⟨?_, ?_⟩
  · intro hop
    unfold dispatch
    simp only [GraphicIteratorMachine.get_next_fst, hop, usize_succ_eq s.num hnum,
      GraphicIteratorMachine.get_next_snd]
  · intro hop
    unfold dispatch
    simp only [GraphicIteratorMachine.get_next_fst, hop, usize_dec_eq s.num hnum,
      GraphicIteratorMachine.get_next_snd]

/-- Witness of C10 (amended): `OP_NEXT_CELL` at pointer 29999 and `OP_PREV_CELL` at
pointer 0. -/
theorem next_prev_cell_moves_witness :
    dispatch (strip_state [OP_NEXT_CELL] 0 29999 [0] [4]) =
      .normal (strip_state [OP_NEXT_CELL] 1 30000 [0] [4]) ∧
    dispatch (strip_state [OP_PREV_CELL] 0 0 [0] [4]) =
      .normal (strip_state [OP_PREV_CELL] 1 18446744073709551615 [0] [4]) :=
  ⟨(next_prev_cell_moves (strip_state [OP_NEXT_CELL] 0 29999 [0] [4]) (by decide)).1 (by decide),
   (next_prev_cell_moves (strip_state [OP_PREV_CELL] 0 0 [0] [4]) (by decide)).2 (by decide)⟩

/-! ## Runs: the log of dispatches -/

/-- The instrumented interpreter has the outcome of `interpretator`. -/
theorem interpretator_log_fst (fuel : Nat) (s : State) :
    (interpretator_log fuel s).map Prod.fst = interpretator fuel s := by
  induction fuel generalizing s with
  | zero =>
      by_cases h : s.m.im.is_done = true
      · simp [interpretator_log, interpretator, h]
      · simp [interpretator_log, interpretator, h]
  | succ k ih =>
      by_cases h : s.m.im.is_done = true
      · simp [interpretator_log, interpretator, h]
      · cases hd : dispatch s with
        | normal s' =>
            have h' : s.m.im.is_done = false := by simpa using h
            simp only [interpretator_log, interpretator, h', hd, Bool.false_eq_true, if_false,
              Option.map_map]
            rw [← ih s']
            rfl
        | thrown e s' =>
            simp [interpretator_log, interpretator, h, hd]

theorem interpretator_of_log (fuel : Nat) (s : State) (o : Outcome)
    (tr : List (Nat × Operation)) (h : interpretator_log fuel s = some (o, tr)) :
    interpretator fuel s = some o := by
  rw [← interpretator_log_fst, h]
  rfl

theorem run_of_log_normal (fuel : Nat) (m : GraphicMachine) (s : State)
    (tr : List (Nat × Operation)) (h : interpretator_log fuel m.start = some (.normal s, tr)) :
    m.run fuel = some (.normal { s with m := { s.m with cout := s.m.cout ++ ['\n'] } }) := by
  unfold GraphicMachine.run
  rw [interpretator_of_log fuel _ _ _ h]

theorem run_of_log_thrown (fuel : Nat) (m : GraphicMachine) (s : State)
    (e : IMachineException) (tr : List (Nat × Operation))
    (h : interpretator_log fuel m.start = some (.thrown e s, tr)) :
    m.run fuel = some (.thrown e s) := by
  unfold GraphicMachine.run
  rw [interpretator_of_log fuel _ _ _ h]

theorem interpretator_log_done (fuel : Nat) (s : State) (h : s.m.im.is_done = true) :
    interpretator_log fuel s = some (.normal s, []) := by
  cases fuel <;> simp [interpretator_log, h]

theorem interpretator_log_thrown (fuel : Nat) (s s' : State) (e : IMachineException)
    (h : s.m.im.is_done = false) (hd : dispatch s = .thrown e s') :
    interpretator_log (fuel + 1) s =
      some (.thrown e s', [(s.m.im.cur_pos, s.m.im.opAt s.m.im.cur_pos)]) := by
  simp [interpretator_log, h, hd, GraphicIteratorMachine.get_next_fst]

theorem Steps.refl (s : State) : Steps s [] s := by
  intro fuel
  cases h : interpretator_log fuel s with
  | none => simp [h]
  | some r => simp [h]

theorem Steps.single (s t : State) (h : s.m.im.is_done = false)
    (hd : dispatch s = .normal t) :
    Steps s [(s.m.im.cur_pos, s.m.im.opAt s.m.im.cur_pos)] t := by
  intro fuel
  simp [interpretator_log, h, hd, GraphicIteratorMachine.get_next_fst]

theorem Steps.trans {s t u : State} {tr1 tr2 : List (Nat × Operation)}
    (h1 : Steps s tr1 t) (h2 : Steps t tr2 u) : Steps s (tr1 ++ tr2) u := by
  intro fuel
  have e : fuel + (tr1 ++ tr2).length = (fuel + tr2.length) + tr1.length := by
    rw [List.length_append]; omega
  rw [e, h1 (fuel + tr2.length), h2 fuel, Option.map_map]
  congr 1
  funext r
  simp [List.append_assoc]

/-- A run that dispatches `tr` from `s` and reaches a state where the stream is done ends
normally there, for every number of iterations that is at least the length of `tr`. -/
theorem Steps.finish {s t : State} {tr : List (Nat × Operation)} (h : Steps s tr t)
    (hdone : t.m.im.is_done = true) (fuel : Nat) (hfuel : tr.length ≤ fuel) :
    interpretator_log fuel s = some (.normal t, tr) := by
  obtain ⟨f, rfl⟩ : ∃ f, fuel = f + tr.length := ⟨fuel - tr.length, by omega⟩
  rw [h f, interpretator_log_done f t hdone]
  simp

/-! ## Dispatch of one operation from a state `state_at` -/

theorem start_eq_state_at (m : GraphicMachine) :
    m.init.start = m.state_at 0 (List.replicate 30000 0) [] := rfl

theorem state_at_is_done (m : GraphicMachine) (p : Nat) (cells st : List Nat) :
    (m.state_at p cells st).m.im.is_done = decide (p ≥ m.im.n) := rfl

theorem dispatch_inc_at (m : GraphicMachine) (p : Nat) (cells st : List Nat)
    (hop : m.im.opAt p = OP_INC_CELL) (hp : p + 1 < 4294967296) :
    dispatch (m.state_at p cells st) =
      .normal (m.state_at (p + 1) (cells.set 0 (u8 (cells.getD 0 0 + 1))) st) := by
  unfold dispatch
  simp only [GraphicMachine.state_at, GraphicIteratorMachine.get_next_fst,
    GraphicIteratorMachine.opAt_cur_pos, hop, GraphicIteratorMachine.get_next_snd,
    u32_of_lt hp]

theorem dispatch_dec_at (m : GraphicMachine) (p : Nat) (cells st : List Nat)
    (hop : m.im.opAt p = OP_DEC_CELL) (hp : p + 1 < 4294967296) :
    dispatch (m.state_at p cells st) =
      .normal (m.state_at (p + 1) (cells.set 0 (u8_dec (cells.getD 0 0))) st) := by
  unfold dispatch
  simp only [GraphicMachine.state_at, GraphicIteratorMachine.get_next_fst,
    GraphicIteratorMachine.opAt_cur_pos, hop, GraphicIteratorMachine.get_next_snd,
    u32_of_lt hp]

theorem dispatch_write_at (m : GraphicMachine) (p : Nat) (cells st : List Nat)
    (hop : m.im.opAt p = OP_WRITE) (hp : p + 1 < 4294967296) :
    dispatch (m.state_at p cells st) =
      .normal (GraphicMachine.state_at
        { m with cout := m.cout ++ output m.ot (cells.getD 0 0) } (p + 1) cells st) := by
  unfold dispatch
  simp only [GraphicMachine.state_at, GraphicIteratorMachine.get_next_fst,
    GraphicIteratorMachine.opAt_cur_pos, hop, GraphicIteratorMachine.get_next_snd,
    u32_of_lt hp]

theorem dispatch_begin_nonzero_at (m : GraphicMachine) (p : Nat) (cells st : List Nat)
    (hop : m.im.opAt p = OP_BEGIN_LOOP) (hp : p + 1 < 4294967296)
    (hnz : cells.getD 0 0 ≠ 0) :
    dispatch (m.state_at p cells st) = .normal (m.state_at (p + 1) cells (p :: st)) := by
  unfold dispatch
  simp only [GraphicMachine.state_at, GraphicIteratorMachine.get_next_fst,
    GraphicIteratorMachine.opAt_cur_pos, hop, GraphicIteratorMachine.get_next_snd,
    u32_of_lt hp, hnz, if_false, GraphicIteratorMachine.get_cur_pos]
  simp

theorem dispatch_end_at (m : GraphicMachine) (p top : Nat) (cells st : List Nat)
    (hop : m.im.opAt p = OP_END_LOOP) :
    dispatch (m.state_at p cells (top :: st)) = .normal (m.state_at top cells st) := by
  unfold dispatch
  simp only [GraphicMachine.state_at, GraphicIteratorMachine.get_next_fst,
    GraphicIteratorMachine.opAt_cur_pos, hop, GraphicIteratorMachine.get_next_snd,
    GraphicIteratorMachine.set_cur_pos]

theorem dispatch_begin_zero_at (m : GraphicMachine) (p e : Nat) (cells st : List Nat)
    (hop : m.im.opAt p = OP_BEGIN_LOOP) (hn : m.im.n < 4294967296)
    (hzero : cells.getD 0 0 = 0)
    (hpe : p < e) (hen : e < m.im.n)
    (hend : m.im.opAt e = OP_END_LOOP)
    (hmin : ∀ q, p < q → q < e → m.im.opAt q ≠ OP_END_LOOP) :
    dispatch (m.state_at p cells st) = .normal (m.state_at (e + 1) cells st) := by
  have hscan : scan { m.im with cur_pos := p + 1 } =
      (OP_END_LOOP, { m.im with cur_pos := e + 1 }) :=
    scan_loop_finds _ { m.im with cur_pos := p + 1 } e
      (by show p + 1 ≤ e; omega) hen hn
      (by show e - (p + 1) ≤ m.im.n - (p + 1); omega) hend
      (fun q hq hqe => hmin q (by have : p + 1 ≤ q := hq; omega) hqe)
  unfold dispatch
  simp only [GraphicMachine.state_at, GraphicIteratorMachine.get_next_fst,
    GraphicIteratorMachine.opAt_cur_pos, hop, GraphicIteratorMachine.get_next_snd,
    u32_of_lt (by omega : p + 1 < 4294967296), hzero, if_true]
  rw [hscan]
  simp

theorem Steps.single_at (m : GraphicMachine) (p : Nat) (cells st : List Nat) (t : State)
    (hp : p < m.im.n) (hd : dispatch (m.state_at p cells st) = .normal t) :
    Steps (m.state_at p cells st) [(p, m.im.opAt p)] t := by
  have hnd : (m.state_at p cells st).m.im.is_done = false := by
    rw [state_at_is_done]; simpa using hp
  have h := Steps.single _ _ hnd hd
  simpa only [GraphicMachine.state_at, GraphicIteratorMachine.opAt_cur_pos] using h

theorem n_of_program (im : GraphicIteratorMachine) (ops : List Operation)
    (h : im.program = ops) : im.n = ops.length := by
  rw [← h, program_length]

theorem opAt_of_program (im : GraphicIteratorMachine) (ops : List Operation)
    (h : im.program = ops) (p : Nat) (op : Operation) (hp : ops[p]? = some op) :
    im.opAt p = op := by
  have hlt : p < im.n := by
    rw [n_of_program im ops h]
    by_contra hc
    rw [List.getElem?_eq_none (by omega)] at hp
    cases hp
  have := program_getElem? im p hlt
  rw [h, hp] at this
  exact (Option.some.inj this).symm

theorem tape_cons : List.replicate 30000 (0 : Nat) = 0 :: List.replicate 29999 0 := rfl

/-- A run of `j` operations `OP_INC_CELL` at the positions `0 .. j - 1` from cell 0. -/
theorem inc_steps (m : GraphicMachine) (rest st : List Nat) (j : Nat) (hj : j ≤ 255)
    (hjn : j ≤ m.im.n)
    (hinc : ∀ i, i < j → m.im.opAt i = OP_INC_CELL) :
    Steps (m.state_at 0 (0 :: rest) st)
      ((List.range j).map (fun i => (i, OP_INC_CELL)))
      (m.state_at j (j :: rest) st) := by
  induction j with
  | zero => exact Steps.refl _
  | succ j ih =>
      have h1 := ih (by omega) (by omega) (fun i hi => hinc i (by omega))
      have hop := hinc j (by omega)
      have hd := dispatch_inc_at m j (j :: rest) st hop (by omega)
      have hu : u8 (j + 1) = j + 1 := Nat.mod_eq_of_lt (by omega)
      simp only [List.set_cons_zero, List.getD_cons_zero, hu] at hd
      have h2 := Steps.single_at m j (j :: rest) st _ (by omega) hd
      rw [hop] at h2
      have := Steps.trans h1 h2
      rw [List.range_succ, List.map_append]
      exact this

/-- The iterations of the loop `[` `-` `]` whose header stands at position `k`: from cell
`v` the three operations are dispatched `v` times and the engine is back at the header
with cell 0. -/
theorem dec_loop_steps (m : GraphicMachine) (rest : List Nat) (k v : Nat) (hv : v ≤ 255)
    (hn : m.im.n = k + 3) (hk : k < 4294967000)
    (hb : m.im.opAt k = OP_BEGIN_LOOP) (hd : m.im.opAt (k + 1) = OP_DEC_CELL)
    (he : m.im.opAt (k + 2) = OP_END_LOOP) :
    Steps (m.state_at k (v :: rest) [])
      (List.replicate v
        [(k, OP_BEGIN_LOOP), (k + 1, OP_DEC_CELL), (k + 2, OP_END_LOOP)]).flatten
      (m.state_at k (0 :: rest) []) := by
  induction v with
  | zero => exact Steps.refl _
  | succ v ih =>
      have d1 := dispatch_begin_nonzero_at m k ((v + 1) :: rest) [] hb (by omega)
        (by simp)
      have s1 := Steps.single_at m k ((v + 1) :: rest) [] _ (by omega) d1
      have d2 := dispatch_dec_at m (k + 1) ((v + 1) :: rest) [k] hd (by omega)
      have hu : u8_dec (v + 1) = v := by rw [u8_dec_eq]; omega
      simp only [List.set_cons_zero, List.getD_cons_zero, hu] at d2
      have s2 := Steps.single_at m (k + 1) ((v + 1) :: rest) [k] _ (by omega) d2
      have d3 := dispatch_end_at m (k + 2) k (v :: rest) [] he
      have s3 := Steps.single_at m (k + 2) (v :: rest) [k] _ (by omega) d3
      rw [hb] at s1
      rw [hd] at s2
      rw [he] at s3
      have := Steps.trans (Steps.trans (Steps.trans s1 s2) s3) (ih (by omega))
      rw [List.replicate_succ, List.flatten_cons]
      exact this

/-! ## Whole runs -/

/-- C11: for every `k` with `0 ≤ k ≤ 255`, on an engine whose program is `k` operations
`OP_INC_CELL` followed by `OP_BEGIN_LOOP`, `OP_DEC_CELL`, `OP_END_LOOP`, the run from the
fresh tape (after `init`) ends normally for every number of iterations that is at least
`4 * k + 1`: the log of dispatches is the `k` increments, then `k` times header, decrement
and `OP_END_LOOP`, then the header once more; `OP_DEC_CELL` is dispatched exactly `k` times
(once for `k = 1`); the final tape is all zero, the return stack empty and the stream at its
end. -/
theorem inc_then_dec_loop_run (m : GraphicMachine) (k fuel : Nat)
    (hk : k ≤ 255)
    (hprog : m.im.program =
      List.replicate k OP_INC_CELL ++ [OP_BEGIN_LOOP, OP_DEC_CELL, OP_END_LOOP])
    (hfuel : 4 * k + 1 ≤ fuel) :
    interpretator_log fuel m.init.start =
      some (.normal (m.state_at (k + 3) (List.replicate 30000 0) []),
        (List.range k).map (fun i => (i, OP_INC_CELL)) ++
        (List.replicate k
          [(k, OP_BEGIN_LOOP), (k + 1, OP_DEC_CELL), (k + 2, OP_END_LOOP)]).flatten ++
        [(k, OP_BEGIN_LOOP)]) ∧
    (((List.range k).map (fun i => (i, OP_INC_CELL)) ++
        (List.replicate k
          [(k, OP_BEGIN_LOOP), (k + 1, OP_DEC_CELL), (k + 2, OP_END_LOOP)]).flatten ++
        [(k, OP_BEGIN_LOOP)]).map Prod.snd).count OP_DEC_CELL = k ∧
    m.init.run fuel =
      some (.normal (GraphicMachine.state_at { m with cout := m.cout ++ ['\n'] } (k + 3)
        (List.replicate 30000 0) [])) := by
  have hn : m.im.n = k + 3 := by
    rw [n_of_program _ _ hprog]; simp
  have hinc : ∀ i, i < k → m.im.opAt i = OP_INC_CELL := by
    intro i hi
    apply opAt_of_program _ _ hprog
    rw [List.getElem?_append_left (by simpa using hi), List.getElem?_replicate, if_pos hi]
  have hb : m.im.opAt k = OP_BEGIN_LOOP := by
    apply opAt_of_program _ _ hprog
    rw [List.getElem?_append_right (by simp)]
    simp
  have hd : m.im.opAt (k + 1) = OP_DEC_CELL := by
    apply opAt_of_program _ _ hprog
    rw [List.getElem?_append_right (by simp)]
    simp
  have he : m.im.opAt (k + 2) = OP_END_LOOP := by
    apply opAt_of_program _ _ hprog
    rw [List.getElem?_append_right (by simp)]
    simp
  have s1 := inc_steps m (List.replicate 29999 0) [] k hk (by omega) hinc
  have s2 := dec_loop_steps m (List.replicate 29999 0) k k hk hn (by omega) hb hd he
  have d3 := dispatch_begin_zero_at m k (k + 2) (0 :: List.replicate 29999 0) [] hb
    (by omega) rfl (by omega) (by omega) he
    (fun q h1 h2 => by
      have : q = k + 1 := by omega
      subst this
      rw [hd]
      decide)
  have s3 := Steps.single_at m k (0 :: List.replicate 29999 0) [] _ (by omega) d3
  rw [hb] at s3
  have hsteps := Steps.trans (Steps.trans s1 s2) s3
  have hdone : (m.state_at (k + 2 + 1) (0 :: List.replicate 29999 0) []).m.im.is_done = true := by
    rw [state_at_is_done]; simp [hn]
  have hlog := Steps.finish hsteps hdone fuel (by simp; omega)
  rw [← tape_cons] at hlog
  rw [← start_eq_state_at] at hlog
  refine ⟨hlog, ?_, run_of_log_normal fuel _ _ _ hlog⟩
  have hc0 : List.count OP_DEC_CELL
      (List.map (Prod.snd ∘ fun i : Nat => (i, OP_INC_CELL)) (List.range k)) = 0 := by
    rw [List.count_eq_zero]
    simp
  simp [List.count_append, List.count_flatten, List.count_replicate, List.map_flatten, hc0]

/-- Witness of C11: `k = 1`, the program `+` `[` `-` `]`, five iterations. -/
theorem inc_then_dec_loop_run_witness :
    interpretator_log 5
        (strip_machine [OP_INC_CELL, OP_BEGIN_LOOP, OP_DEC_CELL, OP_END_LOOP] OT_HEX []).init.start =
      some (.normal
        ((strip_machine [OP_INC_CELL, OP_BEGIN_LOOP, OP_DEC_CELL, OP_END_LOOP] OT_HEX []).state_at
          4 (List.replicate 30000 0) []),
        [(0, OP_INC_CELL), (1, OP_BEGIN_LOOP), (2, OP_DEC_CELL), (3, OP_END_LOOP),
          (1, OP_BEGIN_LOOP)]) ∧
    List.count OP_DEC_CELL
      [OP_INC_CELL, OP_BEGIN_LOOP, OP_DEC_CELL, OP_END_LOOP, OP_BEGIN_LOOP] = 1 :=
  ⟨(inc_then_dec_loop_run
      (strip_machine [OP_INC_CELL, OP_BEGIN_LOOP, OP_DEC_CELL, OP_END_LOOP] OT_HEX []) 1 5
      (by decide) (by decide) (by decide)).1,
   (inc_then_dec_loop_run
      (strip_machine [OP_INC_CELL, OP_BEGIN_LOOP, OP_DEC_CELL, OP_END_LOOP] OT_HEX []) 1 5
      (by decide) (by decide) (by decide)).2.1⟩

/-- C12: for every `body` without `OP_END_LOOP` (it may hold any other operation), on an
engine whose program is `OP_BEGIN_LOOP`, `body`, `OP_END_LOOP`, the run from the fresh tape
(after `init`) ends normally after the single dispatch of the header at position 0: no
operation of `body` is dispatched, `interpretator` writes nothing to `std::cout` (`run`
adds only its final `std::endl`), and all 30000 cells are 0. -/
theorem skipped_loop_run (m : GraphicMachine) (body : List Operation) (fuel : Nat)
    (hty : m.im.WellTyped)
    (hbody : OP_END_LOOP ∉ body)
    (hprog : m.im.program = [OP_BEGIN_LOOP] ++ body ++ [OP_END_LOOP]) :
    interpretator_log (fuel + 1) m.init.start =
      some (.normal (m.state_at (body.length + 2) (List.replicate 30000 0) []),
        [(0, OP_BEGIN_LOOP)]) ∧
    m.init.run (fuel + 1) =
      some (.normal (GraphicMachine.state_at { m with cout := m.cout ++ ['\n'] }
        (body.length + 2) (List.replicate 30000 0) [])) := by
  obtain ⟨_, _, hlt⟩ := hty
  have hn : m.im.n = body.length + 2 := by
    rw [n_of_program _ _ hprog]; simp
  have hb : m.im.opAt 0 = OP_BEGIN_LOOP := by
    apply opAt_of_program _ _ hprog
    simp
  have he : m.im.opAt (body.length + 1) = OP_END_LOOP := by
    apply opAt_of_program _ _ hprog
    rw [List.getElem?_append_right (by simp)]
    simp
  have hmid : ∀ q, 0 < q → q < body.length + 1 → m.im.opAt q ≠ OP_END_LOOP := by
    intro q h1 h2
    have hq : q - 1 < body.length := by omega
    have hget : ([OP_BEGIN_LOOP] ++ body ++ [OP_END_LOOP])[q]? = some (body[q - 1]) := by
      rw [List.getElem?_append_left (by simp; omega),
        List.getElem?_append_right (by simp; omega)]
      simp [List.getElem?_eq_getElem hq]
    rw [opAt_of_program _ _ hprog q _ hget]
    intro hc
    exact hbody (hc ▸ List.getElem_mem hq)
  have d := dispatch_begin_zero_at m 0 (body.length + 1) (0 :: List.replicate 29999 0) [] hb
    hlt rfl (by omega) (by omega) he hmid
  have st := Steps.single_at m 0 (0 :: List.replicate 29999 0) [] _ (by omega) d
  rw [hb] at st
  have hdone : (m.state_at (body.length + 1 + 1)
      (0 :: List.replicate 29999 0) []).m.im.is_done = true := by
    rw [state_at_is_done]; simp [hn]
  have hlog := Steps.finish st hdone (fuel + 1) (by simp)
  rw [← tape_cons] at hlog
  rw [← start_eq_state_at] at hlog
  exact ⟨hlog, run_of_log_normal (fuel + 1) _ _ _ hlog⟩

/-- Witness of C12: the body `?` `.` `[` `+` (unknown, write, header, increment). -/
theorem skipped_loop_run_witness :
    interpretator_log 1
        (strip_machine [OP_BEGIN_LOOP, OP_UNKNOWN, OP_WRITE, OP_BEGIN_LOOP, OP_INC_CELL,
          OP_END_LOOP] OT_HEX []).init.start =
      some (.normal
        ((strip_machine [OP_BEGIN_LOOP, OP_UNKNOWN, OP_WRITE, OP_BEGIN_LOOP, OP_INC_CELL,
          OP_END_LOOP] OT_HEX []).state_at 6 (List.replicate 30000 0) []),
        [(0, OP_BEGIN_LOOP)]) :=
  (skipped_loop_run
    (strip_machine [OP_BEGIN_LOOP, OP_UNKNOWN, OP_WRITE, OP_BEGIN_LOOP, OP_INC_CELL,
      OP_END_LOOP] OT_HEX [])
    [OP_UNKNOWN, OP_WRITE, OP_BEGIN_LOOP, OP_INC_CELL] 0
    (by decide) (by decide) (by decide)).1

/-! ## Output -/

set_option maxRecDepth 100000 in
/-- The `OT_HEX` rendering of a cell value is its two upper-case hexadecimal digits. -/
theorem output_hex_eq (v : Nat) (hv : v ≤ 255) :
    output OT_HEX v = [hex_digit (v / 16), hex_digit (v % 16)] := by
  have h : ∀ w, w < 256 → output OT_HEX w = [hex_digit (w / 16), hex_digit (w % 16)] := by
    decide
  exact h v (by omega)

set_option maxRecDepth 100000 in
theorem char_ofNat_toNat (v : Nat) (hv : v ≤ 255) : (Char.ofNat v).toNat = v := by
  have h : ∀ w, w < 256 → (Char.ofNat w).toNat = w := by
    decide
  exact h v (by omega)

/-- The log and the outcome of `k` operations `OP_INC_CELL` followed by `OP_WRITE`. -/
theorem inc_write_log (m : GraphicMachine) (k fuel : Nat)
    (hk : k ≤ 255)
    (hprog : m.im.program = List.replicate k OP_INC_CELL ++ [OP_WRITE])
    (hfuel : k + 1 ≤ fuel) :
    interpretator_log fuel m.init.start =
      some (.normal (GraphicMachine.state_at { m with cout := m.cout ++ output m.ot k }
          (k + 1) (k :: List.replicate 29999 0) []),
        (List.range k).map (fun i => (i, OP_INC_CELL)) ++ [(k, OP_WRITE)]) := by
  have hn : m.im.n = k + 1 := by
    rw [n_of_program _ _ hprog]; simp
  have hinc : ∀ i, i < k → m.im.opAt i = OP_INC_CELL := by
    intro i hi
    apply opAt_of_program _ _ hprog
    rw [List.getElem?_append_left (by simpa using hi), List.getElem?_replicate, if_pos hi]
  have hw : m.im.opAt k = OP_WRITE := by
    apply opAt_of_program _ _ hprog
    rw [List.getElem?_append_right (by simp)]
    simp
  have s1 := inc_steps m (List.replicate 29999 0) [] k hk (by omega) hinc
  have d2 := dispatch_write_at m k (k :: List.replicate 29999 0) [] hw (by omega)
  simp only [List.getD_cons_zero] at d2
  have s2 := Steps.single_at m k (k :: List.replicate 29999 0) [] _ (by omega) d2
  rw [hw] at s2
  have hdone : (GraphicMachine.state_at { m with cout := m.cout ++ output m.ot k }
      (k + 1) (k :: List.replicate 29999 0) []).m.im.is_done = true := by
    rw [state_at_is_done]; simp [hn]
  have hlog := Steps.finish (Steps.trans s1 s2) hdone fuel (by simp; omega)
  rw [← tape_cons] at hlog
  rw [← start_eq_state_at] at hlog
  exact hlog

/-- C13 (counterexample): `run` on `+` `+` `+` `.` with output type `OT_HEX` writes the three
characters `0`, `3` and the newline of its final `std::endl`, not the two-character text
`03`. -/
theorem hex_run_appends_newline :
    (strip_machine [OP_INC_CELL, OP_INC_CELL, OP_INC_CELL, OP_WRITE] OT_HEX []).init.run 4 =
      some (.normal (GraphicMachine.state_at
        { strip_machine [OP_INC_CELL, OP_INC_CELL, OP_INC_CELL, OP_WRITE] OT_HEX [] with
          cout := ['0', '3', '\n'] } 4 (3 :: List.replicate 29999 0) [])) ∧
    ['0', '3', '\n'] ≠ "03".toList := by
  refine ⟨?_, by decide⟩
  exact run_of_log_normal 4 _ _ _
    (inc_write_log (strip_machine [OP_INC_CELL, OP_INC_CELL, OP_INC_CELL, OP_WRITE] OT_HEX [])
      3 4 (by decide) (by decide) (by decide))

/-- C13 (amended): for every `k` with `0 ≤ k ≤ 255`, on an engine with output type `OT_HEX`
whose program is `k` operations `OP_INC_CELL` followed by `OP_WRITE`, `interpretator` from
the fresh tape (after `init`) ends normally having appended to `std::cout` exactly the two
upper-case hexadecimal digits of `k` (leading zero included), and `run` ends normally having
appended these two characters followed by the newline of its final `std::endl`. -/
theorem hex_write_run (m : GraphicMachine) (k fuel : Nat)
    (hk : k ≤ 255)
    (hot : m.ot = OT_HEX)
    (hprog : m.im.program = List.replicate k OP_INC_CELL ++ [OP_WRITE])
    (hfuel : k + 1 ≤ fuel) :
    interpretator fuel m.init.start =
      some (.normal (GraphicMachine.state_at
        { m with cout := m.cout ++ [hex_digit (k / 16), hex_digit (k % 16)] }
        (k + 1) (k :: List.replicate 29999 0) [])) ∧
    m.init.run fuel =
      some (.normal (GraphicMachine.state_at
        { m with cout := m.cout ++ [hex_digit (k / 16), hex_digit (k % 16)] ++ ['\n'] }
        (k + 1) (k :: List.replicate 29999 0) [])) := by
  have hlog := inc_write_log m k fuel hk hprog hfuel
  have ho : output m.ot k = [hex_digit (k / 16), hex_digit (k % 16)] := by
    rw [hot, output_hex_eq k hk]
  rw [ho] at hlog
  exact ⟨interpretator_of_log fuel _ _ _ hlog, run_of_log_normal fuel _ _ _ hlog⟩

/-- Witness of C13 (amended): `k = 3`, the text `03`, then the newline. -/
theorem hex_write_run_witness :
    interpretator 4
        (strip_machine [OP_INC_CELL, OP_INC_CELL, OP_INC_CELL, OP_WRITE] OT_HEX []).init.start =
      some (.normal (GraphicMachine.state_at
        { strip_machine [OP_INC_CELL, OP_INC_CELL, OP_INC_CELL, OP_WRITE] OT_HEX [] with
          cout := "03".toList } 4 (3 :: List.replicate 29999 0) [])) :=
  (hex_write_run (strip_machine [OP_INC_CELL, OP_INC_CELL, OP_INC_CELL, OP_WRITE] OT_HEX [])
    3 4 (by decide) (by decide) (by decide) (by decide)).1

/-- C14: for every cell value `v` in 0..255, `output` in mode `OT_BOTH` writes the
`OT_CHAR` rendering of `v`, then `[`, the `OT_HEX` rendering of `v`, then `]`; the `OT_CHAR`
rendering is the single character with code `v`, the `OT_HEX` rendering the two upper-case
hexadecimal digits of `v` (leading zero included); in mode `OT_NULL` nothing is written. -/
theorem output_both_and_null (v : Nat) (hv : v ≤ 255) :
    output OT_BOTH v = output OT_CHAR v ++ ['['] ++ output OT_HEX v ++ [']'] ∧
    output OT_CHAR v = [Char.ofNat v] ∧
    (Char.ofNat v).toNat = v ∧
    output OT_HEX v = [hex_digit (v / 16), hex_digit (v % 16)] ∧
    output OT_NULL v = [] :=
  ⟨rfl, rfl, char_ofNat_toNat v hv, output_hex_eq v hv, rfl⟩

/-- Witness of C14: the value 171 renders as the character 171 followed by `[AB]`. -/
theorem output_both_and_null_witness :
    output OT_BOTH 171 = [Char.ofNat 171, '[', 'A', 'B', ']'] ∧ output OT_NULL 171 = [] :=
  ⟨by
    have h := output_both_and_null 171 (by decide)
    rw [h.1, h.2.1, h.2.2.2.1]
    decide,
   (output_both_and_null 171 (by decide)).2.2.2.2⟩

/-! ## The print pass -/

/-- Every printer has a text for every operation: `std::map::at` never fails. -/
theorem print_eq_render (p : IPrinter) (op : Operation) : p.print op = some (p.render op) := by
  cases p <;> cases op <;> rfl

/-- One iteration of the `while` of lines 962-965. -/
theorem print_loop_step (fuel : Nat) (m : GraphicMachine) (h : m.im.is_done = false) :
    print_loop (fuel + 1) m =
      print_loop fuel { m with im := m.im.get_next.2,
                               cout := m.cout ++ m.printer.render m.im.get_next.1 } := by
  simp only [print_loop, h, Bool.false_eq_true, if_false, print_eq_render]

theorem print_loop_stop (fuel : Nat) (m : GraphicMachine) (h : m.im.is_done = true) :
    print_loop fuel m = some m := by
  cases fuel <;> simp [print_loop, h]

/-- The defining equation of the `while` of lines 962-965 holds for `print_loop` run for the
distance to the end of the stream, whenever the increment of `cur_pos` does not leave the
range of `boost::uint32_t`. -/
theorem print_loop_unfold (m : GraphicMachine) (h : m.im.cur_pos + 1 < 4294967296) :
    print_loop (m.im.n - m.im.cur_pos) m =
      if m.im.is_done then some m
      else
        match m.printer.print m.im.get_next.1 with
        | none => none
        | some text =>
            print_loop (m.im.get_next.2.n - m.im.get_next.2.cur_pos)
              { m with im := m.im.get_next.2, cout := m.cout ++ text } := by
  have hpos : m.im.get_next.2.cur_pos = m.im.cur_pos + 1 := by
    rw [GraphicIteratorMachine.get_next_snd]; exact u32_of_lt h
  have hn : m.im.get_next.2.n = m.im.n := rfl
  cases hf : m.im.n - m.im.cur_pos with
  | zero =>
      have hdone : m.im.is_done = true := by
        rw [GraphicIteratorMachine.is_done_eq_true]; omega
      simp [print_loop, hdone]
  | succ k =>
      have hk : m.im.get_next.2.n - m.im.get_next.2.cur_pos = k := by
        rw [hpos, hn]; omega
      simp only [print_loop, hk]

/-- The `while` of `print` entered at position `c` renders the operations at the positions
`c .. n - 1` in order and stops at position `n`. -/
theorem print_loop_eq (fuel : Nat) (m : GraphicMachine) (c : Nat) (out : List Char)
    (hc : c ≤ m.im.n) (hn : m.im.n < 4294967296) (hf : m.im.n - c ≤ fuel) :
    print_loop fuel { m with im := { m.im with cur_pos := c }, cout := out } =
      some { m with im := { m.im with cur_pos := m.im.n },
                    cout := out ++ ((m.im.program.drop c).map m.printer.render).flatten } := by
  induction fuel generalizing c out with
  | zero =>
      have hcn : c = m.im.n := by omega
      subst hcn
      have hd : m.im.program.drop m.im.n = [] := by
        rw [List.drop_eq_nil_iff, program_length]
      simp [print_loop, hd]
  | succ f ih =>
      by_cases hlt : c < m.im.n
      · have hnd : GraphicIteratorMachine.is_done { m.im with cur_pos := c } = false := by
          rw [GraphicIteratorMachine.is_done_eq_false]; exact hlt
        have hl : c < m.im.program.length := by rw [program_length]; exact hlt
        have hget : m.im.program[c] = m.im.opAt c := by
          have := program_getElem? m.im c hlt
          rw [List.getElem?_eq_getElem hl] at this
          exact Option.some.inj this
        have hdrop : m.im.program.drop c = m.im.opAt c :: m.im.program.drop (c + 1) := by
          rw [List.drop_eq_getElem_cons hl, hget]
        rw [print_loop_step f _ hnd]
        dsimp only
        rw [GraphicIteratorMachine.get_next_snd, GraphicIteratorMachine.get_next_fst]
        dsimp only
        rw [GraphicIteratorMachine.opAt_cur_pos, u32_of_lt (by omega : c + 1 < 4294967296),
          ih (c + 1) (out ++ m.printer.render (m.im.opAt c)) (by omega) (by omega), hdrop]
        simp [List.append_assoc]
      · have hcn : c = m.im.n := by omega
        subst hcn
        have hdone : GraphicIteratorMachine.is_done { m.im with cur_pos := m.im.n } = true := by
          rw [GraphicIteratorMachine.is_done_eq_true]
        have hd : m.im.program.drop m.im.n = [] := by
          rw [List.drop_eq_nil_iff, program_length]
        rw [print_loop_stop _ _ hdone, hd]
        simp

/-- The `while` of `print` always completes; it changes only the stream position and
appends to `std::cout`. -/
theorem print_loop_total (fuel : Nat) (m : GraphicMachine) :
    ∃ (p : Nat) (text : List Char),
      print_loop fuel m =
        some { m with im := { m.im with cur_pos := p }, cout := m.cout ++ text } := by
  induction fuel generalizing m with
  | zero => exact ⟨m.im.cur_pos, [], by simp [print_loop]⟩
  | succ f ih =>
      by_cases hd : m.im.is_done = true
      · exact ⟨m.im.cur_pos, [], by simp [print_loop, hd]⟩
      · obtain ⟨p, text, h⟩ :=
          ih { m with im := m.im.get_next.2,
                      cout := m.cout ++ m.printer.render m.im.get_next.1 }
        refine ⟨p, m.printer.render m.im.get_next.1 ++ text, ?_⟩
        have hd' : m.im.is_done = false := by simpa using hd
        rw [print_loop_step f m hd', h]
        simp [GraphicIteratorMachine.get_next_snd, List.append_assoc]

/-- The method `print` always completes; it changes only the stream position and appends
to `std::cout`. -/
theorem print_total (m : GraphicMachine) :
    ∃ (p : Nat) (text : List Char),
      m.print = some { m with im := { m.im with cur_pos := p }, cout := m.cout ++ text } := by
  obtain ⟨p, text, h⟩ :=
    print_loop_total (m.im.n - m.im.cur_pos) { m with cout := m.cout ++ BEGIN_BANNER }
  refine ⟨p, BEGIN_BANNER ++ text ++ ['\n'] ++ END_BANNER, ?_⟩
  unfold GraphicMachine.print
  rw [h]
  simp [List.append_assoc]

/-- C15: for every engine (any printer, any stream position at entry, program of length
`n`), the print pass `init` then `print` completes: between the two banners it writes the
concatenation of the texts of the operations at the positions `0 .. n - 1`, each rendered
once and in order (every printer has a text for every operation), it leaves the stream at
position `n` with `is_done` true, and it changes nothing else of the engine; the tape is a
local of `run` and does not exist during the pass. -/
theorem print_pass_renders (m : GraphicMachine) (hty : m.im.WellTyped) :
    m.init.print =
      some { m with
             im := { m.im with cur_pos := m.im.n }
             cout := m.cout ++ BEGIN_BANNER ++
               (m.im.program.map m.printer.render).flatten ++ ['\n'] ++ END_BANNER } ∧
    (∀ op : Operation, m.printer.print op = some (m.printer.render op)) ∧
    m.im.program.length = m.im.n ∧
    GraphicIteratorMachine.is_done { m.im with cur_pos := m.im.n } = true := by
  obtain ⟨_, _, hn⟩ := hty
  refine ⟨?_, print_eq_render m.printer, program_length m.im, ?_⟩
  · have h := print_loop_eq (m.im.n - 0) m 0 (m.cout ++ BEGIN_BANNER) (Nat.zero_le _) hn
      (le_refl _)
    unfold GraphicMachine.print
    simp only [GraphicMachine.init, GraphicIteratorMachine.init]
    rw [h]
    simp [List.append_assoc]
  · rw [GraphicIteratorMachine.is_done_eq_true]

/-- Witness of C15: the classical printer on `+` `?` `]` entered with the stream at 2. -/
theorem print_pass_renders_witness :
    GraphicMachine.print (GraphicMachine.init
        { strip_machine [OP_INC_CELL, OP_UNKNOWN, OP_END_LOOP] OT_HEX [] with
          printer := IPrinter.ClassicalBrainfuckPrinter
          im := (GraphicIteratorMachine.create
            (strip_image [OP_INC_CELL, OP_UNKNOWN, OP_END_LOOP]) 1).set_cur_pos 2 }) =
      some { strip_machine [OP_INC_CELL, OP_UNKNOWN, OP_END_LOOP] OT_HEX [] with
             printer := IPrinter.ClassicalBrainfuckPrinter
             im := (GraphicIteratorMachine.create
               (strip_image [OP_INC_CELL, OP_UNKNOWN, OP_END_LOOP]) 1).set_cur_pos 3
             cout := BEGIN_BANNER ++ ['+', ']'] ++ ['\n'] ++ END_BANNER } :=
  (print_pass_renders
    { strip_machine [OP_INC_CELL, OP_UNKNOWN, OP_END_LOOP] OT_HEX [] with
      printer := IPrinter.ClassicalBrainfuckPrinter
      im := (GraphicIteratorMachine.create
        (strip_image [OP_INC_CELL, OP_UNKNOWN, OP_END_LOOP]) 1).set_cur_pos 2 }
    (by decide)).1

/-- C16: `print` completes on every engine, whatever its program (unknown colours, rotate
operations and unmatched brackets included) and whatever its printer: no exception of the
engine and no `std::out_of_range` of the printer map; and on the program of one unknown
colour `print` completes while `run` throws `UnknownOperationGraphicMachineException`. -/
theorem print_always_succeeds :
    (∀ m : GraphicMachine, ∃ m' : GraphicMachine, m.print = some m') ∧
    (∀ (p : IPrinter) (op : Operation), ∃ text : List Char, p.print op = some text) ∧
    (strip_machine [OP_UNKNOWN] OT_HEX []).im.program = [OP_UNKNOWN] ∧
    (∃ m' : GraphicMachine, (strip_machine [OP_UNKNOWN] OT_HEX []).init.print = some m') ∧
    (∃ s : State, (strip_machine [OP_UNKNOWN] OT_HEX []).init.run 1 =
      some (.thrown UnknownOperationGraphicMachineException s)) := by
  refine ⟨?_, ?_, by decide, ?_, ?_⟩
  · intro m
    obtain ⟨p, text, h⟩ := print_total m
    exact ⟨_, h⟩
  · intro p op
    exact ⟨_, print_eq_render p op⟩
  · obtain ⟨p, text, h⟩ := print_total (strip_machine [OP_UNKNOWN] OT_HEX []).init
    exact ⟨_, h⟩
  · exact ⟨_, rfl⟩

/-! ## What is already on `std::cout` does not influence a run -/

theorem dispatch_push_cout (pre : List Char) (s : State) :
    dispatch (s.push_cout pre) = (dispatch s).push_cout pre := by
  unfold dispatch
  simp only [State.push_cout]
  generalize s.m.im.get_next.1 = op
  cases op with
  | OP_READ =>
      rcases hx : cin_extract s.m.cin with ⟨_ | c, rest⟩ <;>
        simp [Outcome.push_cout, State.push_cout, List.append_assoc]
  | OP_BEGIN_LOOP =>
      dsimp only
      split_ifs <;> simp [Outcome.push_cout, State.push_cout]
  | OP_END_LOOP =>
      cases hst : s.st <;> simp [Outcome.push_cout, State.push_cout]
  | _ => simp [Outcome.push_cout, State.push_cout, List.append_assoc]

theorem interpretator_push_cout (pre : List Char) (fuel : Nat) (s : State) :
    interpretator fuel (s.push_cout pre) =
      (interpretator fuel s).map (Outcome.push_cout pre) := by
  induction fuel generalizing s with
  | zero =>
      by_cases h : s.m.im.is_done = true
      · have h' : (s.push_cout pre).m.im.is_done = true := h
        simp [interpretator, h, h', Outcome.push_cout]
      · have h' : ¬ (s.push_cout pre).m.im.is_done = true := h
        simp [interpretator, h, h']
  | succ k ih =>
      by_cases h : s.m.im.is_done = true
      · have h' : (s.push_cout pre).m.im.is_done = true := h
        simp [interpretator, h, h', Outcome.push_cout]
      · have h1 : s.m.im.is_done = false := by simpa using h
        have h2 : (s.push_cout pre).m.im.is_done = false := h1
        cases hd : dispatch s with
        | normal t =>
            have hd' : dispatch (s.push_cout pre) = .normal (t.push_cout pre) := by
              rw [dispatch_push_cout, hd]; rfl
            rw [interpretator_normal k _ _ h2 hd', interpretator_normal k _ _ h1 hd, ih t]
        | thrown e t =>
            have hd' : dispatch (s.push_cout pre) = .thrown e (t.push_cout pre) := by
              rw [dispatch_push_cout, hd]; rfl
            rw [interpretator_thrown k _ _ _ h2 hd', interpretator_thrown k _ _ _ h1 hd]
            rfl

theorem run_push_cout (pre : List Char) (fuel : Nat) (m : GraphicMachine) :
    GraphicMachine.run fuel { m with cout := pre ++ m.cout } =
      (m.run fuel).map (Outcome.push_cout pre) := by
  have h := interpretator_push_cout pre fuel m.start
  unfold GraphicMachine.run
  have hs : GraphicMachine.start { m with cout := pre ++ m.cout } = m.start.push_cout pre := rfl
  rw [hs, h]
  cases interpretator fuel m.start with
  | none => rfl
  | some o =>
      cases o with
      | normal t => simp [Outcome.push_cout, State.push_cout, List.append_assoc]
      | thrown e t => simp [Outcome.push_cout, State.push_cout]

theorem drop_push_cout (pre : List Char) (o : Outcome) :
    Outcome.drop_cout pre.length (o.push_cout pre) = o := by
  cases o <;> simp [Outcome.drop_cout, Outcome.push_cout, State.push_cout]

/-- The part of a run written after what `std::cout` already held, with the rest of the
outcome, does not depend on what `std::cout` already held. -/
theorem run_drop_cout (out : List Char) (fuel : Nat) (m : GraphicMachine) :
    (GraphicMachine.run fuel { m with cout := out }).map (Outcome.drop_cout out.length) =
      GraphicMachine.run fuel { m with cout := [] } := by
  have h := run_push_cout out fuel { m with cout := [] }
  simp only [List.append_nil] at h
  rw [h, Option.map_map]
  cases GraphicMachine.run fuel { m with cout := [] } with
  | none => rfl
  | some o => simp [drop_push_cout]

/-- C17: for every engine (any program, any pending input) and every number of
iterations, the print pass `init`, `print` completes, and `run` after a second `init`
yields the outcome of `run` after `init` alone: same ending (still running, normal, or the
same exception), same tape, data pointer, return stack, stream and remaining input, and the
same text written by the run itself. -/
theorem run_after_print (m : GraphicMachine) (fuel : Nat) :
    ∃ mp : GraphicMachine,
      m.init.print = some mp ∧
      (mp.init.run fuel).map (Outcome.drop_cout mp.cout.length) =
        (m.init.run fuel).map (Outcome.drop_cout m.cout.length) := by
  obtain ⟨p, text, h⟩ := print_total m.init
  refine ⟨_, h, ?_⟩
  have e1 : GraphicMachine.init
      { m.init with im := { m.init.im with cur_pos := p }, cout := m.init.cout ++ text } =
      { m.init with cout := m.cout ++ text } := rfl
  have e2 : m.init = { m.init with cout := m.cout } := rfl
  rw [e1]
  have h1 := run_drop_cout (m.cout ++ text) fuel m.init
  have h2 := run_drop_cout m.cout fuel m.init
  rw [← e2] at h2
  rw [h2]
  exact h1

/-! ## Stream position, open loops and the guard of the header -/

/-- C18 (evaluation at the failing input): on `overrun_machine` (program length 1) the
first dispatch of the run decodes the header and leaves the stream done at position 1; the
`do ... while` then calls `get_next` on this done stream, and the run ends with the stream
at position 2, beyond the program length. -/
theorem scan_calls_get_next_when_done :
    overrun_machine.im.n = 1 ∧
    overrun_machine.init.start.m.im.is_done = false ∧
    overrun_machine.init.start.m.im.get_next.2.is_done = true ∧
    scan overrun_machine.init.start.m.im.get_next.2 =
      GraphicIteratorMachine.get_next overrun_machine.init.start.m.im.get_next.2 ∧
    (scan overrun_machine.init.start.m.im.get_next.2).2.cur_pos = 2 ∧
    interpretator 1 overrun_machine.init.start =
      some (.normal (overrun_machine.state_at 2 (List.replicate 30000 0) [])) := by
  refine ⟨by decide, by decide, by decide, by decide, by decide, ?_⟩
  have hd : dispatch overrun_machine.init.start =
      .normal (overrun_machine.state_at 2 (List.replicate 30000 0) []) := by
    rfl
  rw [interpretator_normal 0 _ _ (by decide) hd, interpretator_done 0 _ (by decide)]

/-- C19 (counterexample): on the program `+` `[` the run ends normally, the stream done and
no exception thrown, with the position of the open header still on the return stack. -/
theorem open_loop_ends_normally :
    (strip_machine [OP_INC_CELL, OP_BEGIN_LOOP] OT_HEX []).init.run 2 =
      some (.normal (GraphicMachine.state_at
        { strip_machine [OP_INC_CELL, OP_BEGIN_LOOP] OT_HEX [] with cout := ['\n'] }
        2 (1 :: List.replicate 29999 0) [1])) ∧
    (GraphicMachine.state_at
        { strip_machine [OP_INC_CELL, OP_BEGIN_LOOP] OT_HEX [] with cout := ['\n'] }
        2 (1 :: List.replicate 29999 0) [1]).m.im.is_done = true ∧
    (GraphicMachine.state_at
        { strip_machine [OP_INC_CELL, OP_BEGIN_LOOP] OT_HEX [] with cout := ['\n'] }
        2 (1 :: List.replicate 29999 0) [1]).st ≠ [] := by
  refine ⟨?_, by decide, by decide⟩
  have d1 : dispatch (strip_machine [OP_INC_CELL, OP_BEGIN_LOOP] OT_HEX []).init.start =
      .normal ((strip_machine [OP_INC_CELL, OP_BEGIN_LOOP] OT_HEX []).state_at 1
        (1 :: List.replicate 29999 0) []) := by
    rfl
  have d2 : dispatch ((strip_machine [OP_INC_CELL, OP_BEGIN_LOOP] OT_HEX []).state_at 1
        (1 :: List.replicate 29999 0) []) =
      .normal ((strip_machine [OP_INC_CELL, OP_BEGIN_LOOP] OT_HEX []).state_at 2
        (1 :: List.replicate 29999 0) [1]) := by
    rfl
  unfold GraphicMachine.run
  rw [interpretator_normal 1 _ _ (by decide) d1, interpretator_normal 0 _ _ (by decide) d2,
    interpretator_done 0 _ (by decide)]
  rfl

/-- C19 (amended): an open loop is reported only by the zero branch of the header.  When
`OP_BEGIN_LOOP` is dispatched with the current cell equal to 0, is not the last operation
of the program and no `OP_END_LOOP` stands after it, `interpretator` ends by throwing
`UnexpectedEndOfProgrammGraphicMachineException` from that branch; when it is dispatched
with a non-zero current cell as the last operation of the program, `interpretator` ends
normally with the position of the header left on top of the return stack. -/
theorem open_loop_at_end (s : State) (fuel : Nat)
    (hty : s.m.im.WellTyped)
    (hop : s.m.im.opAt s.m.im.cur_pos = OP_BEGIN_LOOP) :
    (s.cells.getD s.num 0 = 0 → s.m.im.cur_pos + 1 < s.m.im.n →
      (∀ p, s.m.im.cur_pos < p → p < s.m.im.n → s.m.im.opAt p ≠ OP_END_LOOP) →
      interpretator (fuel + 1) s =
        some (.thrown UnexpectedEndOfProgrammGraphicMachineException
          { s with m := { s.m with im := { s.m.im with cur_pos := s.m.im.n } } })) ∧
    (s.cells.getD s.num 0 ≠ 0 → s.m.im.cur_pos + 1 = s.m.im.n →
      interpretator (fuel + 1) s =
        some (.normal
          { s with m := { s.m with im := { s.m.im with cur_pos := s.m.im.n } },
                   st := s.m.im.cur_pos :: s.st })) := by
  constructor
  · intro hzero hlast hno
    have hnd : s.m.im.is_done = false := by
      rw [GraphicIteratorMachine.is_done_eq_false]; omega
    exact interpretator_thrown fuel _ _ _ hnd
      (begin_loop_zero_exhausts s hty hop hzero hlast hno)
  · intro hnz hlast
    obtain ⟨_, _, hn⟩ := hty
    have hnd : s.m.im.is_done = false := by
      rw [GraphicIteratorMachine.is_done_eq_false]; omega
    have h2 : s.m.im.get_next.2 = { s.m.im with cur_pos := s.m.im.n } := by
      rw [GraphicIteratorMachine.get_next_snd, u32_of_lt (by omega), hlast]
    have hd : dispatch s =
        .normal { s with m := { s.m with im := { s.m.im with cur_pos := s.m.im.n } },
                         st := s.m.im.cur_pos :: s.st } := by
      have hpos : s.m.im.n - 1 = s.m.im.cur_pos := by omega
      have hne : s.m.im.n ≠ 0 := by omega
      unfold dispatch
      simp only [GraphicIteratorMachine.get_next_fst, hop, hnz, if_false, h2,
        GraphicIteratorMachine.get_cur_pos]
      simp [hne, hpos]
    rw [interpretator_normal fuel _ _ hnd hd]
    exact interpretator_done fuel _ (by rw [GraphicIteratorMachine.is_done_eq_true])

/-- Witness of C19 (amended): the header of `[` `+` with cell 0, and the header of `+` `[`
with cell 1. -/
theorem open_loop_at_end_witness :
    interpretator 1 (strip_state [OP_BEGIN_LOOP, OP_INC_CELL] 0 0 [0] []) =
      some (.thrown UnexpectedEndOfProgrammGraphicMachineException
        (strip_state [OP_BEGIN_LOOP, OP_INC_CELL] 2 0 [0] [])) ∧
    interpretator 1 (strip_state [OP_INC_CELL, OP_BEGIN_LOOP] 1 0 [1] []) =
      some (.normal (strip_state [OP_INC_CELL, OP_BEGIN_LOOP] 2 0 [1] [1])) :=
  ⟨(open_loop_at_end (strip_state [OP_BEGIN_LOOP, OP_INC_CELL] 0 0 [0] []) 0
      (by decide) (by decide)).1 (by decide) (by decide)
      (by intro p h1 h2
          have h3 : p = 1 := by
            have h1' : 0 < p := h1
            have h2' : p < 2 := h2
            omega
          subst h3
          decide),
   (open_loop_at_end (strip_state [OP_INC_CELL, OP_BEGIN_LOOP] 1 0 [1] []) 0
      (by decide) (by decide)).2 (by decide) (by decide)⟩

/-- C20 (counterexample): the header at position 0 of `[` `-` `]`, dispatched from stream
position 0 with cell 1, throws nothing and pushes the position 0. -/
theorem header_at_zero_pushes :
    dispatch (strip_state [OP_BEGIN_LOOP, OP_DEC_CELL, OP_END_LOOP] 0 0 [1] []) =
      .normal (strip_state [OP_BEGIN_LOOP, OP_DEC_CELL, OP_END_LOOP] 1 0 [1] [0]) ∧
    dispatch (strip_state [OP_BEGIN_LOOP, OP_DEC_CELL, OP_END_LOOP] 0 0 [1] []) ≠
      .thrown ShitHappendGraphicMachineException
        (strip_state [OP_BEGIN_LOOP, OP_DEC_CELL, OP_END_LOOP] 1 0 [1] []) := by
  constructor
  · decide
  · decide

/-- C20 (amended): for every program whose position 0 holds `OP_BEGIN_LOOP` and every tape
state in which the current cell is non-zero, dispatching that header from stream position 0
throws nothing: `get_next` has already moved the stream to position 1 when the guard
`get_cur_pos()` is evaluated, so the position 0 is pushed onto the return stack; tape and
data pointer are unchanged. -/
theorem header_at_zero_no_fault (s : State)
    (hpos : s.m.im.cur_pos = 0)
    (hop : s.m.im.opAt 0 = OP_BEGIN_LOOP)
    (hnz : s.cells.getD s.num 0 ≠ 0) :
    dispatch s =
      .normal { s with m := { s.m with im := { s.m.im with cur_pos := 1 } },
                       st := 0 :: s.st } := by
  have h2 : s.m.im.get_next.2 = { s.m.im with cur_pos := 1 } := by
    rw [GraphicIteratorMachine.get_next_snd, hpos]
    rfl
  have hop' : s.m.im.opAt s.m.im.cur_pos = OP_BEGIN_LOOP := by rw [hpos]; exact hop
  unfold dispatch
  simp only [GraphicIteratorMachine.get_next_fst, hop', hnz, if_false, h2,
    GraphicIteratorMachine.get_cur_pos]
  simp

/-- Witness of C20 (amended): the header of `[` `-` `]` with cell 7. -/
theorem header_at_zero_no_fault_witness :
    dispatch (strip_state [OP_BEGIN_LOOP, OP_DEC_CELL, OP_END_LOOP] 0 0 [7] [5]) =
      .normal (strip_state [OP_BEGIN_LOOP, OP_DEC_CELL, OP_END_LOOP] 1 0 [7] [0, 5]) :=
  header_at_zero_no_fault (strip_state [OP_BEGIN_LOOP, OP_DEC_CELL, OP_END_LOOP] 0 0 [7] [5])
    (by decide) (by decide) (by decide)

/-! ## Printers -/

/-- C21: the `ClassicalBrainfuckPrinter` has a text for every operation: the eight
operations of the classical language render as `+`, `-`, `>`, `<`, `,`, `.`, `[`, `]`, and
`OP_UNKNOWN` and the two rotate operations render as the empty text. -/
theorem classical_printer_table :
    (∀ op : Operation, ∃ text : List Char,
      IPrinter.print IPrinter.ClassicalBrainfuckPrinter op = some text) ∧
    IPrinter.print IPrinter.ClassicalBrainfuckPrinter OP_INC_CELL = some "+".toList ∧
    IPrinter.print IPrinter.ClassicalBrainfuckPrinter OP_DEC_CELL = some "-".toList ∧
    IPrinter.print IPrinter.ClassicalBrainfuckPrinter OP_NEXT_CELL = some ">".toList ∧
    IPrinter.print IPrinter.ClassicalBrainfuckPrinter OP_PREV_CELL = some "<".toList ∧
    IPrinter.print IPrinter.ClassicalBrainfuckPrinter OP_READ = some ",".toList ∧
    IPrinter.print IPrinter.ClassicalBrainfuckPrinter OP_WRITE = some ".".toList ∧
    IPrinter.print IPrinter.ClassicalBrainfuckPrinter OP_BEGIN_LOOP = some "[".toList ∧
    IPrinter.print IPrinter.ClassicalBrainfuckPrinter OP_END_LOOP = some "]".toList ∧
    IPrinter.print IPrinter.ClassicalBrainfuckPrinter OP_UNKNOWN = some "".toList ∧
    IPrinter.print IPrinter.ClassicalBrainfuckPrinter OP_ROTATE_CLOCKWISE = some "".toList ∧
    IPrinter.print IPrinter.ClassicalBrainfuckPrinter OP_ROTATE_COUNTER_CLOCKWISE =
      some "".toList := by
  refine ⟨fun op => ⟨_, print_eq_render _ op⟩, ?_⟩
  decide

/-- C22 (counterexample): the `SimplePrinter` renders `OP_INC_CELL` as `1`, not `0`, and
`OP_UNKNOWN` as `0`, not `10`. -/
theorem simple_printer_inc_is_one :
    IPrinter.print IPrinter.SimplePrinter OP_INC_CELL = some "1".toList ∧
    IPrinter.print IPrinter.SimplePrinter OP_INC_CELL ≠ some "0".toList ∧
    IPrinter.print IPrinter.SimplePrinter OP_UNKNOWN = some "0".toList ∧
    IPrinter.print IPrinter.SimplePrinter OP_UNKNOWN ≠ some "10".toList := by
  decide

/-- C22 (amended): the `SimplePrinter` renders every operation as the decimal text of its
value in the enumeration of the source, where `OP_UNKNOWN` is 0 and the other operations
follow: increment 1, decrement 2, next 3, previous 4, read 5, write 6, header 7,
`OP_END_LOOP` 8, clockwise 9, counter-clockwise 10. -/
theorem simple_printer_ordinals :
    IPrinter.print IPrinter.SimplePrinter OP_UNKNOWN = some "0".toList ∧
    IPrinter.print IPrinter.SimplePrinter OP_INC_CELL = some "1".toList ∧
    IPrinter.print IPrinter.SimplePrinter OP_DEC_CELL = some "2".toList ∧
    IPrinter.print IPrinter.SimplePrinter OP_NEXT_CELL = some "3".toList ∧
    IPrinter.print IPrinter.SimplePrinter OP_PREV_CELL = some "4".toList ∧
    IPrinter.print IPrinter.SimplePrinter OP_READ = some "5".toList ∧
    IPrinter.print IPrinter.SimplePrinter OP_WRITE = some "6".toList ∧
    IPrinter.print IPrinter.SimplePrinter OP_BEGIN_LOOP = some "7".toList ∧
    IPrinter.print IPrinter.SimplePrinter OP_END_LOOP = some "8".toList ∧
    IPrinter.print IPrinter.SimplePrinter OP_ROTATE_CLOCKWISE = some "9".toList ∧
    IPrinter.print IPrinter.SimplePrinter OP_ROTATE_COUNTER_CLOCKWISE = some "10".toList := by
  decide

/-! ## The instruction stream -/

/-- C23: for every image of width `w` (an `int`) and every cell size `c > 0`, the stream
made by the constructor has length `w / c` (integer division), and for every position
`i < w / c` the stream standing at `i` is not done and `get_next` samples row 1 at column
`i * c`, which is strictly less than `w`. -/
theorem program_length_and_columns (gp : Mat) (c : Nat)
    (hc : 0 < c) (hw : gp.cols < 2147483648) :
    (GraphicIteratorMachine.create gp c).get_size = gp.cols / c ∧
    ∀ i, i < gp.cols / c →
      i * c < gp.cols ∧
      ((GraphicIteratorMachine.create gp c).set_cur_pos i).is_done = false ∧
      ((GraphicIteratorMachine.create gp c).set_cur_pos i).get_next.1 =
        code_to_op (pack (gp.at 1 (i * c))) := by
  have hdiv : gp.cols / c ≤ gp.cols := Nat.div_le_self _ _
  have hn : (GraphicIteratorMachine.create gp c).n = gp.cols / c := by
    simp only [GraphicIteratorMachine.create]
    exact u32_of_lt (by omega)
  refine ⟨hn, ?_⟩
  intro i hi
  have hcol : i * c < gp.cols := by
    have h1 : (i + 1) * c ≤ gp.cols := by
      calc (i + 1) * c ≤ (gp.cols / c) * c := Nat.mul_le_mul_right c hi
        _ ≤ gp.cols := Nat.div_mul_le_self _ _
    have h2 : (i + 1) * c = i * c + c := by ring
    omega
  refine ⟨hcol, ?_, ?_⟩
  · rw [GraphicIteratorMachine.is_done_eq_false]
    simp only [GraphicIteratorMachine.set_cur_pos]
    rw [hn]
    exact hi
  · simp only [GraphicIteratorMachine.get_next, GraphicIteratorMachine.set_cur_pos,
      GraphicIteratorMachine.create, u32_of_lt (by omega : i * c < 4294967296)]
    rw [i32_of_lt (by omega : i * c < 2147483648), Nat.cast_mul]

/-- Witness of C23: a 39 pixel wide image and cell size 20 give length 1, and position 0
samples column 0. -/
theorem program_length_and_columns_witness :
    (GraphicIteratorMachine.create overrun_image 20).get_size = 39 / 20 ∧
    0 * 20 < overrun_image.cols :=
  ⟨(program_length_and_columns overrun_image 20 (by decide) (by decide)).1,
   ((program_length_and_columns overrun_image 20 (by decide) (by decide)).2 0
      (by decide)).1⟩

theorem perform_calls_frame (calls : List StreamCall) (im : GraphicIteratorMachine) :
    (perform_calls calls im).gp = im.gp ∧
    (perform_calls calls im).graphic_cell_size = im.graphic_cell_size ∧
    (perform_calls calls im).n = im.n := by
  induction calls generalizing im with
  | nil => exact ⟨rfl, rfl, rfl⟩
  | cons c rest ih =>
      cases c with
      | init => exact ih im.init
      | set_cur_pos pos => exact ih (im.set_cur_pos pos)
      | get_next => exact ih im.get_next.2

/-- C24 (counterexample): on the stream over `wrap_image` with cell size 1, `get_next` at
position `2^32 - 1` leaves the position at 0, not at `2^32`; and at position `2^32 - 2`
the column handed to `cv::Mat::at` is the `int` -2, so that the operation returned is
`OP_NEXT_CELL`, decoded from the pixel of row 0, column 1, while the pixels of row 1 decode
to `OP_INC_CELL`, `OP_DEC_CELL` and `OP_WRITE`. -/
theorem get_next_position_wraps :
    ((GraphicIteratorMachine.create wrap_image 1).set_cur_pos 4294967295).WellTyped ∧
    ((GraphicIteratorMachine.create wrap_image 1).set_cur_pos
        4294967295).get_next.2.get_cur_pos = 0 ∧
    ((GraphicIteratorMachine.create wrap_image 1).set_cur_pos
        4294967295).get_next.2.get_cur_pos ≠ 4294967295 + 1 ∧
    ((GraphicIteratorMachine.create wrap_image 1).set_cur_pos 4294967294).WellTyped ∧
    i32 (u32 (4294967294 * 1)) = -2 ∧
    ((GraphicIteratorMachine.create wrap_image 1).set_cur_pos 4294967294).get_next.1 =
      OP_NEXT_CELL ∧
    code_to_op (pack (wrap_image.at 0 1)) = OP_NEXT_CELL ∧
    code_to_op (pack (wrap_image.at 1 0)) = OP_INC_CELL ∧
    code_to_op (pack (wrap_image.at 1 1)) = OP_DEC_CELL ∧
    code_to_op (pack (wrap_image.at 1 2)) = OP_WRITE := by
  decide

/-- C24 (amended): for every stream state with position `p`, `get_next` returns the
operation decoded from the pixel that `cv::Mat::at` addresses with row 1 and the column
`p * graphic_cell_size` reduced modulo `2^32` and converted to `int`, sets the position to
`p + 1` reduced modulo `2^32`, and leaves the size, the image and the cell size unchanged.
When `p * graphic_cell_size < 2^31` the column is `p * graphic_cell_size`, and when
`p + 1 < 2^32` the position is exactly `p + 1`.  After any history of calls of `init`,
`set_cur_pos` and `get_next`, `set_cur_pos p` followed by `get_next` returns the same
operation as on the original stream. -/
theorem get_next_decodes (im : GraphicIteratorMachine) :
    im.get_next.1 = code_to_op (pack (im.gp.at 1
      (if (im.cur_pos * im.graphic_cell_size) % 4294967296 < 2147483648
        then (((im.cur_pos * im.graphic_cell_size) % 4294967296 : Nat) : Int)
        else (((im.cur_pos * im.graphic_cell_size) % 4294967296 : Nat) : Int) -
          4294967296))) ∧
    im.get_next.2.get_cur_pos = (im.cur_pos + 1) % 4294967296 ∧
    (im.cur_pos * im.graphic_cell_size < 2147483648 →
      im.get_next.1 =
        code_to_op (pack (im.gp.at 1 (im.cur_pos * im.graphic_cell_size)))) ∧
    (im.cur_pos + 1 < 4294967296 → im.get_next.2.get_cur_pos = im.cur_pos + 1) ∧
    im.get_next.2.get_size = im.get_size ∧
    im.get_next.2.gp = im.gp ∧
    im.get_next.2.graphic_cell_size = im.graphic_cell_size ∧
    ∀ (calls : List StreamCall) (p : Nat),
      ((perform_calls calls im).set_cur_pos p).get_next.1 = (im.set_cur_pos p).get_next.1 := by
  refine ⟨?_, ?_, ?_, ?_, rfl, rfl, rfl, ?_⟩
  · simp only [GraphicIteratorMachine.get_next, i32_u32]
    rfl
  · rw [GraphicIteratorMachine.get_next_snd]
    rfl
  · intro hcol
    simp only [GraphicIteratorMachine.get_next, i32_u32]
    rw [i32_of_lt hcol, Nat.cast_mul]
  · intro hp
    rw [GraphicIteratorMachine.get_next_snd]
    exact u32_of_lt hp
  · intro calls p
    obtain ⟨h1, h2, _⟩ := perform_calls_frame calls im
    simp only [GraphicIteratorMachine.get_next, GraphicIteratorMachine.set_cur_pos, h1, h2]

/-- Witness of C24 (amended): the stream over `+` `[` `-` `]` standing at position 1, inside
the ranges, and the stream over `wrap_image` standing at position `2^32 - 1`. -/
theorem get_next_decodes_witness :
    (strip_state [OP_INC_CELL, OP_BEGIN_LOOP, OP_DEC_CELL, OP_END_LOOP] 1 0 [0] []).m.im.get_next.2.get_cur_pos =
      1 + 1 ∧
    ((GraphicIteratorMachine.create wrap_image 1).set_cur_pos
        4294967295).get_next.2.get_cur_pos = (4294967295 + 1) % 4294967296 ∧
    ((perform_calls [StreamCall.get_next, StreamCall.set_cur_pos 3, StreamCall.get_next,
        StreamCall.init]
      (strip_state [OP_INC_CELL, OP_BEGIN_LOOP, OP_DEC_CELL, OP_END_LOOP] 1 0 [0] []).m.im).set_cur_pos
        2).get_next.1 =
      ((strip_state [OP_INC_CELL, OP_BEGIN_LOOP, OP_DEC_CELL, OP_END_LOOP] 1 0 [0] []).m.im.set_cur_pos
        2).get_next.1 :=
  ⟨(get_next_decodes
      (strip_state [OP_INC_CELL, OP_BEGIN_LOOP, OP_DEC_CELL, OP_END_LOOP] 1 0 [0]
        []).m.im).2.2.2.1 (by decide),
   (get_next_decodes
      ((GraphicIteratorMachine.create wrap_image 1).set_cur_pos 4294967295)).2.1,
   (get_next_decodes
      (strip_state [OP_INC_CELL, OP_BEGIN_LOOP, OP_DEC_CELL, OP_END_LOOP] 1 0 [0]
        []).m.im).2.2.2.2.2.2.2 _ 2⟩

/-! ## Budgets -/

/-- A run that has ended keeps its outcome and its log under any larger number of
iterations. -/
theorem interpretator_log_mono (k j : Nat) (s : State) (r : Outcome × List (Nat × Operation))
    (h : interpretator_log k s = some r) : interpretator_log (k + j) s = some r := by
  induction k generalizing s r with
  | zero =>
      by_cases hd : s.m.im.is_done = true
      · rw [interpretator_log_done _ _ hd] at h
        rw [interpretator_log_done _ _ hd]
        exact h
      · simp [interpretator_log, hd] at h
  | succ k ih =>
      by_cases hd : s.m.im.is_done = true
      · rw [interpretator_log_done _ _ hd] at h
        rw [interpretator_log_done _ _ hd]
        exact h
      · have hd' : s.m.im.is_done = false := by simpa using hd
        have e : k + 1 + j = (k + j) + 1 := by omega
        rw [e]
        cases hdisp : dispatch s with
        | normal t =>
            simp only [interpretator_log, hd', hdisp, Bool.false_eq_true, if_false] at h ⊢
            cases hrec : interpretator_log k t with
            | none => rw [hrec] at h; cases h
            | some r' =>
                rw [hrec] at h
                rw [ih t r' hrec]
                exact h
        | thrown e' t =>
            simp only [interpretator_log, hd', hdisp, Bool.false_eq_true, if_false] at h ⊢
            exact h

/-- A reference run that has halted keeps its outcome under any larger budget. -/
theorem ref_run_mono (ot : OutputType) (prog : List Operation) (k j : Nat) (r r' : RefState)
    (h : ref_run ot prog k r = .halted r') : ref_run ot prog (k + j) r = .halted r' := by
  induction k generalizing r with
  | zero =>
      by_cases hd : prog.length ≤ r.pc
      · simp only [ref_run, hd, if_true] at h
        cases j <;> simp [ref_run, hd, h]
      · simp [ref_run, hd] at h
  | succ k ih =>
      have e : k + 1 + j = (k + j) + 1 := by omega
      rw [e]
      by_cases hd : prog.length ≤ r.pc
      · simp only [ref_run, hd, if_true] at h ⊢
        exact h
      · simp only [ref_run, hd, if_false] at h ⊢
        cases hs : ref_step ot prog r with
        | none => rw [hs] at h; cases h
        | some r1 =>
            rw [hs] at h
            exact ih r1 h

/-! ## Nested loops -/

/-- C25: the well-bracketed program `+` `[` `[` `-` `]` `]` halts with every cell 0 under
the reference semantics with structurally matched brackets (for every budget of at least
8 steps), while the engine, for every number of iterations of at least 9, throws
`UnexpectedOperationGraphicMachineException`: the outer header at position 1, dispatched
with cell 0, is left at position 5, just after the inner `OP_END_LOOP` at position 4, and
the outer `OP_END_LOOP` at position 5 is then dispatched with an empty return stack. -/
theorem nested_loop_aborts (budget : Nat) :
    (strip_machine [OP_INC_CELL, OP_BEGIN_LOOP, OP_BEGIN_LOOP, OP_DEC_CELL, OP_END_LOOP,
        OP_END_LOOP] OT_HEX []).im.program =
      [OP_INC_CELL, OP_BEGIN_LOOP, OP_BEGIN_LOOP, OP_DEC_CELL, OP_END_LOOP, OP_END_LOOP] ∧
    matching_close
      [OP_INC_CELL, OP_BEGIN_LOOP, OP_BEGIN_LOOP, OP_DEC_CELL, OP_END_LOOP, OP_END_LOOP] 1 =
        some 5 ∧
    ref_run OT_HEX
        [OP_INC_CELL, OP_BEGIN_LOOP, OP_BEGIN_LOOP, OP_DEC_CELL, OP_END_LOOP, OP_END_LOOP]
        (8 + budget) (ref_init []) =
      .halted { pc := 6, ptr := 0, tape := List.replicate 30000 0, out := [] } ∧
    dispatch ((strip_machine [OP_INC_CELL, OP_BEGIN_LOOP, OP_BEGIN_LOOP, OP_DEC_CELL,
        OP_END_LOOP, OP_END_LOOP] OT_HEX []).state_at 1 (List.replicate 30000 0) []) =
      .normal ((strip_machine [OP_INC_CELL, OP_BEGIN_LOOP, OP_BEGIN_LOOP, OP_DEC_CELL,
        OP_END_LOOP, OP_END_LOOP] OT_HEX []).state_at 5 (List.replicate 30000 0) []) ∧
    interpretator_log (9 + budget)
        (strip_machine [OP_INC_CELL, OP_BEGIN_LOOP, OP_BEGIN_LOOP, OP_DEC_CELL, OP_END_LOOP,
          OP_END_LOOP] OT_HEX []).init.start =
      some (.thrown UnexpectedOperationGraphicMachineException
        ((strip_machine [OP_INC_CELL, OP_BEGIN_LOOP, OP_BEGIN_LOOP, OP_DEC_CELL, OP_END_LOOP,
          OP_END_LOOP] OT_HEX []).state_at 6 (List.replicate 30000 0) []),
        [(0, OP_INC_CELL), (1, OP_BEGIN_LOOP), (2, OP_BEGIN_LOOP), (3, OP_DEC_CELL),
          (4, OP_END_LOOP), (2, OP_BEGIN_LOOP), (5, OP_END_LOOP), (1, OP_BEGIN_LOOP),
          (5, OP_END_LOOP)]) ∧
    (strip_machine [OP_INC_CELL, OP_BEGIN_LOOP, OP_BEGIN_LOOP, OP_DEC_CELL, OP_END_LOOP,
        OP_END_LOOP] OT_HEX []).init.run (9 + budget) =
      some (.thrown UnexpectedOperationGraphicMachineException
        ((strip_machine [OP_INC_CELL, OP_BEGIN_LOOP, OP_BEGIN_LOOP, OP_DEC_CELL, OP_END_LOOP,
          OP_END_LOOP] OT_HEX []).state_at 6 (List.replicate 30000 0) [])) := by
  have hlog := interpretator_log_mono 9 budget
    (strip_machine [OP_INC_CELL, OP_BEGIN_LOOP, OP_BEGIN_LOOP, OP_DEC_CELL, OP_END_LOOP,
      OP_END_LOOP] OT_HEX []).init.start
    (.thrown UnexpectedOperationGraphicMachineException
        ((strip_machine [OP_INC_CELL, OP_BEGIN_LOOP, OP_BEGIN_LOOP, OP_DEC_CELL, OP_END_LOOP,
          OP_END_LOOP] OT_HEX []).state_at 6 (List.replicate 30000 0) []),
        [(0, OP_INC_CELL), (1, OP_BEGIN_LOOP), (2, OP_BEGIN_LOOP), (3, OP_DEC_CELL),
          (4, OP_END_LOOP), (2, OP_BEGIN_LOOP), (5, OP_END_LOOP), (1, OP_BEGIN_LOOP),
          (5, OP_END_LOOP)]) rfl
  refine ⟨by decide, by decide, ?_, rfl, hlog, run_of_log_thrown _ _ _ _ _ hlog⟩
  exact ref_run_mono OT_HEX _ 8 budget (ref_init [])
    { pc := 6, ptr := 0, tape := List.replicate 30000 0, out := [] } rfl

/-! ## Invariants of the states reached by a run -/

theorem scan_loop_frame (fuel : Nat) (im : GraphicIteratorMachine) :
    (scan_loop fuel im).2 = { im with cur_pos := (scan_loop fuel im).2.cur_pos } := by
  induction fuel generalizing im with
  | zero => rfl
  | succ k ih =>
      simp only [scan_loop]
      split_ifs
      · rw [ih im.get_next.2]
        rfl
      · rfl

theorem scan_frame (im : GraphicIteratorMachine) :
    (scan im).2 = { im with cur_pos := (scan im).2.cur_pos } :=
  scan_loop_frame _ im

/-- An iteration of the `while` changes nothing of the stream but its position, and changes
the return stack in one of three ways: not at all, by the push of a header, or by the pop
of `OP_END_LOOP`. -/
theorem dispatch_effect (s t : State) (h : dispatch s = .normal t) :
    t.m.im = { s.m.im with cur_pos := t.m.im.cur_pos } ∧
    (t.st = s.st ∨
     (s.m.im.get_next.1 = OP_BEGIN_LOOP ∧ s.m.im.get_next.2.cur_pos ≠ 0 ∧
        t.st = (s.m.im.get_next.2.cur_pos - 1) :: s.st) ∨
     (s.m.im.get_next.1 = OP_END_LOOP ∧ s.st = t.m.im.cur_pos :: t.st)) := by
  unfold dispatch at h
  dsimp only at h
  generalize hop : s.m.im.get_next.1 = op at h
  cases op with
  | OP_READ =>
      dsimp only at h
      rcases hx : cin_extract s.m.cin with ⟨_ | c, rest⟩ <;> rw [hx] at h <;>
        (dsimp only at h; injection h with h; subst h; exact ⟨rfl, Or.inl rfl⟩)
  | OP_BEGIN_LOOP =>
      dsimp only at h
      split_ifs at h with h1 h2 h3
      · injection h with h; subst h
        exact ⟨by rw [scan_frame s.m.im.get_next.2]; rfl, Or.inl rfl⟩
      · injection h with h; subst h
        exact ⟨rfl, Or.inr (Or.inl ⟨rfl, h3, rfl⟩)⟩
  | OP_END_LOOP =>
      dsimp only at h
      cases hst : s.st with
      | nil => rw [hst] at h; cases h
      | cons top rest =>
          rw [hst] at h
          dsimp only at h
          injection h with h; subst h
          exact ⟨rfl, Or.inr (Or.inr ⟨rfl, rfl⟩)⟩
  | OP_UNKNOWN => cases h
  | OP_ROTATE_CLOCKWISE => cases h
  | OP_ROTATE_COUNTER_CLOCKWISE => cases h
  | _ =>
      dsimp only at h
      injection h with h; subst h
      exact ⟨rfl, Or.inl rfl⟩

/-- A property kept by every iteration of the `while` holds in every state reached. -/
theorem iterate_dispatch_induction (P : State → Prop)
    (hstep : ∀ s t, P s → s.m.im.is_done = false → dispatch s = .normal t → P t) :
    ∀ (k : Nat) (s t : State), P s → iterate_dispatch k s = some t → P t := by
  intro k
  induction k with
  | zero =>
      intro s t hs h
      simp only [iterate_dispatch] at h
      cases h
      exact hs
  | succ k ih =>
      intro s t hs h
      by_cases hd : s.m.im.is_done = true
      · simp [iterate_dispatch, hd] at h
      · have hd' : s.m.im.is_done = false := by simpa using hd
        cases hdisp : dispatch s with
        | normal s' =>
            simp only [iterate_dispatch, hd', hdisp, Bool.false_eq_true, if_false] at h
            exact ih s' t (hstep s s' hs hd' hdisp) h
        | thrown e s' =>
            simp [iterate_dispatch, hd', hdisp] at h

theorem dispatch_no_degenerate (s t : State) (hp : s.m.im.cur_pos + 1 < 4294967296) :
    dispatch s ≠ .thrown ShitHappendGraphicMachineException t := by
  intro h
  have hpos : s.m.im.get_next.2.cur_pos = s.m.im.cur_pos + 1 := by
    rw [GraphicIteratorMachine.get_next_snd]; exact u32_of_lt hp
  unfold dispatch at h
  dsimp only at h
  generalize s.m.im.get_next.1 = op at h
  cases op with
  | OP_READ =>
      dsimp only at h
      rcases hx : cin_extract s.m.cin with ⟨_ | c, rest⟩ <;> rw [hx] at h <;> cases h
  | OP_BEGIN_LOOP =>
      dsimp only at h
      split_ifs at h with h1 h2 h3
      all_goals first
        | (cases h; done)
        | (rw [GraphicIteratorMachine.get_cur_pos, hpos] at h3; omega)
  | OP_END_LOOP =>
      dsimp only at h
      cases hst : s.st with
      | nil => rw [hst] at h; cases h
      | cons top rest => rw [hst] at h; cases h
  | _ => cases h

theorem dispatch_begin_nonzero (s : State)
    (hp : s.m.im.cur_pos + 1 < 4294967296)
    (hop : s.m.im.opAt s.m.im.cur_pos = OP_BEGIN_LOOP)
    (hnz : s.cells.getD s.num 0 ≠ 0) :
    dispatch s =
      .normal { s with m := { s.m with im := { s.m.im with cur_pos := s.m.im.cur_pos + 1 } },
                       st := s.m.im.cur_pos :: s.st } := by
  have h2 : s.m.im.get_next.2 = { s.m.im with cur_pos := s.m.im.cur_pos + 1 } := by
    rw [GraphicIteratorMachine.get_next_snd, u32_of_lt hp]
  unfold dispatch
  simp only [GraphicIteratorMachine.get_next_fst, hop, hnz, if_false, h2,
    GraphicIteratorMachine.get_cur_pos]
  simp

theorem interpretator_no_degenerate (fuel : Nat) (s t : State)
    (hn : s.m.im.n < 4294967296) :
    interpretator fuel s ≠ some (.thrown ShitHappendGraphicMachineException t) := by
  induction fuel generalizing s with
  | zero =>
      by_cases hd : s.m.im.is_done = true <;> simp [interpretator, hd]
  | succ k ih =>
      by_cases hd : s.m.im.is_done = true
      · simp [interpretator, hd]
      · have hd' : s.m.im.is_done = false := by simpa using hd
        have hlt := (GraphicIteratorMachine.is_done_eq_false _).1 hd'
        cases hdisp : dispatch s with
        | normal s' =>
            rw [interpretator_normal k _ _ hd' hdisp]
            apply ih
            have hf := (dispatch_effect s s' hdisp).1
            rw [hf]
            exact hn
        | thrown e s' =>
            rw [interpretator_thrown k _ _ _ hd' hdisp]
            intro hc
            cases hc
            exact dispatch_no_degenerate s t (by omega) hdisp

/-- The stream of every state reached from `s` is the stream of `s` at another position. -/
theorem iterate_dispatch_frame (k : Nat) (s t : State) (h : iterate_dispatch k s = some t) :
    t.m.im = { s.m.im with cur_pos := t.m.im.cur_pos } := by
  refine iterate_dispatch_induction
    (fun u => u.m.im = { s.m.im with cur_pos := u.m.im.cur_pos }) ?_ k s t rfl h
  intro u v hu _ hd
  have hf := (dispatch_effect u v hd).1
  rw [hf, hu]

/-- C28: in every run from the initial state (an engine after `init`, stream members in
the range of `boost::uint32_t`), whenever the `while` is entered in a reached state the
stream position after `get_next` is at least 1, so that a header met with a non-zero cell
takes the push of its own position, and `ShitHappendGraphicMachineException` is thrown
neither by that iteration nor by `interpretator` nor by `run`, whatever the number of
iterations. -/
theorem degenerate_fault_unreachable (m : GraphicMachine) (k fuel : Nat) (s t : State)
    (hty : m.im.WellTyped)
    (hreach : iterate_dispatch k m.init.start = some s)
    (hnd : s.m.im.is_done = false) :
    1 ≤ s.m.im.get_next.2.get_cur_pos ∧
    dispatch s ≠ .thrown ShitHappendGraphicMachineException t ∧
    (s.m.im.opAt s.m.im.cur_pos = OP_BEGIN_LOOP → s.cells.getD s.num 0 ≠ 0 →
      dispatch s =
        .normal { s with m := { s.m with im := { s.m.im with cur_pos := s.m.im.cur_pos + 1 } },
                         st := s.m.im.cur_pos :: s.st }) ∧
    interpretator fuel m.init.start ≠ some (.thrown ShitHappendGraphicMachineException t) ∧
    m.init.run fuel ≠ some (.thrown ShitHappendGraphicMachineException t) := by
  obtain ⟨_, _, hn⟩ := hty
  have hf := iterate_dispatch_frame k _ _ hreach
  have hsn : s.m.im.n = m.im.n := by rw [hf]; rfl
  have hlt := (GraphicIteratorMachine.is_done_eq_false _).1 hnd
  have hp : s.m.im.cur_pos + 1 < 4294967296 := by omega
  have hint := interpretator_no_degenerate fuel m.init.start t hn
  refine ⟨?_, dispatch_no_degenerate s t hp, fun hop hnz => dispatch_begin_nonzero s hp hop hnz,
    hint, ?_⟩
  · rw [GraphicIteratorMachine.get_cur_pos, GraphicIteratorMachine.get_next_snd]
    show 1 ≤ u32 (s.m.im.cur_pos + 1)
    rw [u32_of_lt hp]
    omega
  · intro hrun
    unfold GraphicMachine.run at hrun
    cases hi : interpretator fuel m.init.start with
    | none => rw [hi] at hrun; cases hrun
    | some o =>
        rw [hi] at hrun
        cases o with
        | normal u => cases hrun
        | thrown e u =>
            dsimp only at hrun
            rw [hrun] at hi
            exact hint hi

/-- Witness of C28: the header of `+` `[` `-` `]`, reached after one iteration with
cell 1. -/
theorem degenerate_fault_unreachable_witness :
    1 ≤ ((strip_machine [OP_INC_CELL, OP_BEGIN_LOOP, OP_DEC_CELL, OP_END_LOOP] OT_HEX []).state_at
        1 (1 :: List.replicate 29999 0) []).m.im.get_next.2.get_cur_pos ∧
    dispatch ((strip_machine [OP_INC_CELL, OP_BEGIN_LOOP, OP_DEC_CELL, OP_END_LOOP] OT_HEX
        []).state_at 1 (1 :: List.replicate 29999 0) []) ≠
      .thrown ShitHappendGraphicMachineException
        (strip_state [OP_INC_CELL, OP_BEGIN_LOOP, OP_DEC_CELL, OP_END_LOOP] 2 0 [1] []) :=
  ⟨(degenerate_fault_unreachable
      (strip_machine [OP_INC_CELL, OP_BEGIN_LOOP, OP_DEC_CELL, OP_END_LOOP] OT_HEX []) 1 7
      ((strip_machine [OP_INC_CELL, OP_BEGIN_LOOP, OP_DEC_CELL, OP_END_LOOP] OT_HEX []).state_at
        1 (1 :: List.replicate 29999 0) [])
      (strip_state [OP_INC_CELL, OP_BEGIN_LOOP, OP_DEC_CELL, OP_END_LOOP] 2 0 [1] [])
      (by decide) rfl (by decide)).1,
   (degenerate_fault_unreachable
      (strip_machine [OP_INC_CELL, OP_BEGIN_LOOP, OP_DEC_CELL, OP_END_LOOP] OT_HEX []) 1 7
      ((strip_machine [OP_INC_CELL, OP_BEGIN_LOOP, OP_DEC_CELL, OP_END_LOOP] OT_HEX []).state_at
        1 (1 :: List.replicate 29999 0) [])
      (strip_state [OP_INC_CELL, OP_BEGIN_LOOP, OP_DEC_CELL, OP_END_LOOP] 2 0 [1] [])
      (by decide) rfl (by decide)).2.1⟩

/-- Every entry of the return stack of a state reached from a state with an empty return
stack is the position of a header of the program. -/
theorem iterate_dispatch_stack (k : Nat) (s t : State) (hn : s.m.im.n < 4294967296)
    (hst : s.st = []) (h : iterate_dispatch k s = some t) :
    ∀ p ∈ t.st, p < s.m.im.n ∧ s.m.im.opAt p = OP_BEGIN_LOOP := by
  have hstep : ∀ u v : State,
      (u.m.im = { s.m.im with cur_pos := u.m.im.cur_pos } ∧
        ∀ p ∈ u.st, p < s.m.im.n ∧ s.m.im.opAt p = OP_BEGIN_LOOP) →
      u.m.im.is_done = false → dispatch u = .normal v →
      (v.m.im = { s.m.im with cur_pos := v.m.im.cur_pos } ∧
        ∀ p ∈ v.st, p < s.m.im.n ∧ s.m.im.opAt p = OP_BEGIN_LOOP) := by
    intro u v ⟨hu, hinv⟩ hnd hd
    obtain ⟨hf, hcase⟩ := dispatch_effect u v hd
    have hun : u.m.im.n = s.m.im.n := by rw [hu]
    have hlt : u.m.im.cur_pos < s.m.im.n := by
      rw [← hun]; exact (GraphicIteratorMachine.is_done_eq_false _).1 hnd
    refine ⟨by rw [hf, hu], ?_⟩
    rcases hcase with h1 | ⟨hop, _, h2⟩ | ⟨_, h3⟩
    · rw [h1]; exact hinv
    · have hpos : u.m.im.get_next.2.cur_pos = u.m.im.cur_pos + 1 := by
        rw [GraphicIteratorMachine.get_next_snd]; exact u32_of_lt (by omega)
      rw [h2, hpos]
      intro p hp
      rcases List.mem_cons.1 hp with rfl | hp'
      · refine ⟨by omega, ?_⟩
        rw [GraphicIteratorMachine.get_next_fst, hu] at hop
        simpa using hop
      · exact hinv p hp'
    · intro p hp
      exact hinv p (by rw [h3]; exact List.mem_cons_of_mem _ hp)
  have := iterate_dispatch_induction
    (fun u => u.m.im = { s.m.im with cur_pos := u.m.im.cur_pos } ∧
      ∀ p ∈ u.st, p < s.m.im.n ∧ s.m.im.opAt p = OP_BEGIN_LOOP)
    hstep k s t ⟨rfl, by rw [hst]; intro p hp; cases hp⟩ h
  exact this.2

/-- C27: in every state reached by a run from the initial state (an engine after `init`,
stream members in the range of `boost::uint32_t`), every entry of the return stack is a
position `p < n` at which the program holds `OP_BEGIN_LOOP`; consequently, when
`OP_END_LOOP` is dispatched in such a state and jumps, the stream stands at a position
below `n` whose operation, the next one decoded, is `OP_BEGIN_LOOP`. -/
theorem return_stack_holds_headers (m : GraphicMachine) (k : Nat) (s : State)
    (hty : m.im.WellTyped)
    (hreach : iterate_dispatch k m.init.start = some s) :
    (∀ p ∈ s.st, p < m.im.n ∧ m.im.opAt p = OP_BEGIN_LOOP) ∧
    (∀ t : State, s.m.im.is_done = false →
      s.m.im.opAt s.m.im.cur_pos = OP_END_LOOP → dispatch s = .normal t →
      t.m.im.cur_pos < m.im.n ∧ t.m.im.is_done = false ∧
      t.m.im.get_next.1 = OP_BEGIN_LOOP) := by
  obtain ⟨_, _, hn⟩ := hty
  have hinv := iterate_dispatch_stack k m.init.start s hn rfl hreach
  have hsf := iterate_dispatch_frame k _ _ hreach
  refine ⟨hinv, ?_⟩
  intro t hnd hop hd
  obtain ⟨hf, hcase⟩ := dispatch_effect s t hd
  rw [← GraphicIteratorMachine.get_next_fst] at hop
  have htop : t.m.im.cur_pos ∈ s.st := by
    rcases hcase with h1 | ⟨hb, _, _⟩ | ⟨_, h3⟩
    · exfalso
      unfold dispatch at hd
      dsimp only at hd
      rw [hop] at hd
      dsimp only at hd
      cases hst : s.st with
      | nil => rw [hst] at hd; cases hd
      | cons top rest =>
          rw [hst] at hd
          dsimp only at hd
          injection hd with hd
          subst hd
          simp [hst] at h1
    · rw [hop] at hb; cases hb
    · rw [h3]; exact List.mem_cons_self _ _
  obtain ⟨hlt, hbegin⟩ := hinv _ htop
  have htn : t.m.im.n = m.im.n := by rw [hf, hsf]; rfl
  refine ⟨hlt, ?_, ?_⟩
  · rw [GraphicIteratorMachine.is_done_eq_false, htn]; exact hlt
  · rw [GraphicIteratorMachine.get_next_fst, hf, hsf]
    exact hbegin

/-- Witness of C27: `+` `[` `-` `]` after three iterations, at the `]` with stack `[1]`,
which jumps to the header at position 1. -/
theorem return_stack_holds_headers_witness :
    (1 < (strip_machine [OP_INC_CELL, OP_BEGIN_LOOP, OP_DEC_CELL, OP_END_LOOP] OT_HEX []).im.n ∧
      (strip_machine [OP_INC_CELL, OP_BEGIN_LOOP, OP_DEC_CELL, OP_END_LOOP] OT_HEX []).im.opAt 1 =
        OP_BEGIN_LOOP) ∧
    ((strip_machine [OP_INC_CELL, OP_BEGIN_LOOP, OP_DEC_CELL, OP_END_LOOP] OT_HEX []).state_at
        1 (0 :: List.replicate 29999 0) []).m.im.get_next.1 = OP_BEGIN_LOOP :=
  ⟨(return_stack_holds_headers
      (strip_machine [OP_INC_CELL, OP_BEGIN_LOOP, OP_DEC_CELL, OP_END_LOOP] OT_HEX []) 3
      ((strip_machine [OP_INC_CELL, OP_BEGIN_LOOP, OP_DEC_CELL, OP_END_LOOP] OT_HEX []).state_at
        3 (0 :: List.replicate 29999 0) [1])
      (by decide) rfl).1 1 (List.mem_singleton.2 rfl),
   ((return_stack_holds_headers
      (strip_machine [OP_INC_CELL, OP_BEGIN_LOOP, OP_DEC_CELL, OP_END_LOOP] OT_HEX []) 3
      ((strip_machine [OP_INC_CELL, OP_BEGIN_LOOP, OP_DEC_CELL, OP_END_LOOP] OT_HEX []).state_at
        3 (0 :: List.replicate 29999 0) [1])
      (by decide) rfl).2
      ((strip_machine [OP_INC_CELL, OP_BEGIN_LOOP, OP_DEC_CELL, OP_END_LOOP] OT_HEX []).state_at
        1 (0 :: List.replicate 29999 0) [])
      (by decide) (by decide) rfl).2.2⟩

/-! ## Counting iterations -/

theorem iterate_dispatch_succ (k : Nat) (s t : State) (h : s.m.im.is_done = false)
    (hd : dispatch s = .normal t) :
    iterate_dispatch (k + 1) s = iterate_dispatch k t := by
  simp only [iterate_dispatch, h, hd, Bool.false_eq_true, if_false]

theorem iterate_dispatch_one (s t : State) (h : s.m.im.is_done = false)
    (hd : dispatch s = .normal t) :
    iterate_dispatch 1 s = some t := by
  simp only [iterate_dispatch, h, hd, Bool.false_eq_true, if_false]

theorem iterate_dispatch_add (a b : Nat) (s : State) :
    iterate_dispatch (a + b) s = (iterate_dispatch a s).bind (iterate_dispatch b) := by
  induction a generalizing s with
  | zero => simp [iterate_dispatch]
  | succ a ih =>
      have e : a + 1 + b = (a + b) + 1 := by omega
      rw [e]
      by_cases hd : s.m.im.is_done = true
      · simp [iterate_dispatch, hd]
      · have hd' : s.m.im.is_done = false := by simpa using hd
        cases hdisp : dispatch s with
        | normal t =>
            rw [iterate_dispatch_succ _ _ _ hd' hdisp, iterate_dispatch_succ _ _ _ hd' hdisp]
            exact ih t
        | thrown e' t =>
            simp [iterate_dispatch, hd', hdisp]

/-- A run that is still inside the `while` after `fuel` iterations has not ended within
`fuel` iterations. -/
theorem interpretator_none_of_iterate (fuel : Nat) (s t : State)
    (h : iterate_dispatch fuel s = some t) (hnd : t.m.im.is_done = false) :
    interpretator fuel s = none := by
  induction fuel generalizing s with
  | zero =>
      simp only [iterate_dispatch] at h
      cases h
      simp [interpretator, hnd]
  | succ k ih =>
      by_cases hd : s.m.im.is_done = true
      · simp [iterate_dispatch, hd] at h
      · have hd' : s.m.im.is_done = false := by simpa using hd
        cases hdisp : dispatch s with
        | normal s' =>
            rw [iterate_dispatch_succ _ _ _ hd' hdisp] at h
            rw [interpretator_normal _ _ _ hd' hdisp]
            exact ih s' h
        | thrown e' s' =>
            simp [iterate_dispatch, hd', hdisp] at h

/-- The effect of an operation other than a bracket, `OP_READ` and the fatal ones: the
stream advances by one and the return stack is unchanged. -/
theorem dispatch_straight (s : State)
    (hp : s.m.im.cur_pos + 1 < 4294967296)
    (hop : s.m.im.opAt s.m.im.cur_pos ∈
      [OP_INC_CELL, OP_DEC_CELL, OP_NEXT_CELL, OP_PREV_CELL, OP_WRITE]) :
    ∃ t : State, dispatch s = .normal t ∧
      t.m.im = { s.m.im with cur_pos := s.m.im.cur_pos + 1 } ∧ t.st = s.st := by
  have h2 : s.m.im.get_next.2 = { s.m.im with cur_pos := s.m.im.cur_pos + 1 } := by
    rw [GraphicIteratorMachine.get_next_snd, u32_of_lt hp]
  simp only [List.mem_cons, List.mem_singleton, List.not_mem_nil, or_false] at hop
  unfold dispatch
  dsimp only
  rw [GraphicIteratorMachine.get_next_fst, h2]
  rcases hop with h | h | h | h | h <;> rw [h] <;> exact ⟨_, rfl, rfl, rfl⟩

/-- From position `p` a program that holds only straight-line operations from `p` on is
dispatched operation by operation up to the end of the stream. -/
theorem straight_steps (im : GraphicIteratorMachine) (hn : im.n < 4294967296)
    (d : Nat) (p : Nat) (u : State)
    (hu : u.m.im = { im with cur_pos := p }) (hpd : p + d = im.n)
    (hops : ∀ i, p ≤ i → i < im.n →
      im.opAt i ∈ [OP_INC_CELL, OP_DEC_CELL, OP_NEXT_CELL, OP_PREV_CELL, OP_WRITE]) :
    ∃ t : State,
      Steps u ((List.range' p d).map (fun i => (i, im.opAt i))) t ∧
      iterate_dispatch d u = some t ∧
      t.m.im = { im with cur_pos := im.n } ∧ t.st = u.st := by
  induction d generalizing p u with
  | zero =>
      refine ⟨u, Steps.refl u, rfl, ?_, rfl⟩
      rw [hu]
      have : p = im.n := by omega
      rw [this]
  | succ d ih =>
      have hpos : u.m.im.cur_pos = p := by rw [hu]
      have hopu : u.m.im.opAt u.m.im.cur_pos = im.opAt p := by rw [hu]; rfl
      have hnd : u.m.im.is_done = false := by
        rw [GraphicIteratorMachine.is_done_eq_false, hu]
        show p < im.n
        omega
      obtain ⟨v, hd, hv, hvst⟩ := dispatch_straight u (by rw [hpos]; omega)
        (by rw [hopu]; exact hops p (le_refl _) (by omega))
      have hv' : v.m.im = { im with cur_pos := p + 1 } := by rw [hv, hu]
      obtain ⟨t, hsteps, hiter, ht, htst⟩ := ih (p + 1) v hv' (by omega)
        (fun i hi hlt => hops i (by omega) hlt)
      have hopp : u.m.im.opAt p = im.opAt p := by rw [hu]; rfl
      have h1 := Steps.single u v hnd hd
      rw [hpos, hopp] at h1
      refine ⟨t, ?_, ?_, ht, by rw [htst, hvst]⟩
      · have := Steps.trans h1 hsteps
        rw [List.range'_succ, List.map_cons]
        exact this
      · rw [iterate_dispatch_succ d u v hnd hd]
        exact hiter

/-- C29: for every engine (stream members in the range of `boost::uint32_t`) whose program
of length `n` holds only `OP_INC_CELL`, `OP_DEC_CELL`, `OP_NEXT_CELL`, `OP_PREV_CELL` and
`OP_WRITE`, the run from the initial state ends normally for every number of iterations
that is at least `n`: exactly `n` operations are dispatched, those at the positions
`0 .. n - 1` in order, the state after these `n` iterations is the final one, the stream
stands at `n`, the return stack is empty and no exception is thrown.  In the model this
holds wherever the data pointer goes; the source is defined as long as the pointer stays
within 0..29999. -/
theorem straight_line_run (m : GraphicMachine) (fuel : Nat)
    (hty : m.im.WellTyped)
    (hprog : StraightLine m.im.program)
    (hfuel : m.im.n ≤ fuel) :
    ∃ t : State,
      interpretator_log fuel m.init.start =
        some (.normal t, (List.range m.im.n).map (fun i => (i, m.im.opAt i))) ∧
      ((List.range m.im.n).map (fun i => (i, m.im.opAt i))).length = m.im.n ∧
      iterate_dispatch m.im.n m.init.start = some t ∧
      t.m.im.cur_pos = m.im.n ∧ t.m.im.is_done = true ∧ t.st = [] ∧
      m.init.run fuel =
        some (.normal { t with m := { t.m with cout := t.m.cout ++ ['\n'] } }) := by
  obtain ⟨_, _, hn⟩ := hty
  have hops : ∀ i, 0 ≤ i → i < m.im.n →
      m.im.opAt i ∈ [OP_INC_CELL, OP_DEC_CELL, OP_NEXT_CELL, OP_PREV_CELL, OP_WRITE] := by
    intro i _ hi
    apply hprog
    have h := program_getElem? m.im i hi
    exact List.mem_iff_getElem?.2 ⟨i, h⟩
  obtain ⟨t, hsteps, hiter, ht, htst⟩ :=
    straight_steps m.im hn m.im.n 0 m.init.start rfl (by omega) hops
  have hdone : t.m.im.is_done = true := by
    rw [GraphicIteratorMachine.is_done_eq_true, ht]
  rw [← List.range_eq_range'] at hsteps
  have hlog := Steps.finish hsteps hdone fuel (by simpa using hfuel)
  refine ⟨t, hlog, by simp, hiter, by rw [ht], hdone, htst, run_of_log_normal fuel _ _ _ hlog⟩

/-- Witness of C29: the program `+` `>` `.` `<` `-`, five iterations. -/
theorem straight_line_run_witness :
    ∃ t : State,
      iterate_dispatch 5
        (strip_machine [OP_INC_CELL, OP_NEXT_CELL, OP_WRITE, OP_PREV_CELL, OP_DEC_CELL]
          OT_HEX []).init.start = some t ∧
      t.m.im.cur_pos = 5 ∧ t.st = [] :=
  let ⟨t, _, _, h3, h4, _, h6, _⟩ := straight_line_run
    (strip_machine [OP_INC_CELL, OP_NEXT_CELL, OP_WRITE, OP_PREV_CELL, OP_DEC_CELL] OT_HEX [])
    5 (by decide) (by decide) (by decide)
  ⟨t, h3, h4, h6⟩

/-! ## A loop that never ends -/

/-- The two states between which the program `+` `[` `]` alternates. -/
theorem tight_loop_cycle (m : GraphicMachine)
    (hprog : m.im.program = [OP_INC_CELL, OP_BEGIN_LOOP, OP_END_LOOP]) (j : Nat) :
    iterate_dispatch (1 + 2 * j) m.init.start =
      some (m.state_at 1 (1 :: List.replicate 29999 0) []) ∧
    iterate_dispatch (1 + 2 * j + 1) m.init.start =
      some (m.state_at 2 (1 :: List.replicate 29999 0) [1]) := by
  have hn : m.im.n = 3 := by rw [n_of_program _ _ hprog]; rfl
  have h0 : m.im.opAt 0 = OP_INC_CELL := opAt_of_program _ _ hprog 0 _ rfl
  have h1 : m.im.opAt 1 = OP_BEGIN_LOOP := opAt_of_program _ _ hprog 1 _ rfl
  have h2 : m.im.opAt 2 = OP_END_LOOP := opAt_of_program _ _ hprog 2 _ rfl
  have d0 := dispatch_inc_at m 0 (0 :: List.replicate 29999 0) [] h0 (by omega)
  have hu : u8 (0 + 1) = 1 := rfl
  simp only [List.set_cons_zero, List.getD_cons_zero, hu] at d0
  have d1 := dispatch_begin_nonzero_at m 1 (1 :: List.replicate 29999 0) [] h1 (by omega)
    (by rw [List.getD_cons_zero]; exact Nat.one_ne_zero)
  have d2 := dispatch_end_at m 2 1 (1 :: List.replicate 29999 0) [] h2
  have n0 : (m.state_at 0 (0 :: List.replicate 29999 0) []).m.im.is_done = false := by
    rw [state_at_is_done]; simp [hn]
  have n1 : (m.state_at 1 (1 :: List.replicate 29999 0) []).m.im.is_done = false := by
    rw [state_at_is_done]; simp [hn]
  have n2 : (m.state_at 2 (1 :: List.replicate 29999 0) [1]).m.im.is_done = false := by
    rw [state_at_is_done]; simp [hn]
  have hA : ∀ j, iterate_dispatch (1 + 2 * j) m.init.start =
      some (m.state_at 1 (1 :: List.replicate 29999 0) []) := by
    intro j
    induction j with
    | zero =>
        rw [start_eq_state_at, tape_cons]
        exact iterate_dispatch_one _ _ n0 d0
    | succ j ih =>
        have e : 1 + 2 * (j + 1) = (1 + 2 * j) + (1 + 1) := by omega
        rw [e, iterate_dispatch_add, ih, Option.some_bind,
          iterate_dispatch_succ 1 _ _ n1 d1]
        exact iterate_dispatch_one _ _ n2 d2
  refine ⟨hA j, ?_⟩
  rw [iterate_dispatch_add, hA j, Option.some_bind]
  exact iterate_dispatch_one _ _ n1 d1

/-- C30: on an engine whose program is `OP_INC_CELL`, `OP_BEGIN_LOOP`, `OP_END_LOOP` the
run from the fresh tape never ends: for every `k ≥ 1` the engine is still inside the
`while` after `k` iterations, in a state where the stream is not done, cell 0 is 1 and the
return stack holds at most one entry; and neither `interpretator` nor `run` returns,
whatever the number of iterations. -/
theorem tight_loop_never_halts (m : GraphicMachine) (k fuel : Nat)
    (hprog : m.im.program = [OP_INC_CELL, OP_BEGIN_LOOP, OP_END_LOOP])
    (hk : 1 ≤ k) :
    (∃ t : State,
      iterate_dispatch k m.init.start = some t ∧
      t.m.im.is_done = false ∧ t.cells.getD 0 0 = 1 ∧ t.st.length ≤ 1 ∧
      (t = m.state_at 1 (1 :: List.replicate 29999 0) [] ∨
        t = m.state_at 2 (1 :: List.replicate 29999 0) [1])) ∧
    interpretator fuel m.init.start = none ∧
    m.init.run fuel = none := by
  have hn : m.im.n = 3 := by rw [n_of_program _ _ hprog]; rfl
  have n1 : (m.state_at 1 (1 :: List.replicate 29999 0) []).m.im.is_done = false := by
    rw [state_at_is_done]; simp [hn]
  have n2 : (m.state_at 2 (1 :: List.replicate 29999 0) [1]).m.im.is_done = false := by
    rw [state_at_is_done]; simp [hn]
  have hreach : ∀ k, 1 ≤ k → ∃ t : State,
      iterate_dispatch k m.init.start = some t ∧
      t.m.im.is_done = false ∧ t.cells.getD 0 0 = 1 ∧ t.st.length ≤ 1 ∧
      (t = m.state_at 1 (1 :: List.replicate 29999 0) [] ∨
        t = m.state_at 2 (1 :: List.replicate 29999 0) [1]) := by
    intro k hk
    obtain ⟨j, hj | hj⟩ : ∃ j, k = 1 + 2 * j ∨ k = 1 + 2 * j + 1 :=
      ⟨(k - 1) / 2, by omega⟩
    · rw [hj]
      exact ⟨_, (tight_loop_cycle m hprog j).1, n1, rfl, Nat.zero_le 1, Or.inl rfl⟩
    · rw [hj]
      exact ⟨_, (tight_loop_cycle m hprog j).2, n2, rfl, Nat.le_refl 1, Or.inr rfl⟩
  have hnone : interpretator fuel m.init.start = none := by
    by_cases hf : fuel = 0
    · subst hf
      have hd : m.init.start.m.im.is_done = false := by
        rw [start_eq_state_at, state_at_is_done]; simp [hn]
      simp [interpretator, hd]
    · obtain ⟨t, ht, hnd, _⟩ := hreach fuel (by omega)
      exact interpretator_none_of_iterate fuel _ t ht hnd
  refine ⟨hreach k hk, hnone, ?_⟩
  unfold GraphicMachine.run
  rw [hnone]

/-- Witness of C30: the strip image of `+` `[` `]` after 4 iterations, with 100
iterations allowed. -/
theorem tight_loop_never_halts_witness :
    iterate_dispatch 4 (strip_machine [OP_INC_CELL, OP_BEGIN_LOOP, OP_END_LOOP] OT_HEX
        []).init.start =
      some ((strip_machine [OP_INC_CELL, OP_BEGIN_LOOP, OP_END_LOOP] OT_HEX []).state_at 2
        (1 :: List.replicate 29999 0) [1]) ∧
    (strip_machine [OP_INC_CELL, OP_BEGIN_LOOP, OP_END_LOOP] OT_HEX []).init.run 100 = none := by
  have h := tight_loop_never_halts
    (strip_machine [OP_INC_CELL, OP_BEGIN_LOOP, OP_END_LOOP] OT_HEX []) 4 100
    (by decide) (by decide)
  exact ⟨rfl, h.2.2⟩

/-! ## Programs with balanced, never nested brackets -/

theorem find_close_skip (prog : List Operation) (k i depth : Nat) (op : Operation)
    (h : prog[i]? = some op) (h1 : op ≠ OP_BEGIN_LOOP) (h2 : op ≠ OP_END_LOOP) :
    find_close prog (k + 1) i depth = find_close prog k (i + 1) depth := by
  rw [find_close, h]
  cases op <;> first | rfl | exact absurd rfl h1 | exact absurd rfl h2

theorem find_close_end (prog : List Operation) (k i : Nat)
    (h : prog[i]? = some OP_END_LOOP) :
    find_close prog (k + 1) i 0 = some i := by
  rw [find_close, h]
  rfl

theorem find_open_skip (prog : List Operation) (i depth : Nat)
    (h1 : prog[i]? ≠ some OP_BEGIN_LOOP) (h2 : prog[i]? ≠ some OP_END_LOOP) :
    find_open prog (i + 1) depth = find_open prog i depth := by
  rw [find_open]
  rcases hq : prog[i]? with _ | op
  · rfl
  · rw [hq] at h1 h2
    cases op <;> first | rfl | exact absurd rfl h1 | exact absurd rfl h2

theorem find_open_begin (prog : List Operation) (i : Nat)
    (h : prog[i]? = some OP_BEGIN_LOOP) :
    find_open prog (i + 1) 0 = some i := by
  rw [find_open, h]
  rfl

/-- With no bracket strictly between a header and an `OP_END_LOOP`, that `OP_END_LOOP` is
the structural match of the header. -/
theorem matching_close_flat (prog : List Operation) (h e : Nat)
    (hhe : h < e) (he : prog[e]? = some OP_END_LOOP)
    (hmid : ∀ q, h < q → q < e →
      prog[q]? ≠ some OP_BEGIN_LOOP ∧ prog[q]? ≠ some OP_END_LOOP) :
    matching_close prog h = some e := by
  have helt : e < prog.length := by
    by_contra hc
    rw [List.getElem?_eq_none (by omega)] at he
    cases he
  have key : ∀ (k i : Nat), h < i → i ≤ e → e - i < k → find_close prog k i 0 = some e := by
    intro k
    induction k with
    | zero => intro i _ _ hk; omega
    | succ k ih =>
        intro i hi hie hk
        by_cases hc : i = e
        · rw [hc]; exact find_close_end prog k e he
        · have hlt : i < prog.length := by omega
          have hsome : prog[i]? = some prog[i] := List.getElem?_eq_getElem hlt
          obtain ⟨hb, hn⟩ := hmid i hi (by omega)
          rw [find_close_skip prog k i 0 prog[i] hsome
            (fun hc' => hb (by rw [hsome, hc'])) (fun hc' => hn (by rw [hsome, hc']))]
          exact ih (i + 1) (by omega) (by omega) (by omega)
  exact key _ (h + 1) (by omega) (by omega) (by omega)

/-- With no bracket strictly between a header and an `OP_END_LOOP`, that header is the
structural match of the `OP_END_LOOP`. -/
theorem matching_open_flat (prog : List Operation) (h e : Nat)
    (hhe : h < e) (hh : prog[h]? = some OP_BEGIN_LOOP)
    (hmid : ∀ q, h < q → q < e →
      prog[q]? ≠ some OP_BEGIN_LOOP ∧ prog[q]? ≠ some OP_END_LOOP) :
    matching_open prog e = some h := by
  have key : ∀ i, h < i → i ≤ e → find_open prog i 0 = some h := by
    intro i
    induction i with
    | zero => intro hi _; omega
    | succ j ih =>
        intro hi hje
        by_cases hc : j = h
        · rw [hc]; exact find_open_begin prog h hh
        · obtain ⟨hb, hn⟩ := hmid j (by omega) (by omega)
          rw [find_open_skip prog j 0 hb hn]
          exact ih (by omega) (by omega)
  exact key e hhe (le_refl _)

/-- In a flat program every header is followed by an `OP_END_LOOP` with no bracket in
between: the first `OP_END_LOOP` after it. -/
theorem flat_next_bracket (prog : List Operation) (hflat : FlatLoops prog) (h : Nat)
    (hh : prog[h]? = some OP_BEGIN_LOOP) :
    ∃ e, h < e ∧ e < prog.length ∧ prog[e]? = some OP_END_LOOP ∧
      ∀ q, h < q → q < e →
        prog[q]? ≠ some OP_BEGIN_LOOP ∧ prog[q]? ≠ some OP_END_LOOP := by
  have hlt : h < prog.length := by
    by_contra hc
    rw [List.getElem?_eq_none (by omega)] at hh
    cases hh
  obtain ⟨e0, he0lt, hhe0, he0, hnob⟩ := hflat.2.1 h hlt hh
  have hex : ∃ e, h < e ∧ prog[e]? = some OP_END_LOOP := ⟨e0, hhe0, he0⟩
  classical
  have hspec := Nat.find_spec hex
  have hmin := fun q => Nat.find_min (m := q) hex
  have hle : Nat.find hex ≤ e0 := Nat.find_min' hex ⟨hhe0, he0⟩
  refine ⟨Nat.find hex, hspec.1, by omega, hspec.2, ?_⟩
  intro q hq hqe
  refine ⟨hnob q (by omega) hq, ?_⟩
  intro hc
  exact hmin q hqe ⟨hq, hc⟩

/-! ### The engine on the state that corresponds to a reference state -/

theorem dispatch_toState_inc (m : GraphicMachine) (r : RefState) (st : List Nat)
    (hop : m.im.opAt r.pc = OP_INC_CELL) (hp : r.pc + 1 < 4294967296) :
    dispatch (r.toState m st) =
      .normal (RefState.toState m
        { r with pc := r.pc + 1, tape := r.tape.set r.ptr ((r.tape.getD r.ptr 0 + 1) % 256) }
        st) := by
  unfold dispatch
  simp only [RefState.toState, GraphicIteratorMachine.get_next_fst,
    GraphicIteratorMachine.opAt_cur_pos, hop, GraphicIteratorMachine.get_next_snd,
    u32_of_lt hp, u8]

theorem dispatch_toState_dec (m : GraphicMachine) (r : RefState) (st : List Nat)
    (hop : m.im.opAt r.pc = OP_DEC_CELL) (hp : r.pc + 1 < 4294967296) :
    dispatch (r.toState m st) =
      .normal (RefState.toState m
        { r with pc := r.pc + 1,
                 tape := r.tape.set r.ptr ((r.tape.getD r.ptr 0 + 255) % 256) }
        st) := by
  unfold dispatch
  simp only [RefState.toState, GraphicIteratorMachine.get_next_fst,
    GraphicIteratorMachine.opAt_cur_pos, hop, GraphicIteratorMachine.get_next_snd,
    u32_of_lt hp, u8_dec_eq]

theorem dispatch_toState_write (m : GraphicMachine) (r : RefState) (st : List Nat)
    (hop : m.im.opAt r.pc = OP_WRITE) (hp : r.pc + 1 < 4294967296) :
    dispatch (r.toState m st) =
      .normal (RefState.toState m
        { r with pc := r.pc + 1, out := r.out ++ output m.ot (r.tape.getD r.ptr 0) } st) := by
  unfold dispatch
  simp only [RefState.toState, GraphicIteratorMachine.get_next_fst,
    GraphicIteratorMachine.opAt_cur_pos, hop, GraphicIteratorMachine.get_next_snd,
    u32_of_lt hp]

theorem dispatch_toState_next (m : GraphicMachine) (r : RefState) (st : List Nat)
    (hop : m.im.opAt r.pc = OP_NEXT_CELL) (hp : r.pc + 1 < 4294967296)
    (hptr : r.ptr < 30000) :
    dispatch (r.toState m st) =
      .normal (RefState.toState m { r with pc := r.pc + 1, ptr := r.ptr + 1 } st) := by
  have hu : usize (r.ptr + 1) = r.ptr + 1 := Nat.mod_eq_of_lt (by omega)
  unfold dispatch
  simp only [RefState.toState, GraphicIteratorMachine.get_next_fst,
    GraphicIteratorMachine.opAt_cur_pos, hop, GraphicIteratorMachine.get_next_snd,
    u32_of_lt hp, hu]

theorem dispatch_toState_prev (m : GraphicMachine) (r : RefState) (st : List Nat)
    (hop : m.im.opAt r.pc = OP_PREV_CELL) (hp : r.pc + 1 < 4294967296)
    (hptr : r.ptr < 30000) :
    dispatch (r.toState m st) =
      .normal (RefState.toState m
        { r with pc := r.pc + 1,
                 ptr := if r.ptr = 0 then 18446744073709551615 else r.ptr - 1 } st) := by
  have hu := usize_dec_eq r.ptr (by omega)
  unfold dispatch
  simp only [RefState.toState, GraphicIteratorMachine.get_next_fst,
    GraphicIteratorMachine.opAt_cur_pos, hop, GraphicIteratorMachine.get_next_snd,
    u32_of_lt hp, hu]

theorem dispatch_toState_begin_nonzero (m : GraphicMachine) (r : RefState) (st : List Nat)
    (hop : m.im.opAt r.pc = OP_BEGIN_LOOP) (hp : r.pc + 1 < 4294967296)
    (hnz : r.tape.getD r.ptr 0 ≠ 0) :
    dispatch (r.toState m st) =
      .normal (RefState.toState m { r with pc := r.pc + 1 } (r.pc :: st)) := by
  unfold dispatch
  simp only [RefState.toState, GraphicIteratorMachine.get_next_fst,
    GraphicIteratorMachine.opAt_cur_pos, hop, GraphicIteratorMachine.get_next_snd,
    u32_of_lt hp, hnz, if_false, GraphicIteratorMachine.get_cur_pos]
  simp

theorem dispatch_toState_begin_zero (m : GraphicMachine) (r : RefState) (st : List Nat)
    (e : Nat)
    (hop : m.im.opAt r.pc = OP_BEGIN_LOOP) (hn : m.im.n < 4294967296)
    (hzero : r.tape.getD r.ptr 0 = 0)
    (hpe : r.pc < e) (hen : e < m.im.n)
    (hend : m.im.opAt e = OP_END_LOOP)
    (hmin : ∀ q, r.pc < q → q < e → m.im.opAt q ≠ OP_END_LOOP) :
    dispatch (r.toState m st) = .normal (RefState.toState m { r with pc := e + 1 } st) := by
  have hscan : scan { m.im with cur_pos := r.pc + 1 } =
      (OP_END_LOOP, { m.im with cur_pos := e + 1 }) :=
    scan_loop_finds _ { m.im with cur_pos := r.pc + 1 } e
      (by show r.pc + 1 ≤ e; omega) hen hn
      (by show e - (r.pc + 1) ≤ m.im.n - (r.pc + 1); omega) hend
      (fun q hq hqe => hmin q (by have : r.pc + 1 ≤ q := hq; omega) hqe)
  unfold dispatch
  simp only [RefState.toState, GraphicIteratorMachine.get_next_fst,
    GraphicIteratorMachine.opAt_cur_pos, hop, GraphicIteratorMachine.get_next_snd,
    u32_of_lt (by omega : r.pc + 1 < 4294967296), hzero, if_true]
  rw [hscan]
  simp

theorem dispatch_toState_end (m : GraphicMachine) (r : RefState) (top : Nat) (st : List Nat)
    (hop : m.im.opAt r.pc = OP_END_LOOP) :
    dispatch (r.toState m (top :: st)) =
      .normal (RefState.toState m { r with pc := top } st) := by
  unfold dispatch
  simp only [RefState.toState, GraphicIteratorMachine.get_next_fst,
    GraphicIteratorMachine.opAt_cur_pos, hop, GraphicIteratorMachine.get_next_snd,
    GraphicIteratorMachine.set_cur_pos]

/-! ### The return stack of the engine on a flat program -/

theorem stackInv_straight (prog : List Operation) (st : List Nat) (pc : Nat) (op : Operation)
    (hP : prog[pc]? = some op) (hb : op ≠ OP_BEGIN_LOOP) (he : op ≠ OP_END_LOOP)
    (h : StackInv prog st pc) : StackInv prog st (pc + 1) := by
  rcases h with ⟨hst, hout⟩ | ⟨h, hst, hh, hlt, hmid⟩
  · refine Or.inl ⟨hst, ?_⟩
    intro h hh hhb
    by_cases hc : h = pc
    · subst hc
      rw [hP] at hhb
      exact absurd (Option.some.inj hhb) hb
    · obtain ⟨e, h1, h2, h3⟩ := hout h (by omega) hhb
      exact ⟨e, h1, by omega, h3⟩
  · refine Or.inr ⟨h, hst, hh, by omega, ?_⟩
    intro q hq1 hq2
    by_cases hc : q = pc
    · subst hc
      rw [hP]
      exact ⟨fun hx => hb (Option.some.inj hx), fun hx => he (Option.some.inj hx)⟩
    · exact hmid q hq1 (by omega)

theorem inside_begin_false (prog : List Operation) (hflat : FlatLoops prog) (h pc : Nat)
    (hin : Inside prog h pc) (hP : prog[pc]? = some OP_BEGIN_LOOP) : False := by
  obtain ⟨hh, hlt, hmid⟩ := hin
  obtain ⟨e, h1, _, h3, h4⟩ := flat_next_bracket prog hflat h hh
  rcases Nat.lt_trichotomy e pc with hc | hc | hc
  · exact (hmid e h1 hc).2 h3
  · subst hc
    rw [hP] at h3
    cases h3
  · exact (h4 pc hlt hc).1 hP

theorem outside_end_false (prog : List Operation) (hflat : FlatLoops prog) (pc : Nat)
    (hout : Outside prog pc) (hlt : pc < prog.length) (hP : prog[pc]? = some OP_END_LOOP) :
    False := by
  obtain ⟨h, h1, h2, h3⟩ := hflat.2.2 pc hlt hP
  obtain ⟨e, e1, e2, e3⟩ := hout h h1 h2
  exact h3 e e2 e1 e3

theorem outside_after_loop (prog : List Operation) (pc e : Nat)
    (hout : Outside prog pc) (hpe : pc < e) (he : prog[e]? = some OP_END_LOOP)
    (hmid : ∀ q, pc < q → q < e →
      prog[q]? ≠ some OP_BEGIN_LOOP ∧ prog[q]? ≠ some OP_END_LOOP) :
    Outside prog (e + 1) := by
  intro h hh hhb
  rcases Nat.lt_trichotomy h pc with hc | hc | hc
  · obtain ⟨e', h1, h2, h3⟩ := hout h hc hhb
    exact ⟨e', h1, by omega, h3⟩
  · subst hc
    exact ⟨e, hpe, by omega, he⟩
  · by_cases hce : h = e
    · subst hce
      rw [he] at hhb
      cases hhb
    · exact absurd hhb (hmid h hc (by omega)).1

theorem outside_header (prog : List Operation) (hflat : FlatLoops prog) (h pc : Nat)
    (hin : Inside prog h pc) : Outside prog h := by
  obtain ⟨hh, _, _⟩ := hin
  intro h' hlt hhb
  obtain ⟨e, h1, _, h3, h4⟩ := flat_next_bracket prog hflat h' hhb
  rcases Nat.lt_trichotomy e h with hc | hc | hc
  · exact ⟨e, h1, hc, h3⟩
  · subst hc
    rw [hh] at h3
    cases h3
  · exact absurd hh (h4 h hlt hc).1

theorem inside_end_false (prog : List Operation) (hflat : FlatLoops prog) (h pc : Nat)
    (hpc : prog.length ≤ pc) (hin : Inside prog h pc) : False := by
  obtain ⟨hh, _, hmid⟩ := hin
  obtain ⟨e, h1, h2, h3, _⟩ := flat_next_bracket prog hflat h hh
  exact (hmid e h1 (by omega)).2 h3

/-! ### One step of the engine against one step of the reference machine -/

theorem flat_step (m : GraphicMachine) (r : RefState) (st : List Nat)
    (hn : m.im.n < 4294967296) (hflat : FlatLoops m.im.program)
    (hpc : r.pc < m.im.n) (hinv : StackInv m.im.program st r.pc)
    (hptr : r.ptr < 30000) (hlen : r.tape.length = 30000)
    (hrange : ∀ t, dispatch (r.toState m st) = .normal t → t.num < 30000) :
    ∃ r' st', ref_step m.ot m.im.program r = some r' ∧
      dispatch (r.toState m st) = .normal (r'.toState m st') ∧
      StackInv m.im.program st' r'.pc ∧ r'.tape.length = 30000 ∧ r'.ptr < 30000 := by
  have hP := program_getElem? m.im r.pc hpc
  have hmem := hflat.1 _ (List.mem_iff_getElem?.2 ⟨r.pc, hP⟩)
  have hp : r.pc + 1 < 4294967296 := by omega
  simp only [List.mem_cons, List.mem_singleton, List.not_mem_nil, or_false] at hmem
  rcases hmem with hop | hop | hop | hop | hop | hop | hop
  · -- OP_INC_CELL
    rw [hop] at hP
    have hd := dispatch_toState_inc m r st hop hp
    refine ⟨_, st, ?_, hd, ?_, ?_, hrange _ hd⟩
    · simp only [ref_step, hP]
    · exact stackInv_straight _ _ _ _ hP (by decide) (by decide) hinv
    · simp only [List.length_set, hlen]
  · -- OP_DEC_CELL
    rw [hop] at hP
    have hd := dispatch_toState_dec m r st hop hp
    refine ⟨_, st, ?_, hd, ?_, ?_, hrange _ hd⟩
    · simp only [ref_step, hP]
    · exact stackInv_straight _ _ _ _ hP (by decide) (by decide) hinv
    · simp only [List.length_set, hlen]
  · -- OP_NEXT_CELL
    rw [hop] at hP
    have hd := dispatch_toState_next m r st hop hp hptr
    have hr : r.ptr + 1 < 30000 := hrange _ hd
    refine ⟨_, st, ?_, hd, ?_, hlen, hr⟩
    · simp only [ref_step, hP, hlen, hr, if_true]
    · exact stackInv_straight _ _ _ _ hP (by decide) (by decide) hinv
  · -- OP_PREV_CELL
    rw [hop] at hP
    have hd := dispatch_toState_prev m r st hop hp hptr
    have hr : (if r.ptr = 0 then 18446744073709551615 else r.ptr - 1) < 30000 := hrange _ hd
    have hpos : r.ptr ≠ 0 := by
      intro hc
      rw [if_pos hc] at hr
      omega
    rw [if_neg hpos] at hd
    refine ⟨_, st, ?_, hd, ?_, hlen, ?_⟩
    · simp only [ref_step, hP, Nat.pos_of_ne_zero hpos, if_true]
    · exact stackInv_straight _ _ _ _ hP (by decide) (by decide) hinv
    · show r.ptr - 1 < 30000
      omega
  · -- OP_WRITE
    rw [hop] at hP
    have hd := dispatch_toState_write m r st hop hp
    refine ⟨_, st, ?_, hd, ?_, hlen, hptr⟩
    · simp only [ref_step, hP]
    · exact stackInv_straight _ _ _ _ hP (by decide) (by decide) hinv
  · -- OP_BEGIN_LOOP
    rw [hop] at hP
    rcases hinv with ⟨hst, hout⟩ | ⟨h, _, hin⟩
    swap
    · exact (inside_begin_false _ hflat h r.pc hin hP).elim
    subst hst
    by_cases hz : r.tape.getD r.ptr 0 = 0
    · obtain ⟨e, h1, h2, h3, h4⟩ := flat_next_bracket _ hflat r.pc hP
      rw [program_length] at h2
      have hend : m.im.opAt e = OP_END_LOOP := by
        have := program_getElem? m.im e h2
        rw [h3] at this
        exact (Option.some.inj this).symm
      have hmin : ∀ q, r.pc < q → q < e → m.im.opAt q ≠ OP_END_LOOP := by
        intro q hq1 hq2 hc
        have := program_getElem? m.im q (by omega)
        rw [hc] at this
        exact (h4 q hq1 hq2).2 this
      have hd := dispatch_toState_begin_zero m r [] e hop hn hz h1 h2 hend hmin
      refine ⟨_, [], ?_, hd, Or.inl ⟨rfl, outside_after_loop _ _ _ hout h1 h3 h4⟩, hlen, hptr⟩
      simp only [ref_step, hP, hz, if_true, matching_close_flat _ _ _ h1 h3 h4]
    · have hd := dispatch_toState_begin_nonzero m r [] hop hp hz
      refine ⟨_, [r.pc], ?_, hd, Or.inr ⟨r.pc, rfl, hP, Nat.lt_succ_self _, ?_⟩, hlen, hptr⟩
      · simp only [ref_step, hP, hz, if_false]
      · intro q hq1 hq2
        exact absurd hq2 (by show ¬ q < r.pc + 1; omega)
  · -- OP_END_LOOP
    rw [hop] at hP
    rcases hinv with ⟨_, hout⟩ | ⟨h, hst, hin⟩
    · exact (outside_end_false _ hflat r.pc hout (by rw [program_length]; exact hpc) hP).elim
    subst hst
    have hd := dispatch_toState_end m r h [] hop
    refine ⟨_, [], ?_, hd, Or.inl ⟨rfl, outside_header _ hflat h r.pc hin⟩, hlen, hptr⟩
    simp only [ref_step, hP, matching_open_flat _ _ _ hin.2.1 hin.1 hin.2.2]

/-! ### The engine against the reference machine, for every number of steps -/

theorem flat_sim (m : GraphicMachine) (hn : m.im.n < 4294967296)
    (hflat : FlatLoops m.im.program) (fuel : Nat) :
    ∀ (r : RefState) (st : List Nat), StackInv m.im.program st r.pc →
      r.ptr < 30000 → r.tape.length = 30000 →
      (∀ k t, k ≤ fuel → iterate_dispatch k (r.toState m st) = some t → t.num < 30000) →
      (ref_run m.ot m.im.program fuel r = .out_of_budget ∧
        interpretator fuel (r.toState m st) = none) ∨
      (∃ r', ref_run m.ot m.im.program fuel r = .halted r' ∧
        interpretator fuel (r.toState m st) = some (.normal (r'.toState m [])) ∧
        m.im.n ≤ r'.pc ∧ r'.ptr < 30000 ∧ r'.tape.length = 30000) := by
  have hdone : ∀ (fuel : Nat) (r : RefState) (st : List Nat),
      StackInv m.im.program st r.pc → r.ptr < 30000 → r.tape.length = 30000 →
      m.im.n ≤ r.pc →
      ∃ r', ref_run m.ot m.im.program fuel r = .halted r' ∧
        interpretator fuel (r.toState m st) = some (.normal (r'.toState m [])) ∧
        m.im.n ≤ r'.pc ∧ r'.ptr < 30000 ∧ r'.tape.length = 30000 := by
    intro fuel r st hinv hptr hlen hd
    have hst : st = [] := by
      rcases hinv with ⟨hst, _⟩ | ⟨h, _, hin⟩
      · exact hst
      · exact (inside_end_false _ hflat h r.pc (by rw [program_length]; exact hd) hin).elim
    subst hst
    refine ⟨r, ?_, interpretator_done fuel _
      ((GraphicIteratorMachine.is_done_eq_true _).2 hd), hd, hptr, hlen⟩
    cases fuel <;> simp only [ref_run, program_length, hd, if_true]
  induction fuel with
  | zero =>
      intro r st hinv hptr hlen _
      by_cases hd : m.im.n ≤ r.pc
      · exact Or.inr (hdone 0 r st hinv hptr hlen hd)
      · refine Or.inl ⟨?_, ?_⟩
        · simp only [ref_run, program_length, hd, if_false]
        · have hnd : (r.toState m st).m.im.is_done = false :=
            (GraphicIteratorMachine.is_done_eq_false _).2 (by show r.pc < m.im.n; omega)
          simp only [interpretator, hnd, Bool.false_eq_true, if_false]
  | succ fuel ih =>
      intro r st hinv hptr hlen hrange
      by_cases hd : m.im.n ≤ r.pc
      · exact Or.inr (hdone (fuel + 1) r st hinv hptr hlen hd)
      · have hnd : (r.toState m st).m.im.is_done = false :=
          (GraphicIteratorMachine.is_done_eq_false _).2 (by show r.pc < m.im.n; omega)
        obtain ⟨r', st', hstep, hdisp, hinv', hlen', hptr'⟩ :=
          flat_step m r st hn hflat (by omega) hinv hptr hlen
            (fun t ht => hrange 1 t (by omega) (iterate_dispatch_one _ _ hnd ht))
        have href : ref_run m.ot m.im.program (fuel + 1) r =
            ref_run m.ot m.im.program fuel r' := by
          simp only [ref_run, program_length, hd, if_false, hstep]
        rw [href, interpretator_normal fuel _ _ hnd hdisp]
        exact ih r' st' hinv' hptr' hlen'
          (fun k t hk ht => hrange (k + 1) t (by omega)
            (by rw [iterate_dispatch_succ k _ _ hnd hdisp]; exact ht))

/-- C26: on a program over `OP_INC_CELL`, `OP_DEC_CELL`, `OP_NEXT_CELL`, `OP_PREV_CELL`,
`OP_WRITE` and the two brackets whose brackets are balanced and never nested, run from the
state that `init` and `run` set up, and as long as the data pointer of the engine stays
below 30000 during the first `fuel` iterations, the engine and the reference machine with
structurally matched brackets agree for every number of steps `fuel`: either both are still
running after `fuel` steps, or both have halted, and then the tape, the data pointer and the
output of the engine are those of the reference machine, the return stack is empty and `run`
adds the line end.  The engine throws no exception and the reference machine is never
stuck. -/
theorem flat_loops_refine (m : GraphicMachine) (fuel : Nat)
    (hn : m.im.n < 4294967296) (hflat : FlatLoops m.im.program)
    (hrange : ∀ k t, k ≤ fuel → iterate_dispatch k m.init.start = some t → t.num < 30000) :
    ((ref_run m.ot m.im.program fuel (ref_init m.cout) = .out_of_budget ∧
        interpretator fuel m.init.start = none ∧ m.init.run fuel = none) ∨
     (∃ r, ref_run m.ot m.im.program fuel (ref_init m.cout) = .halted r ∧
        interpretator fuel m.init.start = some (.normal (r.toState m [])) ∧
        m.init.run fuel =
          some (.normal (RefState.toState m { r with out := r.out ++ ['\n'] } [])) ∧
        (r.toState m []).cells = r.tape ∧ (r.toState m []).num = r.ptr ∧
        (r.toState m []).m.cout = r.out ∧ (r.toState m []).st = [])) ∧
    (∀ e t, interpretator fuel m.init.start ≠ some (.thrown e t)) ∧
    (∀ r, ref_run m.ot m.im.program fuel (ref_init m.cout) ≠ .stuck r) := by
  have hstart : m.init.start = (ref_init m.cout).toState m [] := rfl
  have hsim := flat_sim m hn hflat fuel (ref_init m.cout) []
    (Or.inl ⟨rfl, fun h hh _ => absurd hh (Nat.not_lt_zero h)⟩)
    (Nat.zero_lt_succ _) (List.length_replicate 30000 0)
    (by rw [← hstart]; exact hrange)
  rw [← hstart] at hsim
  rcases hsim with ⟨h1, h2⟩ | ⟨r, h1, h2, _, _, _⟩
  · refine ⟨Or.inl ⟨h1, h2, ?_⟩, ?_, ?_⟩
    · simp only [GraphicMachine.run, h2]
    · intro e t hc
      rw [h2] at hc
      cases hc
    · intro r hc
      rw [h1] at hc
      cases hc
  · refine ⟨Or.inr ⟨r, h1, h2, ?_, rfl, rfl, rfl, rfl⟩, ?_, ?_⟩
    · simp only [GraphicMachine.run, h2]
      rfl
    · intro e t hc
      rw [h2] at hc
      cases hc
    · intro r' hc
      rw [h1] at hc
      cases hc

/-- Witness of C26: the program `+` `[` `-` `]` halts after five steps on the zero tape in
the engine and in the reference machine. -/
theorem flat_loops_refine_witness :
    ref_run OT_HEX [OP_INC_CELL, OP_BEGIN_LOOP, OP_DEC_CELL, OP_END_LOOP] 5 (ref_init []) =
      .halted { pc := 4, ptr := 0, tape := List.replicate 30000 0, out := [] } ∧
    interpretator 5
        (strip_machine [OP_INC_CELL, OP_BEGIN_LOOP, OP_DEC_CELL, OP_END_LOOP] OT_HEX
          []).init.start =
      some (.normal ((strip_machine [OP_INC_CELL, OP_BEGIN_LOOP, OP_DEC_CELL, OP_END_LOOP]
        OT_HEX []).state_at 4 (List.replicate 30000 0) [])) := by
  have h := (flat_loops_refine
    (strip_machine [OP_INC_CELL, OP_BEGIN_LOOP, OP_DEC_CELL, OP_END_LOOP] OT_HEX []) 5
    (by decide) (by decide)
    (by
      intro k t hk h
      have e0 : iterate_dispatch 0 (strip_machine [OP_INC_CELL, OP_BEGIN_LOOP, OP_DEC_CELL,
          OP_END_LOOP] OT_HEX []).init.start = some ((strip_machine [OP_INC_CELL,
          OP_BEGIN_LOOP, OP_DEC_CELL, OP_END_LOOP] OT_HEX []).state_at 0
          (List.replicate 30000 0) []) := rfl
      have e1 : iterate_dispatch 1 (strip_machine [OP_INC_CELL, OP_BEGIN_LOOP, OP_DEC_CELL,
          OP_END_LOOP] OT_HEX []).init.start = some ((strip_machine [OP_INC_CELL,
          OP_BEGIN_LOOP, OP_DEC_CELL, OP_END_LOOP] OT_HEX []).state_at 1
          (1 :: List.replicate 29999 0) []) := rfl
      have e2 : iterate_dispatch 2 (strip_machine [OP_INC_CELL, OP_BEGIN_LOOP, OP_DEC_CELL,
          OP_END_LOOP] OT_HEX []).init.start = some ((strip_machine [OP_INC_CELL,
          OP_BEGIN_LOOP, OP_DEC_CELL, OP_END_LOOP] OT_HEX []).state_at 2
          (1 :: List.replicate 29999 0) [1]) := rfl
      have e3 : iterate_dispatch 3 (strip_machine [OP_INC_CELL, OP_BEGIN_LOOP, OP_DEC_CELL,
          OP_END_LOOP] OT_HEX []).init.start = some ((strip_machine [OP_INC_CELL,
          OP_BEGIN_LOOP, OP_DEC_CELL, OP_END_LOOP] OT_HEX []).state_at 3
          (0 :: List.replicate 29999 0) [1]) := rfl
      have e4 : iterate_dispatch 4 (strip_machine [OP_INC_CELL, OP_BEGIN_LOOP, OP_DEC_CELL,
          OP_END_LOOP] OT_HEX []).init.start = some ((strip_machine [OP_INC_CELL,
          OP_BEGIN_LOOP, OP_DEC_CELL, OP_END_LOOP] OT_HEX []).state_at 1
          (0 :: List.replicate 29999 0) []) := rfl
      have e5 : iterate_dispatch 5 (strip_machine [OP_INC_CELL, OP_BEGIN_LOOP, OP_DEC_CELL,
          OP_END_LOOP] OT_HEX []).init.start = some ((strip_machine [OP_INC_CELL,
          OP_BEGIN_LOOP, OP_DEC_CELL, OP_END_LOOP] OT_HEX []).state_at 4
          (0 :: List.replicate 29999 0) []) := rfl
      interval_cases k
      · rw [e0] at h; cases h; exact Nat.zero_lt_succ _
      · rw [e1] at h; cases h; exact Nat.zero_lt_succ _
      · rw [e2] at h; cases h; exact Nat.zero_lt_succ _
      · rw [e3] at h; cases h; exact Nat.zero_lt_succ _
      · rw [e4] at h; cases h; exact Nat.zero_lt_succ _
      · rw [e5] at h; cases h; exact Nat.zero_lt_succ _)).1
  have href : ref_run OT_HEX [OP_INC_CELL, OP_BEGIN_LOOP, OP_DEC_CELL, OP_END_LOOP] 5
      (ref_init []) =
      .halted { pc := 4, ptr := 0, tape := List.replicate 30000 0, out := [] } := rfl
  rcases h with ⟨h1, _⟩ | ⟨r, h1, h2, _⟩
  · have e := href.symm.trans h1
    cases e
  · have e := href.symm.trans h1
    cases e
    exact ⟨href, h2⟩

/-! ## The tape under one dispatch -/

/-- What an iteration of the `while` that throws nothing does to the tape: the length is
kept, every cell other than the one at the data pointer is kept, and the tape is changed by
`OP_INC_CELL`, `OP_DEC_CELL` and `OP_READ` only. -/
theorem dispatch_cells (s t : State) (h : dispatch s = .normal t) :
    t.cells.length = s.cells.length ∧
    (∀ i, i ≠ s.num → t.cells[i]? = s.cells[i]?) ∧
    (t.cells ≠ s.cells →
      s.m.im.get_next.1 = OP_INC_CELL ∨ s.m.im.get_next.1 = OP_DEC_CELL ∨
        s.m.im.get_next.1 = OP_READ) := by
  unfold dispatch at h
  dsimp only at h
  generalize s.m.im.get_next.1 = op at h ⊢
  cases op with
  | OP_INC_CELL =>
      dsimp only at h
      injection h with h; subst h
      exact ⟨List.length_set _ _ _, fun i hi => List.getElem?_set_ne (Ne.symm hi),
        fun _ => Or.inl rfl⟩
  | OP_DEC_CELL =>
      dsimp only at h
      injection h with h; subst h
      exact ⟨List.length_set _ _ _, fun i hi => List.getElem?_set_ne (Ne.symm hi),
        fun _ => Or.inr (Or.inl rfl)⟩
  | OP_READ =>
      dsimp only at h
      rcases hx : cin_extract s.m.cin with ⟨_ | c, rest⟩ <;> rw [hx] at h <;>
        (dsimp only at h; injection h with h; subst h)
      · exact ⟨rfl, fun _ _ => rfl, fun _ => Or.inr (Or.inr rfl)⟩
      · exact ⟨List.length_set _ _ _, fun i hi => List.getElem?_set_ne (Ne.symm hi),
          fun _ => Or.inr (Or.inr rfl)⟩
  | OP_BEGIN_LOOP =>
      dsimp only at h
      split_ifs at h <;>
        (injection h with h; subst h; exact ⟨rfl, fun _ _ => rfl, fun hc => absurd rfl hc⟩)
  | OP_END_LOOP =>
      dsimp only at h
      cases hst : s.st with
      | nil => rw [hst] at h; cases h
      | cons top rest =>
          rw [hst] at h
          dsimp only at h
          injection h with h; subst h
          exact ⟨rfl, fun _ _ => rfl, fun hc => absurd rfl hc⟩
  | OP_UNKNOWN => cases h
  | OP_ROTATE_CLOCKWISE => cases h
  | OP_ROTATE_COUNTER_CLOCKWISE => cases h
  | _ =>
      dsimp only at h
      injection h with h; subst h
      exact ⟨rfl, fun _ _ => rfl, fun hc => absurd rfl hc⟩

/-- The tape has 30000 cells in every state reached by `run`. -/
theorem iterate_dispatch_cells_length (m : GraphicMachine) (k : Nat) (u : State)
    (h : iterate_dispatch k m.start = some u) : u.cells.length = 30000 :=
  iterate_dispatch_induction (fun u => u.cells.length = 30000)
    (fun s t hs _ hd => by
      show t.cells.length = 30000
      rw [(dispatch_cells s t hd).1]
      exact hs)
    k m.start u (List.length_replicate 30000 0) h

/-- C31: when an iteration of the `while` of `interpretator` dispatches an operation and
throws nothing, the tape keeps its length and every cell other than the one at the data
pointer keeps its value; `OP_WRITE`, `OP_NEXT_CELL`, `OP_PREV_CELL`, `OP_BEGIN_LOOP` and
`OP_END_LOOP` leave the whole tape unchanged, so that a tape that has changed was changed by
`OP_INC_CELL`, `OP_DEC_CELL` or `OP_READ`.  In every state reached by `run`, which starts
with 30000 cells, the tape has 30000 cells. -/
theorem dispatch_tape_frame (s t : State) (h : dispatch s = .normal t) :
    t.cells.length = s.cells.length ∧
    (∀ i, i ≠ s.num → t.cells[i]? = s.cells[i]?) ∧
    (s.m.im.get_next.1 ∈
        [OP_WRITE, OP_NEXT_CELL, OP_PREV_CELL, OP_BEGIN_LOOP, OP_END_LOOP] →
      t.cells = s.cells) ∧
    (t.cells ≠ s.cells →
      s.m.im.get_next.1 ∈ [OP_INC_CELL, OP_DEC_CELL, OP_READ]) ∧
    (∀ (m : GraphicMachine) (k : Nat) (u : State),
      iterate_dispatch k m.start = some u → u.cells.length = 30000) := by
  obtain ⟨h1, h2, h3⟩ := dispatch_cells s t h
  refine ⟨h1, h2, ?_, ?_, iterate_dispatch_cells_length⟩
  · intro hm
    by_contra hc
    rcases h3 hc with e | e | e <;> rw [e] at hm <;> exact absurd hm (by decide)
  · intro hc
    rcases h3 hc with e | e | e <;> rw [e] <;> decide

/-- Witness of C31: `+` dispatched with the data pointer at cell 1 of the tape 7, 255, 9
keeps the three cells of the tape and the values of cells 0 and 2. -/
theorem dispatch_tape_frame_witness :
    dispatch (strip_state [OP_INC_CELL] 0 1 [7, 255, 9] []) =
      .normal (strip_state [OP_INC_CELL] 1 1 [7, 0, 9] []) ∧
    (strip_state [OP_INC_CELL] 1 1 [7, 0, 9] []).cells.length = 3 ∧
    (strip_state [OP_INC_CELL] 1 1 [7, 0, 9] []).cells[0]? = some 7 ∧
    (strip_state [OP_INC_CELL] 1 1 [7, 0, 9] []).cells[2]? = some 9 :=
  ⟨by decide,
   (dispatch_tape_frame (strip_state [OP_INC_CELL] 0 1 [7, 255, 9] [])
      (strip_state [OP_INC_CELL] 1 1 [7, 0, 9] []) (by decide)).1,
   (dispatch_tape_frame (strip_state [OP_INC_CELL] 0 1 [7, 255, 9] [])
      (strip_state [OP_INC_CELL] 1 1 [7, 0, 9] []) (by decide)).2.1 0 (by decide),
   (dispatch_tape_frame (strip_state [OP_INC_CELL] 0 1 [7, 255, 9] [])
      (strip_state [OP_INC_CELL] 1 1 [7, 0, 9] []) (by decide)).2.1 2 (by decide)⟩

/-! ## A run on the stream as `print` leaves it -/

/-- The method `print` returns with the stream done: at the end of the program when it was
entered at or before the end, where it stood otherwise. -/
theorem print_leaves_done (m : GraphicMachine) (hn : m.im.n < 4294967296) :
    ∃ mp : GraphicMachine,
      m.print = some mp ∧ mp.im.is_done = true ∧
      (m.im.cur_pos ≤ m.im.n → mp.im.cur_pos = m.im.n) := by
  by_cases hc : m.im.cur_pos ≤ m.im.n
  · have h : print_loop (m.im.n - m.im.cur_pos) { m with cout := m.cout ++ BEGIN_BANNER } =
        some { m with im := { m.im with cur_pos := m.im.n },
                      cout := m.cout ++ BEGIN_BANNER ++
                        ((m.im.program.drop m.im.cur_pos).map m.printer.render).flatten } :=
      print_loop_eq (m.im.n - m.im.cur_pos) m m.im.cur_pos (m.cout ++ BEGIN_BANNER) hc hn
        (le_refl _)
    refine ⟨_, by unfold GraphicMachine.print; rw [h], ?_, fun _ => rfl⟩
    exact (GraphicIteratorMachine.is_done_eq_true _).2 (le_refl _)
  · have h : print_loop (m.im.n - m.im.cur_pos) { m with cout := m.cout ++ BEGIN_BANNER } =
        some { m with cout := m.cout ++ BEGIN_BANNER } := by
      rw [Nat.sub_eq_zero_of_le (by omega)]
      rfl
    refine ⟨_, by unfold GraphicMachine.print; rw [h], ?_, fun h' => absurd h' hc⟩
    exact (GraphicIteratorMachine.is_done_eq_true _).2 (by show m.im.n ≤ m.im.cur_pos; omega)

/-- C32: `run` does not reset the stream.  For every engine (any program, any printer, any
output type and input; stream size in the range of `boost::uint32_t`) `print` completes
and leaves the stream done, at position `n` when it was entered at or before the end, as
after `init`; a `run` called next, with no `init` in between, starts on that stream, so
that for every number of iterations allowed `interpretator` dispatches no operation and
returns normally in the state `run` set up: data pointer 0, the 30000 cells all 0, the
return stack empty, the input untouched, and nothing written but the line end of `run`
itself.  An `init` before the `run` would have put the stream back at position 0. -/
theorem run_after_print_dispatches_nothing (m : GraphicMachine) (fuel : Nat)
    (hn : m.im.n < 4294967296) :
    ∃ mp : GraphicMachine,
      m.print = some mp ∧
      (m.im.cur_pos ≤ m.im.n → mp.im.cur_pos = m.im.n) ∧
      mp.start.m.im.cur_pos = mp.im.cur_pos ∧
      mp.start.m.im.is_done = true ∧
      interpretator_log fuel mp.start = some (.normal mp.start, []) ∧
      interpretator fuel mp.start = some (.normal mp.start) ∧
      mp.run fuel =
        some (.normal { mp.start with m := { mp with cout := mp.cout ++ ['\n'] } }) ∧
      mp.start.num = 0 ∧ mp.start.cells = List.replicate 30000 0 ∧
      (∀ i, mp.start.cells.getD i 0 = 0) ∧ mp.start.st = [] ∧
      mp.init.start.m.im.cur_pos = 0 := by
  obtain ⟨mp, h1, h2, h3⟩ := print_leaves_done m hn
  have hd : mp.start.m.im.is_done = true := h2
  refine ⟨mp, h1, h3, rfl, hd, interpretator_log_done fuel _ hd,
    interpretator_done fuel _ hd, ?_, rfl, rfl, ?_, rfl, rfl⟩
  · unfold GraphicMachine.run
    rw [interpretator_done fuel _ hd]
    rfl
  · intro i
    show (List.replicate 30000 0).getD i 0 = 0
    rw [List.getD_eq_getElem?_getD, List.getElem?_replicate]
    split_ifs <;> rfl

/-- Witness of C32: after `init` and `print` on the program `+` `.` the run, allowed no
iteration at all, returns normally on the zero tape and writes the line end only. -/
theorem run_after_print_dispatches_nothing_witness :
    (strip_machine [OP_INC_CELL, OP_WRITE] OT_HEX []).init.print =
      some { strip_machine [OP_INC_CELL, OP_WRITE] OT_HEX [] with
             im := (GraphicIteratorMachine.create
               (strip_image [OP_INC_CELL, OP_WRITE]) 1).set_cur_pos 2
             cout := BEGIN_BANNER ++ ['\n'] ++ END_BANNER } ∧
    GraphicMachine.run 0
        { strip_machine [OP_INC_CELL, OP_WRITE] OT_HEX [] with
          im := (GraphicIteratorMachine.create
            (strip_image [OP_INC_CELL, OP_WRITE]) 1).set_cur_pos 2
          cout := BEGIN_BANNER ++ ['\n'] ++ END_BANNER } =
      some (.normal
        { m := { strip_machine [OP_INC_CELL, OP_WRITE] OT_HEX [] with
                 im := (GraphicIteratorMachine.create
                   (strip_image [OP_INC_CELL, OP_WRITE]) 1).set_cur_pos 2
                 cout := BEGIN_BANNER ++ ['\n'] ++ END_BANNER ++ ['\n'] }
          num := 0
          cells := List.replicate 30000 0
          st := [] }) := by
  obtain ⟨mp, h1, _, _, _, _, _, h7, _⟩ := run_after_print_dispatches_nothing
    (strip_machine [OP_INC_CELL, OP_WRITE] OT_HEX []).init 0 (by decide)
  have e : (strip_machine [OP_INC_CELL, OP_WRITE] OT_HEX []).init.print =
      some { strip_machine [OP_INC_CELL, OP_WRITE] OT_HEX [] with
             im := (GraphicIteratorMachine.create
               (strip_image [OP_INC_CELL, OP_WRITE]) 1).set_cur_pos 2
             cout := BEGIN_BANNER ++ ['\n'] ++ END_BANNER } := by
    decide
  rw [e] at h1
  cases h1
  exact ⟨e, h7⟩

end Brainloller
